import Mathlib

/-! LTEm1 modem driver: action engine and completion parsers

A shallow embedding of `src/src/actions.c`.

Conventions of the embedding

* Bytes, result codes and addresses are natural numbers.  A `char *` is the
  address it holds on the flat address space of the target; `NULL` is `0`.
* A C string is the list of its bytes before the terminating NUL.
* A function that would read outside the memory it was handed returns `none`.
* Calls to collaborators that only produce an effect (transport writes, delays,
  application notifications, yields) are appended to a trace, in call order.
-/

namespace LTEm1

/-! ## Constants declared in `ltem1c.h` (the header is not part of `src/`) -/

/-- The constants of the missing header `ltem1c.h` used by `actions.c`; they are
taken as a parameter of every definition. -/
structure ltem1c_h where
  RESULT_CODE_PENDING : Nat
  RESULT_CODE_SUCCESS : Nat
  RESULT_CODE_SUCCESSRANGE : Nat
  RESULT_CODE_SUCCESSMAX : Nat
  RESULT_CODE_NOTFOUND : Nat
  RESULT_CODE_TIMEOUT : Nat
  RESULT_CODE_CANCELLED : Nat
  RESULT_CODE_ERROR : Nat
  IOP_TX_BUFFER_SZ : Nat
  ACTION_HISTRESPBUF_SZ : Nat
  ACTION_TIMEOUTml : Nat

/-- Modelled from the spec: the header values, absent from `src/`.  The result
codes are "HTTP style" (`actions.c`: "0 if parser incomplete", "OK = 200",
"range: 200 - 300", "all CME >= 500"); the two buffer sizes and the default
timeout are representative values. -/
def ltem1c : ltem1c_h where
  RESULT_CODE_PENDING := 0
  RESULT_CODE_SUCCESS := 200
  RESULT_CODE_SUCCESSRANGE := 99
  RESULT_CODE_SUCCESSMAX := 299
  RESULT_CODE_NOTFOUND := 404
  RESULT_CODE_TIMEOUT := 408
  RESULT_CODE_CANCELLED := 499
  RESULT_CODE_ERROR := 500
  IOP_TX_BUFFER_SZ := 65
  ACTION_HISTRESPBUF_SZ := 240
  ACTION_TIMEOUTml := 500

/-- The constant `ACTION_LOCKRETRIES` of `actions.c`. -/
def ACTION_LOCKRETRIES : Nat := 3

/-- The constant `ACTION_LOCKRETRY_INTERVALml` of `actions.c`. -/
def ACTION_LOCKRETRY_INTERVALml : Nat := 50

/-- Modelled from the spec: `ASCII_sCR` of the missing header, the one-byte
line terminator (carriage return) sent after a command. -/
def ASCII_sCR : List Nat := [13]

/-- The macro `OK_COMPLETED_STRING`, the bytes of `"OK\r\n"`. -/
def OK_COMPLETED_STRING : List Nat := [79, 75, 13, 10]

/-- The macro `ERROR_COMPLETED_STRING`, the bytes of `"ERROR\r\n"`. -/
def ERROR_COMPLETED_STRING : List Nat := [69, 82, 82, 79, 82, 13, 10]

/-- The macro `FAIL_COMPLETED_STRING`, the bytes of `"FAIL\r\n"`. -/
def FAIL_COMPLETED_STRING : List Nat := [70, 65, 73, 76, 13, 10]

/-- The macro `CME_PREABLE`, the bytes of `"+CME ERROR:"`. -/
def CME_PREABLE : List Nat := [43, 67, 77, 69, 32, 69, 82, 82, 79, 82, 58]

/-- The macro `CME_PREABLE_SZ`. -/
def CME_PREABLE_SZ : Nat := 11

/-- Modelled from the spec: `ASCII_cCOMMA` of the missing header, the comma. -/
def ASCII_cCOMMA : Nat := 44

/-- The bytes of a string literal. -/
def bytes (s : String) : List Nat := s.toList.map Char.toNat

/-! ## The C library functions used by the parsers -/

/-- Whether `needle` is an initial segment of `hay`. -/
def startsWith : List Nat → List Nat → Bool
  | _, [] => true
  | [], _ :: _ => false
  | h :: hs, n :: ns => h == n && startsWith hs ns

/-- Offset of the first occurrence of `needle` in `hay`, if any. -/
def findAt : List Nat → List Nat → Option Nat
  | [], needle => if startsWith [] needle then some 0 else none
  | h :: hs, needle =>
    if startsWith (h :: hs) needle then some 0 else (findAt hs needle).map (· + 1)

/-- Offset of the first occurrence of the byte `c` in `hay`, if any. -/
def findByte : List Nat → Nat → Option Nat
  | [], _ => none
  | h :: hs, c => if h = c then some 0 else (findByte hs c).map (· + 1)

/-- The C string found at address `p`, when `p` points into the string `s`
stored at address `response` (its terminating NUL included); `none` when `p`
points elsewhere. -/
def cstrAt (response : Nat) (s : List Nat) (p : Nat) : Option (List Nat) :=
  if response ≤ p ∧ p ≤ response + s.length then some (s.drop (p - response)) else none

/-- The function `strstr(p, needle)`: address of the first occurrence, or `NULL`. -/
def strstr (response : Nat) (s : List Nat) (p : Nat) (needle : List Nat) : Option Nat :=
  (cstrAt response s p).map fun hay =>
    match findAt hay needle with
    | some i => p + i
    | none => 0

/-- The function `strchr(p, c)`: address of the first occurrence of `c` (the
terminating NUL counts as part of the string), or `NULL`. -/
def strchr (response : Nat) (s : List Nat) (p : Nat) (c : Nat) : Option Nat :=
  (cstrAt response s p).map fun hay =>
    if c % 256 = 0 then p + hay.length
    else match findByte hay (c % 256) with
      | some i => p + i
      | none => 0

/-- The predicate `isspace` of the C locale. -/
def isspace (c : Nat) : Bool := c == 32 || (9 ≤ c && c ≤ 13)

/-- The predicate `isdigit`. -/
def isdigit (c : Nat) : Bool := 48 ≤ c && c ≤ 57

/-- Value of a run of decimal digits. -/
def digitsVal (ds : List Nat) : Nat := ds.foldl (fun a d => 10 * a + (d - 48)) 0

/-- Conversion of the text `t` by `strtol(.., .., 10)` with a 32-bit `long`:
the value (clamped to the range of `long`) and the number of bytes consumed,
which is `0` when no digits are found. -/
def strtolText (t : List Nat) : Int × Nat :=
  let ws := (t.takeWhile isspace).length
  let r := t.drop ws
  let sg := match r with
    | 45 :: _ => 1
    | 43 :: _ => 1
    | _ => 0
  let neg := match r with
    | 45 :: _ => true
    | _ => false
  let ds := (r.drop sg).takeWhile isdigit
  if ds.isEmpty then (0, 0)
  else
    let v : Int := if neg then - (digitsVal ds : Int) else (digitsVal ds : Int)
    (max (-(2147483648 : Int)) (min v 2147483647), ws + sg + ds.length)

/-- The function `strtol(p, endptr, 10)`: the value and the address stored in
`*endptr` (`p` itself when no conversion is performed). -/
def strtol (response : Nat) (s : List Nat) (p : Nat) : Option (Int × Nat) :=
  (cstrAt response s p).map fun t => ((strtolText t).1, p + (strtolText t).2)

/-- Conversion of an integer to `uint16_t`. -/
def toUInt16 (v : Int) : Nat := (v % 65536).toNat

/-- Conversion of an integer to `int16_t` (two's complement). -/
def toInt16 (v : Int) : Int := if v % 65536 < 32768 then v % 65536 else v % 65536 - 65536

/-- The function `strlen` with the result stored in a `uint8_t`.  A `NULL`
argument (`none`) points to no string: the call reads outside every object and
has no defined result. -/
def strlen8 (str : Option (List Nat)) : Option Nat :=
  match str with
  | some t => some (t.length % 256)
  | none => none

/-! ## Completion parsers -/

/-- A completion parser `uint16_t (*)(const char *response, char **endptr)`:
from the address of the response, the C string stored there and the value
`*endptr` holds at the call, to the result code (a `uint16_t`) and the final
`*endptr`. -/
abbrev Parser := Nat → List Nat → Nat → Option (Nat × Nat)

/-- The common exit of `action_defaultResultParser`:
`if (terminatorAt && termSearchAt + gapReqd <= terminatorAt) return RESULT_CODE_SUCCESS;
if (terminatorAt) return RESULT_CODE_ERROR; return RESULT_CODE_PENDING;`. -/
def gapResult (k : ltem1c_h) (termSearchAt gapReqd terminatorAt : Nat) : Nat :=
  if terminatorAt ≠ 0 ∧ termSearchAt + gapReqd % 256 ≤ terminatorAt then k.RESULT_CODE_SUCCESS
  else if terminatorAt ≠ 0 then k.RESULT_CODE_ERROR
  else k.RESULT_CODE_PENDING

/-- The function `action_defaultResultParser`.  The `else if (!terminatorAt)`
chain of the source is kept as written. -/
def action_defaultResultParser (k : ltem1c_h) (response : Nat) (s : List Nat)
    (preamble : Option (List Nat)) (preambleReqd : Bool) (gapReqd : Nat)
    (terminator : Option (List Nat)) (endptr : Nat) : Option (Nat × Nat) := do
  let preambleSz ← strlen8 preamble
  -- process preamble requirements
  let preambleAt ←
    if preambleSz ≠ 0 then strstr response s response (preamble.getD [])
    else some response
  if preambleSz ≠ 0 ∧ preambleReqd = true ∧ preambleAt = 0 then
    some (k.RESULT_CODE_PENDING, endptr)
  else
    let termSearchAt := if preambleAt ≠ 0 then preambleAt + preambleSz else response
    match terminator with
    | some term =>
      -- explicit terminator
      let terminatorAt ← strstr response s termSearchAt term
      some (gapResult k termSearchAt gapReqd terminatorAt, terminatorAt + term.length)
    | none =>
      -- no explicit terminator, look for standard AT responses
      let terminatorAt ← strstr response s termSearchAt OK_COMPLETED_STRING
      if terminatorAt ≠ 0 then
        some (gapResult k termSearchAt gapReqd terminatorAt, terminatorAt + 4)
      else if terminatorAt = 0 then
        -- no explicit terminator, look for extended CME errors
        let terminatorAt ← strstr response s termSearchAt CME_PREABLE
        if terminatorAt ≠ 0 then
          let r ← strtol response s (terminatorAt + CME_PREABLE_SZ)
          some (toUInt16 r.1, r.2)
        else some (gapResult k termSearchAt gapReqd terminatorAt, endptr)
      else if terminatorAt = 0 then
        -- no explicit terminator, look for ERROR
        let terminatorAt ← strstr response s termSearchAt ERROR_COMPLETED_STRING
        if terminatorAt ≠ 0 then some (k.RESULT_CODE_ERROR, terminatorAt + 7)
        else some (gapResult k termSearchAt gapReqd terminatorAt, endptr)
      else if terminatorAt = 0 then
        -- no explicit terminator, look for FAIL
        let terminatorAt ← strstr response s termSearchAt FAIL_COMPLETED_STRING
        if terminatorAt ≠ 0 then some (k.RESULT_CODE_ERROR, terminatorAt + 6)
        else some (gapResult k termSearchAt gapReqd terminatorAt, endptr)
      else some (gapResult k termSearchAt gapReqd terminatorAt, endptr)

/-- The delimiter counting loop of `action_tokenResultParser`:
`while (next < terminatorAt && next != NULL) { next = strchr(++next, delim);
delimitersFound += (next == NULL) ? 0 : 1; }`.  Every turn either moves `next`
forward or makes it `NULL`, so `fuel` larger than the length of the response is
never used up. -/
def countDelimiters (response : Nat) (s : List Nat) (delim : Nat) (terminatorAt : Nat) :
    Nat → Nat → Nat → Option Nat
  | 0, _, _ => none
  | fuel + 1, next, delimitersFound =>
    if next < terminatorAt ∧ next ≠ 0 then
      (strchr response s (next + 1) delim).bind fun next1 =>
        countDelimiters response s delim terminatorAt fuel next1
          ((delimitersFound + (if next1 = 0 then 0 else 1)) % 256)
    else some delimitersFound

/-- The function `action_tokenResultParser`. -/
def action_tokenResultParser (k : ltem1c_h) (response : Nat) (s : List Nat)
    (preamble : List Nat) (delim : Nat) (reqdTokens : Nat) (terminator : List Nat)
    (_endptr : Nat) : Option (Nat × Nat) := do
  let terminatorAt ← strstr response s response terminator
  let endptr := terminatorAt + terminator.length + 1
  if terminatorAt ≠ 0 then
    let preambleAt ← strstr response s response preamble
    if preambleAt = 0 then some (k.RESULT_CODE_NOTFOUND, endptr)
    else
      -- now count delimitersFound
      let next := preambleAt + preamble.length + 1
      let delimitersFound ← countDelimiters response s delim terminatorAt (s.length + 2) next 0
      if reqdTokens % 256 ≤ (delimitersFound + 1) % 256 then some (k.RESULT_CODE_SUCCESS, endptr)
      else some (k.RESULT_CODE_NOTFOUND, endptr)
  else
    -- CME error codes generated by BG96
    let cmeErrorCodeAt ← strstr response s response CME_PREABLE
    if cmeErrorCodeAt ≠ 0 then
      let r ← strtol response s (cmeErrorCodeAt + CME_PREABLE_SZ)
      some (toUInt16 r.1, r.2)
    else some (k.RESULT_CODE_PENDING, endptr)

/-- The function `action_okResultParser`: the preamble and the terminator it
passes on are both `NULL`. -/
def action_okResultParser (k : ltem1c_h) : Parser := fun response s endptr =>
  action_defaultResultParser k response s none false 0 none endptr

/-- A completion parser as a protocol module supplies one: the default matcher
called with the empty preamble `""`, no required gap and no explicit
terminator. -/
def emptyPreambleParser (k : ltem1c_h) : Parser := fun response s endptr =>
  action_defaultResultParser k response s (some []) false 0 none endptr

/-- The field skipping loop of `action_serviceResponseParser`:
`for (i = 0; i < resultIndx; i++) { if (next == NULL) break;
next = strchr(next, ASCII_cCOMMA); next++; }`. -/
def skipFields (response : Nat) (s : List Nat) : Nat → Nat → Option Nat
  | 0, next => some next
  | n + 1, next =>
    if next = 0 then some next
    else (strchr response s next ASCII_cCOMMA).bind fun at_ => skipFields response s n (at_ + 1)

/-- The function `action_serviceResponseParser`.  When `next` is `NULL` after
the loop the C code reads the uninitialised `resultVal`; that case is `none`. -/
def action_serviceResponseParser (k : ltem1c_h) (response : Nat) (s : List Nat)
    (preamble : List Nat) (resultIndx : Nat) (endptr : Nat) : Option (Nat × Nat) := do
  let next ← strstr response s response preamble
  if next = 0 then some (k.RESULT_CODE_PENDING, endptr)
  else
    let next := next + preamble.length
    let next ← skipFields response s (resultIndx % 256) next
    if next ≠ 0 then
      let r ← strtol response s next
      let resultVal : Int := toInt16 (toUInt16 r.1)
      -- return a success value 200 + result (range: 200 - 300)
      some (toUInt16 (if resultVal < k.RESULT_CODE_SUCCESSRANGE
              then (k.RESULT_CODE_SUCCESS : Int) + resultVal else resultVal), r.2)
    else none

/-! ## The device state -/

/-- The kinds of application notification that occur in `src/`. -/
inductive ltem1NotifType where
  | hwNotReady
  | memoryAllocFault
  deriving DecidableEq, Repr

/-- A call to a collaborator that only produces an effect. -/
inductive Event where
  | iop_txSend (data : List Nat) (sendImmediate : Bool)
  | lDelay (millis : Nat)
  | lYield
  | ltem1_notifyApp (notifType : ltem1NotifType) (message : String)
  deriving DecidableEq, Repr

/-- The struct `actionResult_t`; `response` is a `char *`. -/
structure actionResult_t where
  statusCode : Nat
  response : Nat
  deriving DecidableEq, Repr

/-- The diagnostics record `action->lastActionError`. -/
structure actionHistory_t where
  cmdStr : List Nat
  response : List Nat
  statusCode : Nat
  duration : Nat
  deriving DecidableEq, Repr

/-- The struct behind `g_ltem1->action`.  `cmdStr` is the whole array
`char cmdStr[IOP_TX_BUFFER_SZ]`; `response` is the C string `action->response`
designates; a `NULL` function pointer is `none`. -/
structure action_t where
  cmdStr : List Nat
  isOpen : Bool
  timeoutMillis : Nat
  resultCode : Nat
  invokedAt : Nat
  taskCompleteParser_func : Option Parser
  response : List Nat
  lastActionError : actionHistory_t

/-- The receive command buffer `iop->rxCmdBuf`: the array `mem` stored at
address `buffer`, and the two cursors, which are addresses. -/
structure iopBuffer_t where
  buffer : Nat
  mem : List Nat
  head : Nat
  tail : Nat
  deriving DecidableEq, Repr

/-- The part of `g_ltem1->iop` used by `actions.c`. -/
structure iop_t where
  rxCmdBuf : iopBuffer_t
  deriving DecidableEq, Repr

/-- The part of the global `*g_ltem1` used by `actions.c`. -/
structure ltem1Device_t where
  action : action_t
  iop : iop_t
  cancellationRequest : Bool

/-- Everything the functions of `actions.c` read or change: the device, the
millisecond clock read by `lMillis()`, and the trace of effects so far. -/
structure World where
  ltem1 : ltem1Device_t
  millis : Nat
  trace : List Event

/-- The collaborators of `actions.c` whose code is not part of `src/`, taken as
parameters.  `lTimerExpired clock start timeout` is given the clock value it
reads; the two hardware checks are the signals read at the call; `lDelay` and
`lYield` say what the code run while the caller is suspended does to the
device. -/
structure Platform where
  lTimerExpired : Nat → Nat → Nat → Bool
  ltem1_chkHwReady : Bool
  sc16is741a_chkCommReady : Bool
  iop_resetCmdBuffer : iop_t → iop_t
  iop_rxParseImmediate : iop_t → iop_t
  lDelay : Nat → ltem1Device_t → ltem1Device_t
  lYield : ltem1Device_t → ltem1Device_t
  lYieldMillis : Nat → Nat

/-- The byte at address `p` of the receive buffer; `none` outside the array. -/
def iopBuffer_t.byteAt (b : iopBuffer_t) (p : Nat) : Option Nat :=
  if b.buffer ≤ p then b.mem[p - b.buffer]? else none

/-- The bytes before the first NUL; `none` when there is no NUL. -/
def cstr : List Nat → Option (List Nat)
  | [] => none
  | c :: cs => if c = 0 then some [] else (cstr cs).map (c :: ·)

/-- The C string at address `p` of the receive buffer; `none` when `p` is
outside the array or no NUL follows inside it. -/
def iopBuffer_t.strAt (b : iopBuffer_t) (p : Nat) : Option (List Nat) :=
  if b.buffer ≤ p then cstr (b.mem.drop (p - b.buffer)) else none

/-- The call `lMillis()`. -/
def lMillis (w : World) : Nat := w.millis

/-- The call `lDelay(ms)`: the clock moves on by `ms`. -/
def lDelay (p : Platform) (ms : Nat) (w : World) : World :=
  { ltem1 := p.lDelay ms w.ltem1
    millis := (w.millis + ms) % 4294967296
    trace := w.trace ++ [Event.lDelay ms] }

/-- The call `lYield()`. -/
def lYield (p : Platform) (w : World) : World :=
  { ltem1 := p.lYield w.ltem1
    millis := p.lYieldMillis w.millis
    trace := w.trace ++ [Event.lYield] }

/-- The call `iop_txSend(data, dataSz, sendImmediate)`. -/
def iop_txSend (data : List Nat) (dataSz : Nat) (sendImmediate : Bool) (w : World) : World :=
  { w with trace := w.trace ++ [Event.iop_txSend (data.take dataSz) sendImmediate] }

/-- The call `ltem1_notifyApp(notifType, message)`. -/
def ltem1_notifyApp (notifType : ltem1NotifType) (message : String) (w : World) : World :=
  { w with trace := w.trace ++ [Event.ltem1_notifyApp notifType message] }

/-- The bytes handed to the transport, in order. -/
def txBytes : List Event → List Nat
  | [] => []
  | Event.iop_txSend data _ :: es => data ++ txBytes es
  | _ :: es => txBytes es

/-- The application notifications of a trace, in order. -/
def notifications : List Event → List (ltem1NotifType × String)
  | [] => []
  | Event.ltem1_notifyApp t m :: es => (t, m) :: notifications es
  | _ :: es => notifications es

/-- The delays of a trace, in order. -/
def delays : List Event → List Nat
  | [] => []
  | Event.lDelay ms :: es => ms :: delays es
  | _ :: es => delays es

/-- An array of `sz` bytes after `memset(dst, 0, sz); strncpy(dst, src, n)`,
where `src` is the text copied (the source up to its NUL) and `n ≤ sz`. -/
def zeroThenCopy (sz : Nat) (src : List Nat) (n : Nat) : List Nat :=
  src.take n ++ List.replicate (sz - (src.take n).length) 0

/-! ## The action engine -/

/-- The function `action_close`. -/
def action_close (w : World) : World :=
  { w with ltem1 := { w.ltem1 with action := { w.ltem1.action with isOpen := false } } }

/-- The function `s_actionInit`. -/
def s_actionInit (k : ltem1c_h) (p : Platform) (cmdStr : List Nat) (w : World) : World :=
  { w with
    ltem1 :=
      { w.ltem1 with
        action :=
          { w.ltem1.action with
            isOpen := true
            cmdStr := zeroThenCopy k.IOP_TX_BUFFER_SZ cmdStr (min cmdStr.length k.IOP_TX_BUFFER_SZ)
            timeoutMillis := 0
            resultCode := k.RESULT_CODE_PENDING
            invokedAt := 0
            taskCompleteParser_func := none }
        -- response side
        iop := p.iop_resetCmdBuffer w.ltem1.iop } }

/-- The function `s_copyToDiagnostics`. -/
def s_copyToDiagnostics (k : ltem1c_h) (w : World) : World :=
  let a := w.ltem1.action
  { w with
    ltem1 :=
      { w.ltem1 with
        action :=
          { a with
            lastActionError :=
              { cmdStr := zeroThenCopy k.ACTION_HISTRESPBUF_SZ (a.cmdStr.takeWhile (· ≠ 0))
                  (k.ACTION_HISTRESPBUF_SZ - 1)
                response := zeroThenCopy k.ACTION_HISTRESPBUF_SZ (a.response.takeWhile (· ≠ 0))
                  (k.ACTION_HISTRESPBUF_SZ - 1)
                statusCode := a.resultCode
                duration := (lMillis w + 4294967296 - a.invokedAt % 4294967296) % 4294967296 } } } }

/-- The loop of `actn_acquireLock`:
`while (isOpen) { retries--; if (retries == 0) return false; lDelay(..); }`.
The result is whether the loop was left through its condition.  The loop is
only entered with `retries ≠ 0` and only goes round with `retries ≠ 0`, so the
first equation is never used. -/
def lockWait (p : Platform) : Nat → World → Bool × World
  | 0, w => (false, w)
  | retries + 1, w =>
    if w.ltem1.action.isOpen then
      if retries = 0 then (false, w)
      else lockWait p retries (lDelay p ACTION_LOCKRETRY_INTERVALml w)
    else (true, w)

/-- The function `actn_acquireLock`. -/
def actn_acquireLock (k : ltem1c_h) (p : Platform) (cmdStr : List Nat) (retries : Nat)
    (w : World) : Bool × World :=
  if w.ltem1.action.isOpen then
    if retries ≠ 0 then
      match lockWait p retries w with
      | (true, w1) => (true, s_actionInit k p cmdStr w1)
      | (false, w1) => (false, w1)
    else (false, w)
  else (true, s_actionInit k p cmdStr w)

/-- The function `action_tryInvokeAdv`. -/
def action_tryInvokeAdv (k : ltem1c_h) (p : Platform) (cmdStr : List Nat) (timeout : Nat)
    (taskCompleteParser : Option Parser) (w : World) : Bool × World :=
  match actn_acquireLock k p cmdStr ACTION_LOCKRETRIES w with
  | (false, w1) => (false, w1)
  | (true, w1) =>
    let w2 : World :=
      { w1 with
        ltem1 :=
          { w1.ltem1 with
            action :=
              { w1.ltem1.action with
                timeoutMillis := timeout
                invokedAt := lMillis w1
                taskCompleteParser_func :=
                  match taskCompleteParser with
                  | none => some (action_okResultParser k)
                  | some f => some f } } }
    let w3 := iop_txSend cmdStr cmdStr.length false w2
    (true, iop_txSend ASCII_sCR 1 true w3)

/-- The function `action_tryInvoke`. -/
def action_tryInvoke (k : ltem1c_h) (p : Platform) (cmdStr : List Nat) (w : World) :
    Bool × World :=
  action_tryInvokeAdv k p cmdStr k.ACTION_TIMEOUTml (some (action_okResultParser k)) w

/-- The timeout branch of `action_getResult` (source lines 168 to 178). -/
def timeoutBranch (k : ltem1c_h) (p : Platform) (w : World) : World :=
  let w1 : World :=
    { w with
      ltem1 :=
        { w.ltem1 with
          action :=
            { w.ltem1.action with resultCode := k.RESULT_CODE_TIMEOUT, isOpen := false } } }
  -- copy to diagnostics on error
  let w2 := s_copyToDiagnostics k w1
  -- if action timed-out, verify not a device wide failure
  if !p.ltem1_chkHwReady then
    ltem1_notifyApp ltem1NotifType.hwNotReady "Modem HW Status Offline" w2
  else if !p.sc16is741a_chkCommReady then
    ltem1_notifyApp ltem1NotifType.hwNotReady "Modem comm unresponsive" w2
  else w2

/-- The first step of `action_getResult` (source lines 156 to 162): with
`endptr = NULL`, when `tail[0] != 0` the installed parser is run on the tail
and its code stored in the Action.  The result is the world and `endptr`; it
is `none` when the step reads outside the receive buffer, calls a `NULL`
parser, or the parser does. -/
def runParser (w : World) : Option (World × Nat) := do
  let rx := w.ltem1.iop.rxCmdBuf
  let tail0 ← rx.byteAt rx.tail
  if tail0 ≠ 0 then
    let f ← w.ltem1.action.taskCompleteParser_func
    let str ← rx.strAt rx.tail
    let r ← f rx.tail str 0
    pure ({ w with
        ltem1 := { w.ltem1 with action := { w.ltem1.action with resultCode := r.1 } } }, r.2)
  else pure (w, 0)

/-- The rest of `action_getResult` (source lines 164 to 200), from the world
and the `endptr` the first step leaves. -/
def concludeResult (k : ltem1c_h) (p : Platform) (closeAction : Bool) (w1 : World)
    (endptr : Nat) : actionResult_t × World :=
  let result : actionResult_t :=
    { statusCode := k.RESULT_CODE_PENDING, response := w1.ltem1.iop.rxCmdBuf.buffer }
  if w1.ltem1.action.resultCode = k.RESULT_CODE_PENDING then
    -- check for timeout error
    if p.lTimerExpired (lMillis w1) w1.ltem1.action.invokedAt w1.ltem1.action.timeoutMillis then
      ({ result with statusCode := k.RESULT_CODE_TIMEOUT }, timeoutBranch k p w1)
    else (result, w1)
  else
    -- parser completed, set return status code (could be success or error)
    let result := { result with statusCode := w1.ltem1.action.resultCode }
    let rx1 : iopBuffer_t := { w1.ltem1.iop.rxCmdBuf with tail := endptr }
    let iop1 : iop_t := { w1.ltem1.iop with rxCmdBuf := rx1 }
    -- if parser left data trailing parsed content in cmd buffer: parseImmediate for URCs
    let iop2 := if rx1.tail < rx1.head then p.iop_rxParseImmediate iop1 else iop1
    let w2 : World := { w1 with ltem1 := { w1.ltem1 with iop := iop2 } }
    if result.statusCode ≤ k.RESULT_CODE_SUCCESSMAX then
      -- parser completed with success code
      if closeAction then
        (result, { w2 with
          ltem1 := { w2.ltem1 with action := { w2.ltem1.action with isOpen := false } } })
      else (result, w2)
    else
      -- close action to release action lock on any error
      let w3 : World :=
        { w2 with ltem1 := { w2.ltem1 with action := { w2.ltem1.action with isOpen := false } } }
      (result, s_copyToDiagnostics k w3)

/-- The function `action_getResult`. -/
def action_getResult (k : ltem1c_h) (p : Platform) (closeAction : Bool) (w : World) :
    Option (actionResult_t × World) :=
  (runParser w).map fun r => concludeResult k p closeAction r.1 r.2

/-- The function `action_awaitResult`.  The loop goes round at most `fuel`
times; the result is `none` when that is not enough or a poll is `none`. -/
def action_awaitResult (k : ltem1c_h) (p : Platform) (autoCloseAction : Bool) :
    Nat → World → Option (actionResult_t × World)
  | 0, _ => none
  | fuel + 1, w =>
    (action_getResult k p autoCloseAction w).bind fun r =>
      if r.2.ltem1.cancellationRequest then
        some ({ statusCode := k.RESULT_CODE_CANCELLED, response := 0 }, r.2)
      else
        let w2 := lYield p r.2
        if r.1.statusCode = k.RESULT_CODE_PENDING then action_awaitResult k p autoCloseAction fuel w2
        else some (r.1, w2)

/-! ## Running the engine -/

/-- A call of the lock interface. -/
inductive LockCall where
  | acquire (cmdStr : List Nat) (retries : Nat)
  | close

/-- One call of the lock interface: what it returns (`true` for `action_close`,
which returns nothing) and the world it leaves. -/
def lockCall (k : ltem1c_h) (p : Platform) : LockCall → World → Bool × World
  | LockCall.acquire cmdStr retries, w => actn_acquireLock k p cmdStr retries w
  | LockCall.close, w => (true, action_close w)

/-- The world after a sequence of calls of the lock interface. -/
def lockCalls (k : ltem1c_h) (p : Platform) : List LockCall → World → World
  | [], w => w
  | c :: cs, w => lockCalls k p cs (lockCall k p c w).2

/-- The number of Actions open after a sequence of calls, `opened` being the
number open before: a successful acquisition opens one, a close closes one. -/
def openActions (k : ltem1c_h) (p : Platform) : List LockCall → World → Nat → Nat
  | [], _, opened => opened
  | LockCall.acquire cmdStr retries :: cs, w, opened =>
    openActions k p cs (actn_acquireLock k p cmdStr retries w).2
      (if (actn_acquireLock k p cmdStr retries w).1 then opened + 1 else opened)
  | LockCall.close :: cs, w, opened => openActions k p cs (action_close w) (opened - 1)

/-- Modelled from the spec: the byte ingestion of the transport layer (absent
from `src/`), which "appends to the active page": the bytes are stored at the
head of the receive buffer and the head moves past them. -/
def iop_rxReceive (data : List Nat) (w : World) : World :=
  let rx := w.ltem1.iop.rxCmdBuf
  let at_ := rx.head - rx.buffer
  { w with
    ltem1 :=
      { w.ltem1 with
        iop :=
          { rxCmdBuf :=
              { rx with
                mem := rx.mem.take at_ ++ data ++ rx.mem.drop (at_ + data.length)
                head := rx.head + data.length } } } }

/-- Modelled from the spec: a platform on which the engine is run on concrete
inputs.  The timer follows `pElapsed` of `platform/arduinoSAMD-timing.cpp`; the
buffer reset "resets the command buffer" (zeroes it and rewinds both cursors);
the unsolicited-message scanner finds nothing to consume; nothing else runs
during a delay or a yield, and a yield takes one millisecond. -/
def testPlatform (hwReady commReady : Bool) : Platform where
  lTimerExpired := fun clock start timeout =>
    if start = 0 then false else decide ((clock + 4294967296 - start) % 4294967296 > timeout)
  ltem1_chkHwReady := hwReady
  sc16is741a_chkCommReady := commReady
  iop_resetCmdBuffer := fun iop =>
    { rxCmdBuf :=
        { buffer := iop.rxCmdBuf.buffer
          mem := List.replicate iop.rxCmdBuf.mem.length 0
          head := iop.rxCmdBuf.buffer
          tail := iop.rxCmdBuf.buffer } }
  iop_rxParseImmediate := fun iop => iop
  lDelay := fun _ d => d
  lYield := fun d => d
  lYieldMillis := fun t => (t + 1) % 4294967296

/-- A small instance of the header constants for concrete runs: the result
codes of `ltem1c` with an 8-byte command array and an 8-byte history array. -/
def smallHeader : ltem1c_h :=
  { ltem1c with IOP_TX_BUFFER_SZ := 8, ACTION_HISTRESPBUF_SZ := 8 }

/-- A device at rest: no Action open, a zeroed 24-byte receive buffer stored at
address 1000, the clock at 100 ms. -/
def idleWorld : World where
  ltem1 :=
    { action :=
        { cmdStr := List.replicate 8 0
          isOpen := false
          timeoutMillis := 0
          resultCode := 0
          invokedAt := 0
          taskCompleteParser_func := none
          response := []
          lastActionError := { cmdStr := [], response := [], statusCode := 0, duration := 0 } }
      iop := { rxCmdBuf := { buffer := 1000, mem := List.replicate 24 0, head := 1000, tail := 1000 } }
      cancellationRequest := false }
  millis := 100
  trace := []

/-- The device at rest with an Action open. -/
def busyWorld : World :=
  { idleWorld with
    ltem1 :=
      { idleWorld.ltem1 with
        action := { idleWorld.ltem1.action with isOpen := true, cmdStr := [65, 84, 0, 0, 0, 0, 0, 0] } } }

/-- The command buffer is empty at the tail: `tail[0] == 0`. -/
def bufferEmpty (w : World) : Prop :=
  w.ltem1.iop.rxCmdBuf.byteAt w.ltem1.iop.rxCmdBuf.tail = some 0

/-- The installed parser, run on the non-empty unconsumed tail of the command
buffer, reports the code `c` and the position `e`. -/
def parserReports (w : World) (c e : Nat) : Prop :=
  ∃ b f str,
    w.ltem1.iop.rxCmdBuf.byteAt w.ltem1.iop.rxCmdBuf.tail = some b ∧ b ≠ 0 ∧
    w.ltem1.action.taskCompleteParser_func = some f ∧
    w.ltem1.iop.rxCmdBuf.strAt w.ltem1.iop.rxCmdBuf.tail = some str ∧
    f w.ltem1.iop.rxCmdBuf.tail str 0 = some (c, e)

/-- The world after `action_tryInvokeAdv(cmdStr, timeout, parser)` on the
device at rest, on the test platform with the given hardware signals. -/
def invokedWorld (hwReady commReady : Bool) (cmdStr : List Nat) (timeout : Nat)
    (parser : Option Parser) : World :=
  (action_tryInvokeAdv smallHeader (testPlatform hwReady commReady) cmdStr timeout parser
    idleWorld).2

/-- The world after `"AT"` has been invoked on the ready device with a 500 ms
budget and the completion parser `emptyPreambleParser`. -/
def invokedAT : World :=
  invokedWorld true true [65, 84] 500 (some (emptyPreambleParser smallHeader))

/-- The clock moved on by `ms` milliseconds. -/
def clockAdvance (ms : Nat) (w : World) : World :=
  { w with millis := (w.millis + ms) % 4294967296 }

/-- A token-count parser as a protocol module would wrap it: preamble `"+X: "`,
delimiter comma, two tokens, terminator `"OK\r\n"`. -/
def tokenParserX (k : ltem1c_h) : Parser := fun response s endptr =>
  action_tokenResultParser k response s [43, 88, 58, 32] 44 2 [79, 75, 13, 10] endptr

/-- A poll on the test platform with healthy hardware: the result of
`action_getResult` and the world it leaves (a poll that is `none` leaves the
world as it is). -/
def polled (closeAction : Bool) (w : World) : actionResult_t × World :=
  (action_getResult smallHeader (testPlatform true true) closeAction w).getD
    ({ statusCode := 0, response := 0 }, w)

/-- The text `needle` occurs in `hay` at offset `i`. -/
def occursAt (hay needle : List Nat) (i : Nat) : Prop :=
  ∃ pre post, hay = pre ++ needle ++ post ∧ pre.length = i

/-- The first occurrence of `needle` in `hay` is at offset `i`. -/
def firstAt (hay needle : List Nat) (i : Nat) : Prop :=
  occursAt hay needle i ∧ ∀ j, occursAt hay needle j → i ≤ j

/-- The offset `o` in the response `s` at which `action_defaultResultParser`
starts to look for the terminator: the start of the response when there is no
preamble (its stored size is 0) or when a preamble that is not required is
absent, and the first occurrence of the preamble plus its stored size
otherwise. -/
def searchStartsAt (s : List Nat) (preamble : List Nat) (preambleReqd : Bool)
    (o : Nat) : Prop :=
  (preamble.length % 256 = 0 ∧ o = 0) ∨
  (preamble.length % 256 ≠ 0 ∧
    ∃ j, firstAt s preamble j ∧ o = j + preamble.length % 256) ∨
  (preamble.length % 256 ≠ 0 ∧ preambleReqd = false ∧ (∀ j, ¬ occursAt s preamble j) ∧
    o = 0)

/-- Modelled from the spec: `ASCII_sOK` of the missing header, the terminal
marker `"OK\r\n"`. -/
def ASCII_sOK : List Nat := [79, 75, 13, 10]

/-- The function `contextStatusCompleteParser` of `network.c`; the preamble is
`"+QIACT: "`. -/
def contextStatusCompleteParser (k : ltem1c_h) : Parser := fun response s endptr =>
  action_defaultResultParser k response s (some [43, 81, 73, 65, 67, 84, 58, 32]) false 2
    (some ASCII_sOK) endptr

/-- The world with the cancellation flag `g_ltem1->cancellationRequest` set. -/
def cancelRequested (w : World) : World :=
  { w with ltem1 := { w.ltem1 with cancellationRequest := true } }

/-- The offset, in the text `t`, of the byte that follows the `n`-th comma;
`none` when `t` has fewer than `n` commas. -/
def afterNthComma : Nat → List Nat → Option Nat
  | 0, _ => some 0
  | n + 1, t =>
    match findByte t 44 with
    | none => none
    | some i => (afterNthComma n (t.drop (i + 1))).map (· + i + 1)

/-- The function `S_tcpudpOpenCompleteParser` of `ltemc-sckt.c`, a service
response parser with preamble `"+QIOPEN: "` and field index 1. -/
def S_tcpudpOpenCompleteParser (k : ltem1c_h) : Parser := fun response s endptr =>
  action_serviceResponseParser k response s [43, 81, 73, 79, 80, 69, 78, 58, 32] 1 endptr

/-! ## `network.c` -/

/-- The fields of `pdpCntxt_t` used in `network.c`. -/
structure pdpCntxt_t where
  contextId : Nat
  ipType : Nat
  ipAddress : List Nat
  deriving DecidableEq, Repr

/-- The loop of `ntwk_getPdpCntxt` from index `i` on, over the entries not yet
visited: the index of the entry whose address is returned, or `none`. -/
def getPdpCntxtFrom : Nat → List pdpCntxt_t → Option Nat
  | _, [] => none
  | i, e :: es => if e.contextId ≠ 0 then some i else getPdpCntxtFrom (i + 1) es

/-- The function `ntwk_getPdpCntxt`; `pdpCntxts` is the table
`g_ltem1->network->pdpCntxts` with its `BGX_PDPCONTEXT_COUNT` entries.  The
result is the index of the entry whose address is returned, `none` for `NULL`. -/
def ntwk_getPdpCntxt (pdpCntxts : List pdpCntxt_t) (_cntxtId : Nat) : Option Nat :=
  getPdpCntxtFrom 0 pdpCntxts

/-- The struct `networkOperator_t`: two character arrays. -/
structure networkOperator_t where
  operName : List Nat
  ntwkMode : List Nat
  deriving DecidableEq, Repr

/-- The test `ntwk.operName != 0` of `ntwk_awaitOperator`.  `operName` is the
character buffer of the struct, the one `getNetworkOperator` fills
(`grabToken(.., operName, NTWKOPERATOR_OPERNAME_SZ)`, `operName[0] = 0`): the
expression compares the address of that buffer, which is never null, with 0, and
the contents of the name play no part in it. -/
def operName_ne_null (_ntwk : networkOperator_t) : Bool := true

/-- The loop of `ntwk_awaitOperator`.  `getNetworkOperator` (the static function
of `network.c`, which runs an `AT+COPS?` action) is a parameter: the operator it
returns and the world it leaves.  The loop goes round at most `fuel` times. -/
def awaitOperatorLoop (p : Platform) (getNetworkOperator : World → networkOperator_t × World)
    (startMillis waitDuration : Nat) :
    Nat → World → Option (networkOperator_t × World)
  | 0, _ => none
  | fuel + 1, w =>
    let r := getNetworkOperator w
    if operName_ne_null r.1 then some r
    else
      let w2 := lDelay p 1000 r.2
      let endMillis := lMillis w2
      if (endMillis + 4294967296 - startMillis) % 4294967296 < waitDuration
          ∨ w2.ltem1.cancellationRequest = true then
        awaitOperatorLoop p getNetworkOperator startMillis waitDuration fuel w2
      else some (r.1, w2)

/-- The function `ntwk_awaitOperator`: `waitDuration` is a `uint16_t`, so is the
product stored back into it. -/
def ntwk_awaitOperator (p : Platform) (getNetworkOperator : World → networkOperator_t × World)
    (waitDuration : Nat) (fuel : Nat) (w : World) :
    Option (networkOperator_t × World) :=
  let startMillis := lMillis w
  let waitDuration := (waitDuration * 1000) % 65536
  awaitOperatorLoop p getNetworkOperator startMillis waitDuration fuel w

/-- An operator query that never obtains a name: the modem is not registered. -/
def noOperator : World → networkOperator_t × World := fun w =>
  ({ operName := [0], ntwkMode := [0] }, w)

/-! ## `ltemc-http.c` -/

/-- The enumerators of `httpHeaderMap_t` (declared in the missing header
`ltemc-http.h`), taken as a parameter. -/
structure httpHeaderMap_h where
  httpHeaderMap_accept : Nat
  httpHeaderMap_userAgent : Nat
  httpHeaderMap_connection : Nat
  httpHeaderMap_contentType : Nat
  httpHeaderMap_all : Nat

/-- Modelled from the spec: flag values for `httpHeaderMap_t`, one bit for each
common header and all bits for `httpHeaderMap_all`. -/
def httpHeaderMap : httpHeaderMap_h where
  httpHeaderMap_accept := 1
  httpHeaderMap_userAgent := 2
  httpHeaderMap_connection := 4
  httpHeaderMap_contentType := 8
  httpHeaderMap_all := 65535

/-- The header line `Accept: */*` with its line end. -/
def hdrAccept : List Nat := [65, 99, 99, 101, 112, 116, 58, 32, 42, 47, 42, 13, 10]

/-- The header line `User-Agent: QUECTEL_BGx` with its line end. -/
def hdrUserAgent : List Nat := [85, 115, 101, 114, 45, 65, 103, 101, 110, 116, 58, 32, 81, 85, 69, 67, 84, 69, 76, 95, 66, 71, 120, 13, 10]

/-- The header line `Connection: Keep-Alive` with its line end. -/
def hdrConnection : List Nat := [67, 111, 110, 110, 101, 99, 116, 105, 111, 110, 58, 32, 75, 101, 101, 112, 45, 65, 108, 105, 118, 101, 13, 10]

/-- The header line `Content-Type: application/octet-stream` with its line
end. -/
def hdrContentType : List Nat := [67, 111, 110, 116, 101, 110, 116, 45, 84, 121, 112, 101, 58, 32, 97, 112, 112, 108, 105, 99, 97, 116, 105, 111, 110, 47, 111, 99, 116, 101, 116, 45, 115, 116, 114, 101, 97, 109, 13, 10]

/-- The C expression `headerMap & flag > 0 || headerMap == httpHeaderMap_all`:
the comparison `flag > 0` binds tighter than `&`. -/
def hdrTest (all headerMap flag : Nat) : Bool :=
  (headerMap &&& (if flag > 0 then 1 else 0)) != 0 || headerMap == all

/-- One block of `http_addCommonHdrs`: when the test holds, the header is
appended if `strlen(cstmHdrs) + n < cstmHdrsSz`, otherwise `addedHdrsFit`
becomes false. -/
def addHdr (test : Bool) (hdr : List Nat) (n cstmHdrsSz : Nat) (st : List Nat × Bool) :
    List Nat × Bool :=
  if test then
    if st.1.length + n < cstmHdrsSz then (st.1 ++ hdr, st.2) else (st.1, false)
  else st

/-- The function `http_addCommonHdrs`: the text of `httpCtrl->cstmHdrs`
afterwards and the final value of `addedHdrsFit` (the argument of the closing
`ASSERT`). -/
def http_addCommonHdrs (m : httpHeaderMap_h) (cstmHdrs : List Nat) (cstmHdrsSz headerMap : Nat) :
    List Nat × Bool :=
  let st0 : List Nat × Bool := (cstmHdrs, true)
  let st1 := addHdr (hdrTest m.httpHeaderMap_all headerMap m.httpHeaderMap_accept)
    hdrAccept 13 cstmHdrsSz st0
  let st2 := addHdr (hdrTest m.httpHeaderMap_all headerMap m.httpHeaderMap_userAgent)
    hdrUserAgent 25 cstmHdrsSz st1
  let st3 := addHdr (hdrTest m.httpHeaderMap_all headerMap m.httpHeaderMap_connection)
    hdrConnection 24 cstmHdrsSz st2
  addHdr (hdrTest m.httpHeaderMap_all headerMap m.httpHeaderMap_contentType)
    hdrContentType 40 cstmHdrsSz st3

/-! ## `ltemc-sckt.c` -/

/-- The constants of the missing headers used by `ltemc-sckt.c`, taken as a
parameter: the number of data contexts and two enumerators of `protocol_t`. -/
structure ltemc_h where
  dataContext_cnt : Nat
  protocol_ssl : Nat
  protocol_socket : Nat

/-- Modelled from the spec: header values for concrete runs; six data contexts
("Data context (0-5)" in `ltemc-sckt.c`) and the socket protocols tcp, udp, ssl
numbered below `protocol_socket`. -/
def ltemc : ltemc_h where
  dataContext_cnt := 6
  protocol_ssl := 2
  protocol_socket := 3

/-- The enumerator `SCKT__IRD_requestMaxSz` of `ltemc-sckt.c`. -/
def SCKT__IRD_requestMaxSz : Nat := 1500

/-- One page of a receive buffer: the bytes of the page and the two cursors,
as offsets into the page. -/
structure rxBufferPage_t where
  _buffer : List Nat
  head : Nat
  tail : Nat
  deriving DecidableEq, Repr

/-- The two-page receive buffer `rxDataBufferCtrl_t`; `iopPg` (0 or 1) is the
page the transport writes to. -/
structure rxDataBufferCtrl_t where
  iopPg : Nat
  page0 : rxBufferPage_t
  page1 : rxBufferPage_t
  deriving DecidableEq, Repr

/-- The page `bufPtr->pages[pg]`. -/
def rxDataBufferCtrl_t.page (b : rxDataBufferCtrl_t) (pg : Nat) : rxBufferPage_t :=
  if pg = 0 then b.page0 else b.page1

/-- The buffer with `pages[pg]` replaced. -/
def rxDataBufferCtrl_t.setPage (b : rxDataBufferCtrl_t) (pg : Nat) (x : rxBufferPage_t) :
    rxDataBufferCtrl_t :=
  if pg = 0 then { b with page0 := x } else { b with page1 := x }

/-- The C expression `!pg` on a page number. -/
def notPg (pg : Nat) : Nat := if pg = 0 then 1 else 0

/-- Modelled from the spec: `rxPageDataAvailable`, the bytes between the tail
and the head of a page (so also the helper commented out in `ltemc-sckt.c`). -/
def rxPageDataAvailable (b : rxDataBufferCtrl_t) (pg : Nat) : Nat :=
  (b.page pg).head - (b.page pg).tail

/-- Modelled from the spec: `IOP_resetRxDataBufferPage`, which empties a page
and rewinds its cursors. -/
def IOP_resetRxDataBufferPage (b : rxDataBufferCtrl_t) (pg : Nat) : rxDataBufferCtrl_t :=
  b.setPage pg { _buffer := List.replicate (b.page pg)._buffer.length 0, head := 0, tail := 0 }

/-- Modelled from the spec: `IOP_swapRxBufferPage`, which swaps the page written
by the transport and the page being drained. -/
def IOP_swapRxBufferPage (b : rxDataBufferCtrl_t) : rxDataBufferCtrl_t :=
  { b with iopPg := notPg b.iopPg }

/-- The fields of `scktCtrl_t` used by `S_scktDoWork` and `S_requestIrdData`. -/
structure scktCtrl_t where
  dataCntxt : Nat
  protocol : Nat
  dataPending : Bool
  flushing : Bool
  irdRemaining : Int
  doWorkLastTck : Nat
  doWorkTimeout : Nat
  statsRxCnt : Nat
  recvBufCtrl : rxDataBufferCtrl_t
  deriving DecidableEq, Repr

/-- A control block with every field zero. -/
def zeroCtrl : scktCtrl_t where
  dataCntxt := 0
  protocol := 0
  dataPending := false
  flushing := false
  irdRemaining := 0
  doWorkLastTck := 0
  doWorkTimeout := 0
  statsRxCnt := 0
  recvBufCtrl :=
    { iopPg := 0, page0 := { _buffer := [], head := 0, tail := 0 },
      page1 := { _buffer := [], head := 0, tail := 0 } }

/-- The part of `g_ltem.iop` used by `ltemc-sckt.c`.  `streamPeers` holds the
control block each context points to; `rxStreamCtrl` is `none` for `NULL` and
otherwise the context whose control block it points to (it is only ever
assigned `streamPeers[dataCntx]`). -/
structure ltemIop_t where
  rxStreamCtrl : Option Nat
  streamPeers : List scktCtrl_t
  scktMap : Nat
  scktLstWrk : Nat
  txSendStartTck : Nat
  deriving DecidableEq, Repr

/-- An effect of the socket code on its collaborators. -/
inductive SocketEvent where
  | IOP_sendTx (data : List Nat) (sendImmediate : Bool)
  | dataRecvCB (dataCntxt : Nat) (data : List Nat)
  | ltem_notifyApp (message : String)
  deriving DecidableEq, Repr

/-- Everything the socket code reads or changes: the IOP state, the action
lock, the clock read by `pMillis()`, the outcome of `IOP_detectRxIdle()`, and
the trace of effects. -/
structure SocketWorld where
  iop : ltemIop_t
  lockActive : Bool
  millis : Nat
  rxIdle : Bool
  trace : List SocketEvent
  deriving DecidableEq, Repr

/-- The control block `streamPeers[cx]` points to. -/
def peer (w : SocketWorld) (cx : Nat) : scktCtrl_t := w.iop.streamPeers.getD cx zeroCtrl

/-- The world with the control block of context `cx` replaced. -/
def setPeer (w : SocketWorld) (cx : Nat) (s : scktCtrl_t) : SocketWorld :=
  { w with iop := { w.iop with streamPeers := w.iop.streamPeers.set cx s } }

/-- Modelled from the spec: `atcmd_isLockActive`, whether the action lock (the
"binary mutual-exclusion gate") is held. -/
def atcmd_isLockActive (w : SocketWorld) : Bool := w.lockActive

/-- Modelled from the spec: `atcmd_awaitLock`, which takes the lock when it is
free and fails when it is still held after the wait. -/
def atcmd_awaitLock (w : SocketWorld) : Bool × SocketWorld :=
  if w.lockActive then (false, w) else (true, { w with lockActive := true })

/-- Modelled from the spec: `atcmd_close`, which "unconditionally releases the
lock". -/
def atcmd_close (w : SocketWorld) : SocketWorld := { w with lockActive := false }

/-- The function `pMillis` of `platform/arduinoSAMD-timing.cpp`. -/
def pMillis (w : SocketWorld) : Nat := w.millis

/-- The function `pElapsed` of `platform/arduinoSAMD-timing.cpp`. -/
def pElapsed (w : SocketWorld) (timerStart timerTimeout : Nat) : Bool :=
  if timerStart = 0 then false
  else decide ((w.millis + 4294967296 - timerStart) % 4294967296 > timerTimeout)

/-- The call `IOP_sendTx(data, dataSz, sendImmediate)`. -/
def IOP_sendTx (data : List Nat) (dataSz : Nat) (sendImmediate : Bool) (w : SocketWorld) :
    SocketWorld :=
  { w with trace := w.trace ++ [SocketEvent.IOP_sendTx (data.take dataSz) sendImmediate] }

/-- The decimal digits printed by `%d` for a natural number. -/
def decimal (n : Nat) : List Nat := (Nat.toDigits 10 n).map Char.toNat

/-- The text `snprintf(irdCmd, 24, ..)` leaves in `irdCmd`: `"AT+QSSLRECV=%d,%d"`
for an SSL socket and `"AT+QIRD=%d,%d"` otherwise, cut to 23 bytes. -/
def irdCmd (ssl : Bool) (dataCntx requestedSz : Nat) : List Nat :=
  ((if ssl then [65, 84, 43, 81, 83, 83, 76, 82, 69, 67, 86, 61] else [65, 84, 43, 81, 73, 82, 68, 61])
    ++ decimal dataCntx ++ [44] ++ decimal requestedSz).take 23

/-- The function `S_requestIrdData`.  Its two `ASSERT`s (the context is valid
and its socket is open) are preconditions of the call. -/
def S_requestIrdData (c : ltemc_h) (dataCntx reqstSz : Nat) (applyLock : Bool)
    (w : SocketWorld) : Bool × SocketWorld :=
  let requestedSz :=
    if reqstSz = 0 then SCKT__IRD_requestMaxSz else max SCKT__IRD_requestMaxSz reqstSz
  let cmd := irdCmd (decide ((peer w dataCntx).protocol = c.protocol_ssl)) dataCntx requestedSz
  let r := if applyLock then atcmd_awaitLock w else (true, w)
  if applyLock && !r.1 then (false, r.2)
  else
    -- set IOP in data mode
    let w1 : SocketWorld :=
      { r.2 with iop := { r.2.iop with rxStreamCtrl := some dataCntx, txSendStartTck := pMillis r.2 } }
    -- signal IRD pending with unknown pending
    let w2 := setPeer w1 dataCntx { peer w1 dataCntx with irdRemaining := -1 }
    let w3 := IOP_sendTx cmd cmd.length false w2
    (true, IOP_sendTx [13] 1 true w3)

/-- The body of the `do .. while (dataAvailable)` loop of `S_scktDoWork` for
the stream peer of context `cx`, repeated while data is available, at most
`fuel` times (`none` when that is not enough). -/
def drainLoop (cx : Nat) : Nat → SocketWorld → Option SocketWorld
  | 0, _ => none
  | fuel + 1, w =>
    let s0 := peer w cx
    let pg := notPg s0.recvBufCtrl.iopPg
    -- IRD unknown && IOP sufficient for IRD header
    let hdr : Bool := decide (s0.irdRemaining = -1) && decide (rxPageDataAvailable s0.recvBufCtrl pg > 9)
    let conv := strtolText ((s0.recvBufCtrl.page pg)._buffer.drop 9)
    let s1 : scktCtrl_t :=
      if hdr then
        { s0 with
          irdRemaining := conv.1
          recvBufCtrl := s0.recvBufCtrl.setPage pg
            { s0.recvBufCtrl.page pg with tail := 9 + conv.2 + 2 } }
      else s0
    let w1 : SocketWorld :=
      if hdr then { w with iop := { w.iop with txSendStartTck := 0 } } else w
    -- process the data available following the IRD header
    let dataAvailable := rxPageDataAvailable s1.recvBufCtrl pg
    let deliver : Bool := decide (s1.irdRemaining > 0) && decide (dataAvailable ≠ 0)
    let applAvailable := min dataAvailable s1.irdRemaining.toNat
    let s2 : scktCtrl_t :=
      if deliver then
        { s1 with
          irdRemaining := if s1.flushing then s1.irdRemaining else s1.irdRemaining - applAvailable
          recvBufCtrl := IOP_resetRxDataBufferPage s1.recvBufCtrl pg }
      else s1
    let w2 : SocketWorld :=
      if deliver && !s1.flushing then
        { w1 with
          trace := w1.trace ++ [SocketEvent.dataRecvCB s1.dataCntxt
            (((s1.recvBufCtrl.page pg)._buffer.drop (s1.recvBufCtrl.page pg).tail).take
              applAvailable)] }
      else w1
    if s2.irdRemaining = 0 then
      -- IRD segment complete: take IOP out of data mode, release action lock
      let s3 : scktCtrl_t :=
        { s2 with
          dataPending := false
          flushing := false
          doWorkLastTck := pMillis w2
          recvBufCtrl := IOP_resetRxDataBufferPage s2.recvBufCtrl pg }
      let w3 : SocketWorld := { w2 with iop := { w2.iop with rxStreamCtrl := none } }
      some (atcmd_close (setPeer w3 cx s3))
    else
      -- IOP buffer page with data and RX idle: pull data forward
      let s3 : scktCtrl_t :=
        if decide (rxPageDataAvailable s2.recvBufCtrl s2.recvBufCtrl.iopPg ≠ 0) && w2.rxIdle then
          { s2 with recvBufCtrl := IOP_swapRxBufferPage s2.recvBufCtrl }
        else s2
      let w3 := setPeer w2 cx s3
      if rxPageDataAvailable s3.recvBufCtrl (notPg s3.recvBufCtrl.iopPg) ≠ 0 then
        drainLoop cx fuel w3
      else some w3

/-- The first block of `S_scktDoWork` (source lines 319 to 396): the drain of
the active socket stream, then the check of the IRD request timeout. -/
def processStream (c : ltemc_h) (fuel : Nat) (w : SocketWorld) : Option SocketWorld :=
  match w.iop.rxStreamCtrl with
  | none => some w
  | some cx =>
    if (peer w cx).protocol < c.protocol_socket then
      (drainLoop cx fuel w).map fun w1 =>
        if pElapsed w1 w1.iop.txSendStartTck 10000 then
          -- no longer waiting for IRD response, release action lock
          let w2 : SocketWorld := { w1 with iop := { w1.iop with txSendStartTck := 0 } }
          let w3 := atcmd_close w2
          { w3 with trace := w3.trace ++ [SocketEvent.ltem_notifyApp "IRD timeout"] }
        else w1
    else some w

/-- The test `iopPtr->scktMap & 0x01 << cx`: the socket of context `cx` is
open. -/
def isSocketOpen (w : SocketWorld) (cx : Nat) : Bool := (w.iop.scktMap &&& (1 <<< cx)) != 0

/-- The `for` loop of the second block of `S_scktDoWork`, from `i` on with
`remaining` turns left: the world and the final `nextIrd`. -/
def scanContexts (c : ltemc_h) : Nat → Nat → Nat → SocketWorld → SocketWorld × Nat
  | _, 0, nextIrd, w => (w, nextIrd)
  | i, remaining + 1, _, w =>
    let nextIrd := (w.iop.scktLstWrk + i) % c.dataContext_cnt
    if isSocketOpen w nextIrd then
      -- last check for URC / data pending check cycle
      let w1 := setPeer w nextIrd { peer w nextIrd with doWorkLastTck := pMillis w }
      if (peer w1 nextIrd).dataPending then
        -- request maximum data (IRD) with action lock
        let r := S_requestIrdData c nextIrd 0 true w1
        if r.1 then
          (match r.2.iop.rxStreamCtrl with
            | some x => setPeer r.2 x { peer r.2 x with statsRxCnt := (peer r.2 x).statsRxCnt + 1 }
            | none => r.2,
           nextIrd)
        else scanContexts c (i + 1) remaining nextIrd r.2
      else scanContexts c (i + 1) remaining nextIrd w1
    else scanContexts c (i + 1) remaining nextIrd w

/-- The second block of `S_scktDoWork` (source lines 402 to 434): with no
action lock active and a socket open, the rotation over the data contexts. -/
def serviceRotation (c : ltemc_h) (w : SocketWorld) : SocketWorld :=
  if !atcmd_isLockActive w && w.iop.scktMap != 0 then
    -- IRD fairness: skip last, get next possible context
    let w1 : SocketWorld :=
      { w with iop := { w.iop with scktLstWrk := (w.iop.scktLstWrk + 1) % c.dataContext_cnt } }
    let r := scanContexts c 0 c.dataContext_cnt 0 w1
    { r.1 with iop := { r.1.iop with scktLstWrk := r.2 } }
  else w

/-- The function `S_scktDoWork`; the drain loop goes round at most `fuel`
times. -/
def S_scktDoWork (c : ltemc_h) (fuel : Nat) (w : SocketWorld) : Option SocketWorld :=
  (processStream c fuel w).map (serviceRotation c)

/-- The data contexts in the order the rotation visits them: cyclically from
the one after `last`, ending with `last` itself. -/
def cyclicOrder (cnt last : Nat) : List Nat :=
  (List.range cnt).map fun i => ((last + 1) % cnt + i) % cnt

/-- The socket of context `cx` is open and flagged `dataPending`. -/
def pendingOpen (w : SocketWorld) (cx : Nat) : Bool :=
  isSocketOpen w cx && (peer w cx).dataPending

/-- A TCP socket control block for context `cx` with two empty 16-byte pages. -/
def tcpSocket (cx : Nat) (dataPending : Bool) : scktCtrl_t :=
  { zeroCtrl with
    dataCntxt := cx
    dataPending := dataPending
    recvBufCtrl :=
      { iopPg := 0
        page0 := { _buffer := List.replicate 16 0, head := 0, tail := 0 }
        page1 := { _buffer := List.replicate 16 0, head := 0, tail := 0 } } }

/-- A world with the sockets of contexts 0 and 2 open: `scktMap = 5`, no lock
held, no stream active, the clock at 100 ms. -/
def twoSockets (pending0 pending2 : Bool) (scktLstWrk : Nat) : SocketWorld where
  iop :=
    { rxStreamCtrl := none
      streamPeers := [tcpSocket 0 pending0, zeroCtrl, tcpSocket 2 pending2, zeroCtrl, zeroCtrl,
        zeroCtrl]
      scktMap := 5
      scktLstWrk := scktLstWrk
      txSendStartTck := 0 }
  lockActive := false
  millis := 100
  rxIdle := false
  trace := []

/-- The clock of a socket world moved on by `ms` milliseconds. -/
def socketClockAdvance (ms : Nat) (w : SocketWorld) : SocketWorld :=
  { w with millis := (w.millis + ms) % 4294967296 }

/-- The world `w` differs from `w0` at most in fields of the control blocks
other than `dataPending` and `protocol`. -/
def sameFlags (w0 w : SocketWorld) : Prop :=
  w.iop.scktMap = w0.iop.scktMap ∧ w.iop.scktLstWrk = w0.iop.scktLstWrk ∧
  w.lockActive = w0.lockActive ∧ w.iop.rxStreamCtrl = w0.iop.rxStreamCtrl ∧
  w.trace = w0.trace ∧ w.millis = w0.millis ∧
  ∀ y, (peer w y).dataPending = (peer w0 y).dataPending ∧
    (peer w y).protocol = (peer w0 y).protocol

/-- The two transport writes of an IRD request for context `cx`. -/
def irdRequest (c : ltemc_h) (w : SocketWorld) (cx : Nat) : List SocketEvent :=
  [SocketEvent.IOP_sendTx
      (irdCmd (decide ((peer w cx).protocol = c.protocol_ssl)) cx SCKT__IRD_requestMaxSz) false,
    SocketEvent.IOP_sendTx [13] true]

/-! ## The lock -/

theorem lockWait_open (p : Platform)
    (hstay : ∀ ms d, d.action.isOpen = true → (p.lDelay ms d).action.isOpen = true) :
    ∀ (n : Nat) (w : World), w.ltem1.action.isOpen = true →
      (lockWait p n w).1 = false ∧
      (lockWait p n w).2.ltem1 = (p.lDelay ACTION_LOCKRETRY_INTERVALml)^[n - 1] w.ltem1 ∧
      (lockWait p n w).2.trace
        = w.trace ++ List.replicate (n - 1) (Event.lDelay ACTION_LOCKRETRY_INTERVALml) ∧
      (lockWait p n w).2.ltem1.action.isOpen = true := by
  intro n
  induction n with
  | zero => intro w hw; simp [lockWait, hw]
  | succ r ih =>
    intro w hw
    by_cases hr : r = 0
    · subst hr; simp [lockWait, hw]
    · have hd : (lDelay p ACTION_LOCKRETRY_INTERVALml w).ltem1.action.isOpen = true := by
        simpa [lDelay] using hstay _ _ hw
      obtain ⟨h1, h2, h3, h4⟩ := ih (lDelay p ACTION_LOCKRETRY_INTERVALml w) hd
      have hstep : lockWait p (r + 1) w = lockWait p r (lDelay p ACTION_LOCKRETRY_INTERVALml w) := by
        simp [lockWait, hw, hr]
      have hr1 : r + 1 - 1 = (r - 1) + 1 := by omega
      rw [hstep, hr1]
      refine ⟨h1, ?_, ?_, h4⟩
      · rw [h2, Function.iterate_succ_apply]; rfl
      · rw [h3, List.replicate_succ]; simp [lDelay]

theorem acquire_open (k : ltem1c_h) (p : Platform)
    (hstay : ∀ ms d, d.action.isOpen = true → (p.lDelay ms d).action.isOpen = true)
    (cmdStr : List Nat) (n : Nat) (w : World) (hw : w.ltem1.action.isOpen = true) :
    actn_acquireLock k p cmdStr n w = (false, (lockWait p n w).2) := by
  by_cases hn : n = 0
  · subst hn; simp [actn_acquireLock, hw, lockWait]
  · have h := (lockWait_open p hstay n w hw).1
    simp only [actn_acquireLock, hw, if_true, ne_eq, hn, not_false_eq_true]
    rcases hlw : lockWait p n w with ⟨b, w1⟩
    rw [hlw] at h
    simp only at h
    subst h
    rfl

theorem acquire_closed (k : ltem1c_h) (p : Platform) (cmdStr : List Nat) (n : Nat) (w : World)
    (hw : w.ltem1.action.isOpen = false) :
    actn_acquireLock k p cmdStr n w = (true, s_actionInit k p cmdStr w) := by
  simp [actn_acquireLock, hw]

theorem init_isOpen (k : ltem1c_h) (p : Platform) (cmdStr : List Nat) (w : World) :
    (s_actionInit k p cmdStr w).ltem1.action.isOpen = true := rfl

theorem acquire_success_open (k : ltem1c_h) (p : Platform) (cmdStr : List Nat) (n : Nat)
    (w : World) (h : (actn_acquireLock k p cmdStr n w).1 = true) :
    (actn_acquireLock k p cmdStr n w).2.ltem1.action.isOpen = true := by
  unfold actn_acquireLock at h ⊢
  by_cases hw : w.ltem1.action.isOpen = true
  · by_cases hn : n = 0
    · simp [hw, hn] at h
    · rcases hlw : lockWait p n w with ⟨b, w1⟩
      cases b <;> simp [hw, hn, hlw, init_isOpen] at h ⊢
  · simp [hw, init_isOpen]

theorem lockCall_keeps_open (k : ltem1c_h) (p : Platform)
    (hstay : ∀ ms d, d.action.isOpen = true → (p.lDelay ms d).action.isOpen = true) :
    ∀ (cs : List LockCall) (w : World), w.ltem1.action.isOpen = true → LockCall.close ∉ cs →
      (lockCalls k p cs w).ltem1.action.isOpen = true := by
  intro cs
  induction cs with
  | nil => intro w hw _; simpa [lockCalls] using hw
  | cons c cs ih =>
    intro w hw hc
    cases c with
    | close => exact absurd (List.mem_cons_self _ _) hc
    | acquire cmdStr n =>
      have hcs : LockCall.close ∉ cs := fun h => hc (List.mem_cons_of_mem _ h)
      have h1 : (lockCall k p (LockCall.acquire cmdStr n) w).2.ltem1.action.isOpen = true := by
        simp only [lockCall]
        rw [acquire_open k p hstay cmdStr n w hw]
        exact (lockWait_open p hstay n w hw).2.2.2
      simpa [lockCalls] using ih _ h1 hcs

theorem openActions_le_one (k : ltem1c_h) (p : Platform)
    (hstay : ∀ ms d, d.action.isOpen = true → (p.lDelay ms d).action.isOpen = true) :
    ∀ (cs : List LockCall) (w : World),
      openActions k p cs w (if w.ltem1.action.isOpen then 1 else 0) ≤ 1 := by
  intro cs
  induction cs with
  | nil => intro w; simp only [openActions]; split <;> omega
  | cons c cs ih =>
    intro w
    cases c with
    | close =>
      have h := ih (action_close w)
      have hc : (action_close w).ltem1.action.isOpen = false := rfl
      rw [hc] at h
      simp only [openActions]
      have h0 : (if w.ltem1.action.isOpen = true then 1 else 0) - 1 = 0 := by split <;> rfl
      rw [h0]
      simpa using h
    | acquire cmdStr n =>
      simp only [openActions]
      by_cases hw : w.ltem1.action.isOpen = true
      · have h := ih (actn_acquireLock k p cmdStr n w).2
        rw [acquire_open k p hstay cmdStr n w hw] at h ⊢
        rw [(lockWait_open p hstay n w hw).2.2.2] at h
        simpa [hw] using h
      · have hw' : w.ltem1.action.isOpen = false := by simpa using hw
        have h := ih (actn_acquireLock k p cmdStr n w).2
        rw [acquire_closed k p cmdStr n w hw'] at h ⊢
        simpa [hw', init_isOpen] using h

/-- C1: when nothing but `actn_acquireLock` and `action_close` writes the open
flag, `actn_acquireLock` returns true only if no Action is open at the call;
two successful acquisitions are separated by a close; and the number of open
Actions after any sequence of calls is at most one. -/
theorem acquireLock_exclusive (k : ltem1c_h) (p : Platform)
    (hflag : ∀ ms d, (p.lDelay ms d).action.isOpen = d.action.isOpen) :
    (∀ cmdStr n w, (actn_acquireLock k p cmdStr n w).1 = true → w.ltem1.action.isOpen = false) ∧
    (∀ w pre c1 n1 mid c2 n2,
      (actn_acquireLock k p c1 n1 (lockCalls k p pre w)).1 = true →
      (actn_acquireLock k p c2 n2
        (lockCalls k p mid (actn_acquireLock k p c1 n1 (lockCalls k p pre w)).2)).1 = true →
      LockCall.close ∈ mid) ∧
    (∀ calls w, openActions k p calls w (if w.ltem1.action.isOpen then 1 else 0) ≤ 1) := by
  have hstay : ∀ ms d, d.action.isOpen = true → (p.lDelay ms d).action.isOpen = true := by
    intro ms d hd; rw [hflag]; exact hd
  have hfirst : ∀ cmdStr n w, (actn_acquireLock k p cmdStr n w).1 = true →
      w.ltem1.action.isOpen = false := by
    intro cmdStr n w h
    by_contra hw
    have hw' : w.ltem1.action.isOpen = true := by simpa using hw
    rw [acquire_open k p hstay cmdStr n w hw'] at h
    exact Bool.noConfusion h
  refine ⟨hfirst, ?_, openActions_le_one k p hstay⟩
  intro w pre c1 n1 mid c2 n2 h1 h2
  by_contra hmid
  have hopen := acquire_success_open k p c1 n1 _ h1
  have hkeep := lockCall_keeps_open k p hstay mid _ hopen hmid
  have := hfirst c2 n2 _ h2
  rw [hkeep] at this
  exact Bool.noConfusion this

/-- Witness of C1 on the test platform: after acquire, acquire, close, acquire
from rest, one Action is open. -/
theorem acquireLock_exclusive_witness :
    (∀ ms d, ((testPlatform true true).lDelay ms d).action.isOpen = d.action.isOpen) ∧
    openActions smallHeader (testPlatform true true)
      [LockCall.acquire [65, 84] 3, LockCall.acquire [65, 84] 3, LockCall.close,
        LockCall.acquire [65, 84] 0] idleWorld 0 = 1 ∧
    openActions smallHeader (testPlatform true true)
      [LockCall.acquire [65, 84] 3, LockCall.acquire [65, 84] 3, LockCall.close,
        LockCall.acquire [65, 84] 0] idleWorld (if idleWorld.ltem1.action.isOpen then 1 else 0)
      ≤ 1 :=
  ⟨fun _ _ => rfl, by decide,
    (acquireLock_exclusive smallHeader (testPlatform true true) (fun _ _ => rfl)).2.2 _ idleWorld⟩

/-- C2: while an Action is open and stays open during the waits,
`actn_acquireLock(cmdStr, n)` returns false; the only effects are `n - 1`
delays of `ACTION_LOCKRETRY_INTERVALml` (none for `n = 0`), so at most `n`;
it writes nothing to the device, so an Action that the code run during the
delays leaves alone has every field unchanged. -/
theorem acquireLock_busy (k : ltem1c_h) (p : Platform) (cmdStr : List Nat) (n : Nat) (w : World)
    (hopen : w.ltem1.action.isOpen = true)
    (hstay : ∀ ms d, d.action.isOpen = true → (p.lDelay ms d).action.isOpen = true) :
    (actn_acquireLock k p cmdStr n w).1 = false ∧
    (actn_acquireLock k p cmdStr n w).2.trace
      = w.trace ++ List.replicate (n - 1) (Event.lDelay ACTION_LOCKRETRY_INTERVALml) ∧
    (List.replicate (n - 1) (Event.lDelay ACTION_LOCKRETRY_INTERVALml)).length ≤ n ∧
    ACTION_LOCKRETRY_INTERVALml = 50 ∧
    (n = 0 → (actn_acquireLock k p cmdStr n w).2.trace = w.trace) ∧
    (actn_acquireLock k p cmdStr n w).2.ltem1
      = (p.lDelay ACTION_LOCKRETRY_INTERVALml)^[n - 1] w.ltem1 ∧
    ((∀ ms d, (p.lDelay ms d).action = d.action) →
      (actn_acquireLock k p cmdStr n w).2.ltem1.action = w.ltem1.action) := by
  have h := lockWait_open p hstay n w hopen
  rw [acquire_open k p hstay cmdStr n w hopen]
  refine ⟨rfl, h.2.2.1, by simp, rfl, ?_, h.2.1, ?_⟩
  · intro hn; subst hn; simpa using h.2.2.1
  · intro hact
    simp only []
    rw [h.2.1]
    generalize n - 1 = m
    induction m generalizing w with
    | zero => rfl
    | succ m ih =>
      have hopen' : (lDelay p ACTION_LOCKRETRY_INTERVALml w).ltem1.action.isOpen = true := by
        simpa [lDelay] using hstay _ _ hopen
      have := ih (lDelay p ACTION_LOCKRETRY_INTERVALml w) hopen'
        (lockWait_open p hstay n _ hopen')
      rw [Function.iterate_succ_apply]
      simpa [lDelay, hact] using this

/-- Witness of C2: three retries against a busy device give two delays. -/
theorem acquireLock_busy_witness :
    busyWorld.ltem1.action.isOpen = true ∧
    (∀ ms d, d.action.isOpen = true →
      ((testPlatform true true).lDelay ms d).action.isOpen = true) ∧
    (actn_acquireLock smallHeader (testPlatform true true) [65, 84] 3 busyWorld).1 = false ∧
    (actn_acquireLock smallHeader (testPlatform true true) [65, 84] 3 busyWorld).2.trace
      = [Event.lDelay 50, Event.lDelay 50] :=
  ⟨rfl, fun _ _ h => h,
    (acquireLock_busy smallHeader (testPlatform true true) [65, 84] 3 busyWorld rfl
      (fun _ _ h => h)).1,
    (acquireLock_busy smallHeader (testPlatform true true) [65, 84] 3 busyWorld rfl
      (fun _ _ h => h)).2.1⟩

/-- C3: with no Action open, `actn_acquireLock(cmdStr, n)` returns true for
every `n` and leaves the Action open, holding the first
`min(strlen(cmdStr), IOP_TX_BUFFER_SZ)` bytes of `cmdStr` followed by zeros,
result code pending, timeout 0, invocation timestamp 0 and no parser. -/
theorem acquireLock_free (k : ltem1c_h) (p : Platform) (cmdStr : List Nat) (n : Nat) (w : World)
    (hfree : w.ltem1.action.isOpen = false) :
    (actn_acquireLock k p cmdStr n w).1 = true ∧
    (actn_acquireLock k p cmdStr n w).2.ltem1.action.isOpen = true ∧
    (actn_acquireLock k p cmdStr n w).2.ltem1.action.cmdStr
      = cmdStr.take (min cmdStr.length k.IOP_TX_BUFFER_SZ)
        ++ List.replicate (k.IOP_TX_BUFFER_SZ - min cmdStr.length k.IOP_TX_BUFFER_SZ) 0 ∧
    (actn_acquireLock k p cmdStr n w).2.ltem1.action.resultCode = k.RESULT_CODE_PENDING ∧
    (actn_acquireLock k p cmdStr n w).2.ltem1.action.timeoutMillis = 0 ∧
    (actn_acquireLock k p cmdStr n w).2.ltem1.action.invokedAt = 0 ∧
    (actn_acquireLock k p cmdStr n w).2.ltem1.action.taskCompleteParser_func = none := by
  rw [acquire_closed k p cmdStr n w hfree]
  refine ⟨rfl, rfl, ?_, rfl, rfl, rfl, rfl⟩
  simp [s_actionInit, zeroThenCopy]

/-- Witness of C3: acquiring the lock for "AT" on the device at rest. -/
theorem acquireLock_free_witness :
    idleWorld.ltem1.action.isOpen = false ∧
    (actn_acquireLock smallHeader (testPlatform true true) [65, 84] 0 idleWorld).1 = true ∧
    (actn_acquireLock smallHeader (testPlatform true true) [65, 84] 0
      idleWorld).2.ltem1.action.cmdStr = [65, 84, 0, 0, 0, 0, 0, 0] :=
  ⟨rfl, (acquireLock_free smallHeader (testPlatform true true) [65, 84] 0 idleWorld rfl).1,
    (acquireLock_free smallHeader (testPlatform true true) [65, 84] 0 idleWorld rfl).2.2.1⟩

/-! ## Invocation -/

theorem txBytes_append (a b : List Event) : txBytes (a ++ b) = txBytes a ++ txBytes b := by
  induction a with
  | nil => rfl
  | cons e es ih => cases e <;> simp [txBytes, ih]

theorem txBytes_delays (m ms : Nat) : txBytes (List.replicate m (Event.lDelay ms)) = [] := by
  induction m with
  | zero => rfl
  | succ m ih => simpa [List.replicate_succ, txBytes] using ih

theorem lockWait_trace (p : Platform) :
    ∀ (n : Nat) (w : World), ∃ m,
      (lockWait p n w).2.trace
        = w.trace ++ List.replicate m (Event.lDelay ACTION_LOCKRETRY_INTERVALml) := by
  intro n
  induction n with
  | zero => intro w; exact ⟨0, by simp [lockWait]⟩
  | succ r ih =>
    intro w
    by_cases hw : w.ltem1.action.isOpen = true
    · by_cases hr : r = 0
      · exact ⟨0, by simp [lockWait, hw, hr]⟩
      · obtain ⟨m, hm⟩ := ih (lDelay p ACTION_LOCKRETRY_INTERVALml w)
        refine ⟨m + 1, ?_⟩
        have hstep : lockWait p (r + 1) w
            = lockWait p r (lDelay p ACTION_LOCKRETRY_INTERVALml w) := by
          simp [lockWait, hw, hr]
        rw [hstep, hm, List.replicate_succ]
        simp [lDelay]
    · exact ⟨0, by simp [lockWait, hw]⟩

theorem acquire_trace (k : ltem1c_h) (p : Platform) (cmdStr : List Nat) (n : Nat) (w : World) :
    ∃ m, (actn_acquireLock k p cmdStr n w).2.trace
      = w.trace ++ List.replicate m (Event.lDelay ACTION_LOCKRETRY_INTERVALml) := by
  unfold actn_acquireLock
  by_cases hw : w.ltem1.action.isOpen = true
  · by_cases hn : n = 0
    · exact ⟨0, by simp [hw, hn]⟩
    · obtain ⟨m, hm⟩ := lockWait_trace p n w
      refine ⟨m, ?_⟩
      rcases hlw : lockWait p n w with ⟨b, w1⟩
      rw [hlw] at hm
      cases b <;> simpa [hw, hn, s_actionInit] using hm
  · exact ⟨0, by simp [hw, s_actionInit]⟩

/-- C4: when `action_tryInvokeAdv(cmdStr, timeout, parser)` returns true, the
bytes it hands to the transport are those of `cmdStr` followed by one carriage
return, the Action holds the timeout, the clock value as invocation timestamp,
and the supplied parser, or `action_okResultParser` when it is `NULL`. -/
theorem tryInvokeAdv_invoked (k : ltem1c_h) (p : Platform) (cmdStr : List Nat) (timeout : Nat)
    (parser : Option Parser) (w w' : World)
    (h : action_tryInvokeAdv k p cmdStr timeout parser w = (true, w')) :
    txBytes w'.trace = txBytes w.trace ++ (cmdStr ++ [13]) ∧
    (∃ w1, actn_acquireLock k p cmdStr ACTION_LOCKRETRIES w = (true, w1) ∧
      w'.trace = w1.trace ++ [Event.iop_txSend cmdStr false, Event.iop_txSend [13] true]) ∧
    w'.ltem1.action.isOpen = true ∧
    w'.ltem1.action.timeoutMillis = timeout ∧
    w'.ltem1.action.invokedAt = lMillis w' ∧
    w'.ltem1.action.taskCompleteParser_func = some (parser.getD (action_okResultParser k)) := by
  unfold action_tryInvokeAdv at h
  obtain ⟨m, hm⟩ := acquire_trace k p cmdStr ACTION_LOCKRETRIES w
  have hopen := acquire_success_open k p cmdStr ACTION_LOCKRETRIES w
  rcases hacq : actn_acquireLock k p cmdStr ACTION_LOCKRETRIES w with ⟨b, w1⟩
  rw [hacq] at h hm hopen
  cases b with
  | false => simp at h
  | true =>
    simp only [Prod.mk.injEq, true_and] at h
    subst h
    have htr : (iop_txSend ASCII_sCR 1 true (iop_txSend cmdStr cmdStr.length false
        { w1 with
          ltem1 :=
            { w1.ltem1 with
              action :=
                { w1.ltem1.action with
                  timeoutMillis := timeout
                  invokedAt := lMillis w1
                  taskCompleteParser_func :=
                    match parser with
                    | none => some (action_okResultParser k)
                    | some f => some f } } })).trace
        = w1.trace ++ [Event.iop_txSend cmdStr false, Event.iop_txSend [13] true] := by
      simp [iop_txSend, ASCII_sCR]
    refine ⟨?_, ⟨w1, rfl, htr⟩, ?_, rfl, rfl, ?_⟩
    · rw [htr]
      simp only at hm
      rw [hm, txBytes_append, txBytes_append, txBytes_delays]
      simp [txBytes]
    · exact hopen rfl
    · cases parser <;> rfl

/-- Witness of C4: invoking "AT" with no parser on the device at rest. -/
theorem tryInvokeAdv_invoked_witness :
    action_tryInvokeAdv smallHeader (testPlatform true true) [65, 84] 500 none idleWorld
      = (true, (action_tryInvokeAdv smallHeader (testPlatform true true) [65, 84] 500 none
          idleWorld).2) ∧
    txBytes (action_tryInvokeAdv smallHeader (testPlatform true true) [65, 84] 500 none
      idleWorld).2.trace = [65, 84, 13] ∧
    (action_tryInvokeAdv smallHeader (testPlatform true true) [65, 84] 500 none
      idleWorld).2.ltem1.action.invokedAt = 100 :=
  ⟨rfl,
    (tryInvokeAdv_invoked smallHeader (testPlatform true true) [65, 84] 500 none idleWorld _
      rfl).1,
    (tryInvokeAdv_invoked smallHeader (testPlatform true true) [65, 84] 500 none idleWorld _
      rfl).2.2.2.2.1⟩

/-! ## Polling -/

theorem runParser_empty (w : World) (h : bufferEmpty w) : runParser w = some (w, 0) := by
  unfold bufferEmpty at h
  simp [runParser, h]

theorem runParser_reports (w : World) (c e : Nat) (h : parserReports w c e) :
    runParser w = some ({ w with
      ltem1 := { w.ltem1 with action := { w.ltem1.action with resultCode := c } } }, e) := by
  obtain ⟨b, f, str, hb, hb0, hf, hs, hr⟩ := h
  simp [runParser, hb, hb0, hf, hs, hr]

theorem runParser_cases (w w1 : World) (e : Nat) (h : runParser w = some (w1, e)) :
    (bufferEmpty w ∧ w1 = w ∧ e = 0) ∨
    (∃ c, parserReports w c e ∧
      w1 = { w with
        ltem1 := { w.ltem1 with action := { w.ltem1.action with resultCode := c } } }) := by
  unfold runParser at h
  cases hb : w.ltem1.iop.rxCmdBuf.byteAt w.ltem1.iop.rxCmdBuf.tail with
  | none => simp [hb] at h
  | some b =>
    by_cases hb0 : b = 0
    · subst hb0
      left
      simp [hb] at h
      exact ⟨hb, h.1.symm, h.2.symm⟩
    · right
      cases hf : w.ltem1.action.taskCompleteParser_func with
      | none => simp [hb, hb0, hf] at h
      | some f =>
        cases hs : w.ltem1.iop.rxCmdBuf.strAt w.ltem1.iop.rxCmdBuf.tail with
        | none => simp [hb, hb0, hf, hs] at h
        | some str =>
          cases hr : f w.ltem1.iop.rxCmdBuf.tail str 0 with
          | none => simp [hb, hb0, hf, hs, hr] at h
          | some r =>
            simp [hb, hb0, hf, hs, hr] at h
            obtain ⟨h1, h2⟩ := h
            subst h1 h2
            exact ⟨r.1, ⟨b, f, str, hb, hb0, hf, hs, hr⟩, by simp [hf]⟩

theorem setResultCode_same (w : World) (c : Nat) (h : w.ltem1.action.resultCode = c) :
    ({ w with ltem1 := { w.ltem1 with action := { w.ltem1.action with resultCode := c } } }
      : World) = w := by
  subst h
  rfl

/-- C5: when the Action's result code is pending, the installed parser reports
pending on the unconsumed tail (or the command buffer is empty) and the timeout
has not expired, `action_getResult` returns `RESULT_CODE_PENDING` and leaves
the whole world as it was: Action, buffer cursors, diagnostics record, trace. -/
theorem getResult_pending (k : ltem1c_h) (p : Platform) (closeAction : Bool) (w : World)
    (hcode : w.ltem1.action.resultCode = k.RESULT_CODE_PENDING)
    (hparse : bufferEmpty w ∨ ∃ e, parserReports w k.RESULT_CODE_PENDING e)
    (htime : p.lTimerExpired (lMillis w) w.ltem1.action.invokedAt
      w.ltem1.action.timeoutMillis = false) :
    action_getResult k p closeAction w
      = some ({ statusCode := k.RESULT_CODE_PENDING, response := w.ltem1.iop.rxCmdBuf.buffer },
          w) := by
  have hrun : ∃ e, runParser w = some (w, e) := by
    rcases hparse with h | ⟨e, h⟩
    · exact ⟨0, runParser_empty w h⟩
    · refine ⟨e, ?_⟩
      rw [runParser_reports w _ e h, setResultCode_same w _ hcode]
  obtain ⟨e, he⟩ := hrun
  simp [action_getResult, he, concludeResult, hcode, htime]

/-- Witness of C5: polling right after invoking "AT", nothing received yet. -/
theorem getResult_pending_witness :
    (invokedWorld true true [65, 84] 500 none).ltem1.action.resultCode
      = smallHeader.RESULT_CODE_PENDING ∧
    bufferEmpty (invokedWorld true true [65, 84] 500 none) ∧
    action_getResult smallHeader (testPlatform true true) true
        (invokedWorld true true [65, 84] 500 none)
      = some ({ statusCode := 0, response := 1000 }, invokedWorld true true [65, 84] 500 none) :=
  ⟨rfl, rfl,
    getResult_pending smallHeader (testPlatform true true) true
      (invokedWorld true true [65, 84] 500 none) rfl (Or.inl rfl) rfl⟩

theorem timeoutBranch_action (k : ltem1c_h) (p : Platform) (w : World) :
    (timeoutBranch k p w).ltem1.action.resultCode = k.RESULT_CODE_TIMEOUT ∧
    (timeoutBranch k p w).ltem1.action.isOpen = false ∧
    (timeoutBranch k p w).ltem1.cancellationRequest = w.ltem1.cancellationRequest := by
  unfold timeoutBranch
  cases p.ltem1_chkHwReady <;> cases p.sc16is741a_chkCommReady <;> exact ⟨rfl, rfl, rfl⟩

theorem runParser_pending (k : ltem1c_h) (w : World)
    (hparse : (bufferEmpty w ∧ w.ltem1.action.resultCode = k.RESULT_CODE_PENDING) ∨
      ∃ e, parserReports w k.RESULT_CODE_PENDING e) :
    ∃ e, runParser w = some ({ w with
      ltem1 := { w.ltem1 with
        action := { w.ltem1.action with resultCode := k.RESULT_CODE_PENDING } } }, e) := by
  rcases hparse with ⟨h, hc⟩ | ⟨e, h⟩
  · exact ⟨0, by rw [runParser_empty w h, setResultCode_same w _ hc]⟩
  · exact ⟨e, runParser_reports w _ e h⟩

/-- C6: when the parser reports pending (or the buffer is empty and the result
code is pending) and the timeout has expired, `action_getResult` returns
`RESULT_CODE_TIMEOUT`, stores it as the Action's result code and closes the
Action, whatever `closeAction` is; with no cancellation requested
`action_awaitResult` then returns `RESULT_CODE_TIMEOUT` after that one poll. -/
theorem getResult_timeout (k : ltem1c_h) (p : Platform) (closeAction : Bool) (w : World)
    (hparse : (bufferEmpty w ∧ w.ltem1.action.resultCode = k.RESULT_CODE_PENDING) ∨
      ∃ e, parserReports w k.RESULT_CODE_PENDING e)
    (hexp : p.lTimerExpired (lMillis w) w.ltem1.action.invokedAt
      w.ltem1.action.timeoutMillis = true) :
    ∃ w', action_getResult k p closeAction w
        = some ({ statusCode := k.RESULT_CODE_TIMEOUT, response := w.ltem1.iop.rxCmdBuf.buffer },
            w') ∧
      w'.ltem1.action.resultCode = k.RESULT_CODE_TIMEOUT ∧
      w'.ltem1.action.isOpen = false ∧
      (k.RESULT_CODE_TIMEOUT ≠ k.RESULT_CODE_PENDING → w.ltem1.cancellationRequest = false →
        ∀ fuel, action_awaitResult k p closeAction (fuel + 1) w
          = some ({ statusCode := k.RESULT_CODE_TIMEOUT,
                    response := w.ltem1.iop.rxCmdBuf.buffer }, lYield p w')) := by
  obtain ⟨e, he⟩ := runParser_pending k w hparse
  have hget : action_getResult k p closeAction w
      = some ({ statusCode := k.RESULT_CODE_TIMEOUT, response := w.ltem1.iop.rxCmdBuf.buffer },
          timeoutBranch k p { w with
            ltem1 := { w.ltem1 with
              action := { w.ltem1.action with resultCode := k.RESULT_CODE_PENDING } } }) := by
    have hexp' : p.lTimerExpired w.millis w.ltem1.action.invokedAt
        w.ltem1.action.timeoutMillis = true := hexp
    simp [action_getResult, he, concludeResult, lMillis, hexp']
  have hb := timeoutBranch_action k p { w with
    ltem1 := { w.ltem1 with
      action := { w.ltem1.action with resultCode := k.RESULT_CODE_PENDING } } }
  refine ⟨_, hget, hb.1, hb.2.1, ?_⟩
  intro hne hcancel fuel
  have hc : (timeoutBranch k p { w with
      ltem1 := { w.ltem1 with
        action := { w.ltem1.action with resultCode := k.RESULT_CODE_PENDING } } }
      ).ltem1.cancellationRequest = false := by
    rw [hb.2.2]; exact hcancel
  simp [action_awaitResult, hget, hc, hne]

/-- Witness of C6: "AT" invoked with a 500 ms budget, nothing received, polled
600 ms later. -/
theorem getResult_timeout_witness :
    bufferEmpty (clockAdvance 600 (invokedWorld true true [65, 84] 500 none)) ∧
    (testPlatform true true).lTimerExpired 700 100 500 = true ∧
    (action_getResult smallHeader (testPlatform true true) false
        (clockAdvance 600 (invokedWorld true true [65, 84] 500 none))).map
      (fun r => (r.1.statusCode, r.2.ltem1.action.isOpen)) = some (408, false) ∧
    ∃ w', action_awaitResult smallHeader (testPlatform true true) false 1
        (clockAdvance 600 (invokedWorld true true [65, 84] 500 none))
      = some ({ statusCode := 408, response := 1000 }, w') := by
  obtain ⟨w', h1, _, _, h4⟩ :=
    getResult_timeout smallHeader (testPlatform true true) false
      (clockAdvance 600 (invokedWorld true true [65, 84] 500 none)) (Or.inl ⟨rfl, rfl⟩) rfl
  exact ⟨rfl, rfl, rfl, _, h4 (by decide) rfl 0⟩

theorem notifications_append (a b : List Event) :
    notifications (a ++ b) = notifications a ++ notifications b := by
  induction a with
  | nil => rfl
  | cons e es ih => cases e <;> simp [notifications, ih]

/-- C7, as stated, fails: with the module status line and the transport bridge
both failing, a timeout produces one notification only, that of the module
status; the unresponsive bridge is not notified. -/
theorem getResult_timeout_both_fail :
    (testPlatform false false).ltem1_chkHwReady = false ∧
    (testPlatform false false).sc16is741a_chkCommReady = false ∧
    (action_getResult smallHeader (testPlatform false false) false
        (clockAdvance 600 (invokedWorld false false [65, 84] 500 none))).map
      (fun r => (r.1.statusCode, notifications r.2.trace))
      = some (408, [(ltem1NotifType.hwNotReady, "Modem HW Status Offline")]) := by
  refine ⟨rfl, rfl, ?_⟩
  decide

/-- C7, amended: on every timeout in `action_getResult` at most one
notification is emitted.  A failed module status check gives the notification
"Modem HW Status Offline" and the bridge is not looked at; otherwise an
unresponsive bridge gives "Modem comm unresponsive"; with both healthy nothing
is emitted.  Both notifications have the type `hwNotReady` and differ by their
message. -/
theorem getResult_timeout_notifies (k : ltem1c_h) (p : Platform) (closeAction : Bool)
    (w : World)
    (hparse : (bufferEmpty w ∧ w.ltem1.action.resultCode = k.RESULT_CODE_PENDING) ∨
      ∃ e, parserReports w k.RESULT_CODE_PENDING e)
    (hexp : p.lTimerExpired (lMillis w) w.ltem1.action.invokedAt
      w.ltem1.action.timeoutMillis = true) :
    (∃ w', action_getResult k p closeAction w
        = some ({ statusCode := k.RESULT_CODE_TIMEOUT, response := w.ltem1.iop.rxCmdBuf.buffer },
            w') ∧
      notifications w'.trace = notifications w.trace ++
        (if p.ltem1_chkHwReady = false then
          [(ltem1NotifType.hwNotReady, "Modem HW Status Offline")]
        else if p.sc16is741a_chkCommReady = false then
          [(ltem1NotifType.hwNotReady, "Modem comm unresponsive")]
        else [])) ∧
    (ltem1NotifType.hwNotReady, "Modem HW Status Offline")
      ≠ (ltem1NotifType.hwNotReady, "Modem comm unresponsive") := by
  refine ⟨?_, by decide⟩
  obtain ⟨e, he⟩ := runParser_pending k w hparse
  have hexp' : p.lTimerExpired w.millis w.ltem1.action.invokedAt
      w.ltem1.action.timeoutMillis = true := hexp
  have hget : action_getResult k p closeAction w
      = some ({ statusCode := k.RESULT_CODE_TIMEOUT, response := w.ltem1.iop.rxCmdBuf.buffer },
          timeoutBranch k p { w with
            ltem1 := { w.ltem1 with
              action := { w.ltem1.action with resultCode := k.RESULT_CODE_PENDING } } }) := by
    simp [action_getResult, he, concludeResult, lMillis, hexp']
  refine ⟨_, hget, ?_⟩
  unfold timeoutBranch
  cases p.ltem1_chkHwReady <;> cases p.sc16is741a_chkCommReady <;>
    simp [ltem1_notifyApp, s_copyToDiagnostics, notifications_append, notifications]

/-- Witness of C7 amended: module healthy, bridge unresponsive. -/
theorem getResult_timeout_notifies_witness :
    bufferEmpty (clockAdvance 600 (invokedWorld true false [65, 84] 500 none)) ∧
    (testPlatform true false).lTimerExpired 700 100 500 = true ∧
    ∃ w', action_getResult smallHeader (testPlatform true false) true
        (clockAdvance 600 (invokedWorld true false [65, 84] 500 none))
        = some ({ statusCode := 408, response := 1000 }, w') ∧
      notifications w'.trace = [(ltem1NotifType.hwNotReady, "Modem comm unresponsive")] :=
  ⟨rfl, rfl,
    (getResult_timeout_notifies smallHeader (testPlatform true false) true
      (clockAdvance 600 (invokedWorld true false [65, 84] 500 none)) (Or.inl ⟨rfl, rfl⟩) rfl).1⟩

theorem copyToDiagnostics_action (k : ltem1c_h) (w : World) :
    (s_copyToDiagnostics k w).ltem1.action.isOpen = w.ltem1.action.isOpen ∧
    (s_copyToDiagnostics k w).ltem1.action.resultCode = w.ltem1.action.resultCode ∧
    (s_copyToDiagnostics k w).ltem1.iop = w.ltem1.iop :=
  ⟨rfl, rfl, rfl⟩

/-- C8: when `action_getResult(closeAction)` on an open Action returns a code
that is neither pending nor timeout, the Action is closed afterwards if and
only if `closeAction` is true or the code is above `RESULT_CODE_SUCCESSMAX`;
the returned status is the Action's result code, which is the parser's code
when the parser was run. -/
theorem getResult_terminal (k : ltem1c_h) (p : Platform) (closeAction : Bool)
    (w w' : World) (r : actionResult_t)
    (hget : action_getResult k p closeAction w = some (r, w'))
    (hopen : w.ltem1.action.isOpen = true)
    (hpend : r.statusCode ≠ k.RESULT_CODE_PENDING)
    (htime : r.statusCode ≠ k.RESULT_CODE_TIMEOUT) :
    (w'.ltem1.action.isOpen = false ↔
      (closeAction = true ∨ r.statusCode > k.RESULT_CODE_SUCCESSMAX)) ∧
    (closeAction = false → r.statusCode ≤ k.RESULT_CODE_SUCCESSMAX →
      w'.ltem1.action.isOpen = true) ∧
    r.statusCode = w'.ltem1.action.resultCode ∧
    (∀ c e, parserReports w c e → r.statusCode = c) := by
  unfold action_getResult at hget
  cases hrun : runParser w with
  | none => simp [hrun] at hget
  | some x =>
    obtain ⟨w1, e⟩ := x
    simp only [hrun, Option.map_some', Option.some.injEq] at hget
    have hw1 : w1.ltem1.action.isOpen = true ∧
        (∀ c e, parserReports w c e → w1.ltem1.action.resultCode = c) := by
      rcases runParser_cases w w1 e hrun with ⟨hemp, h1, _⟩ | ⟨c, hc, h1⟩
      · rw [h1]
        refine ⟨hopen, ?_⟩
        intro c e' hrep
        have := runParser_reports w c e' hrep
        rw [runParser_empty w hemp] at this
        simp only [Option.some.injEq, Prod.mk.injEq] at this
        have h2 := congrArg (fun v : World => v.ltem1.action.resultCode) this.1
        simpa using h2
      · rw [h1]
        refine ⟨hopen, ?_⟩
        intro c' e' hrep
        have := runParser_reports w c' e' hrep
        rw [runParser_reports w c e hc] at this
        simp only [Option.some.injEq, Prod.mk.injEq] at this
        have h2 := congrArg (fun v : World => v.ltem1.action.resultCode) this.1
        simpa using h2
    obtain ⟨hopen1, hrep1⟩ := hw1
    unfold concludeResult at hget
    by_cases hp : w1.ltem1.action.resultCode = k.RESULT_CODE_PENDING
    · cases ht : p.lTimerExpired (lMillis w1) w1.ltem1.action.invokedAt
          w1.ltem1.action.timeoutMillis
      · simp [hp, ht] at hget
        obtain ⟨h1, _⟩ := hget
        subst h1
        exact absurd rfl hpend
      · simp [hp, ht] at hget
        obtain ⟨h1, _⟩ := hget
        subst h1
        exact absurd rfl htime
    · simp only [hp, if_false] at hget
      by_cases hs : w1.ltem1.action.resultCode ≤ k.RESULT_CODE_SUCCESSMAX
      · cases closeAction
        · simp only [hs, if_true, Bool.false_eq_true, if_false, Prod.mk.injEq] at hget
          obtain ⟨h1, h2⟩ := hget
          subst h1 h2
          refine ⟨?_, ?_, rfl, fun c e h => hrep1 c e h⟩
          · simp [hopen1, hs]
          · intro _ _; exact hopen1
        · simp only [hs, if_true, Prod.mk.injEq] at hget
          obtain ⟨h1, h2⟩ := hget
          subst h1 h2
          refine ⟨?_, ?_, rfl, fun c e h => hrep1 c e h⟩
          · simp
          · intro h; exact absurd h (by decide)
      · simp only [hs, if_false, Prod.mk.injEq] at hget
        obtain ⟨h1, h2⟩ := hget
        subst h1 h2
        have hgt : w1.ltem1.action.resultCode > k.RESULT_CODE_SUCCESSMAX := by omega
        refine ⟨?_, ?_, rfl, fun c e h => hrep1 c e h⟩
        · simp [s_copyToDiagnostics, hgt]
        · intro _ h; exact absurd h hs

/-- Witness of C8: "OK\r\n" received after "AT", polled with
`closeAction = false`: status 200 and the Action stays open. -/
theorem getResult_terminal_witness :
    action_getResult smallHeader (testPlatform true true) false
        (iop_rxReceive [79, 75, 13, 10] invokedAT)
      = some ({ statusCode := 200, response := 1000 },
          (polled false
            (iop_rxReceive [79, 75, 13, 10] invokedAT)).2) ∧
    (iop_rxReceive [79, 75, 13, 10]
      invokedAT).ltem1.action.isOpen = true ∧
    (200 : Nat) ≠ smallHeader.RESULT_CODE_PENDING ∧
    (200 : Nat) ≠ smallHeader.RESULT_CODE_TIMEOUT ∧
    (polled false
      (iop_rxReceive [79, 75, 13, 10]
        invokedAT)).2.ltem1.action.isOpen = true :=
  ⟨rfl, rfl, by decide, by decide,
    (getResult_terminal smallHeader (testPlatform true true) false
      (iop_rxReceive [79, 75, 13, 10] invokedAT) _
      { statusCode := 200, response := 1000 } rfl rfl (by decide) (by decide)).2.1 rfl
      (by decide)⟩

/-- C9 on the code: with the token-count matcher installed and the response
"+X: 1,2,3\r\nOK\r\n" filling the buffer from 1000 to the head 1015,
`action_getResult` returns the success code 200 and leaves the tail at 1016,
one byte past the head. -/
theorem getResult_token_tail_past_head :
    (iop_rxReceive [43, 88, 58, 32, 49, 44, 50, 44, 51, 13, 10, 79, 75, 13, 10]
      (invokedWorld true true [65, 84] 500
        (some (tokenParserX smallHeader)))).ltem1.iop.rxCmdBuf.head = 1015 ∧
    (action_getResult smallHeader (testPlatform true true) true
        (iop_rxReceive [43, 88, 58, 32, 49, 44, 50, 44, 51, 13, 10, 79, 75, 13, 10]
          (invokedWorld true true [65, 84] 500 (some (tokenParserX smallHeader))))).map
      (fun r => (r.1.statusCode, r.2.ltem1.iop.rxCmdBuf.tail, r.2.ltem1.iop.rxCmdBuf.head))
      = some (200, 1016, 1015) := by
  refine ⟨rfl, ?_⟩
  decide

/-- C10, as stated, fails: "AT" is invoked, "OK\r\n" arrives and a poll with
`closeAction = false` sets the result code to 200 and keeps the Action open;
"RDY\r\n" arrives and the next poll sets the result code of the same open
Action back to `RESULT_CODE_PENDING`. -/
theorem resultCode_regresses :
    (action_getResult smallHeader (testPlatform true true) false
        (iop_rxReceive [79, 75, 13, 10] invokedAT)).map
      (fun r => (r.1.statusCode, r.2.ltem1.action.resultCode, r.2.ltem1.action.isOpen))
      = some (200, 200, true) ∧
    (action_getResult smallHeader (testPlatform true true) false
        (iop_rxReceive [82, 68, 89, 13, 10]
          (polled false
            (iop_rxReceive [79, 75, 13, 10]
              invokedAT)).2)).map
      (fun r => (r.1.statusCode, r.2.ltem1.action.resultCode, r.2.ltem1.action.isOpen))
      = some (0, 0, true) ∧
    smallHeader.RESULT_CODE_PENDING = 0 := by
  refine ⟨?_, ?_, rfl⟩ <;> decide

/-- C10, amended: once the Action's result code is terminal, a call of
`action_getResult` made while the command buffer has no unconsumed byte leaves
the result code as it is, and a call in which the parser reports a terminal
code on the unconsumed bytes sets it to that code; in both cases it is not
`RESULT_CODE_PENDING` afterwards.  (A call in which the parser reports pending
on unconsumed bytes is not covered.) -/
theorem getResult_keeps_terminal (k : ltem1c_h) (p : Platform) (closeAction : Bool) (w : World)
    (hterm : w.ltem1.action.resultCode ≠ k.RESULT_CODE_PENDING) :
    (bufferEmpty w → ∃ r w', action_getResult k p closeAction w = some (r, w') ∧
      w'.ltem1.action.resultCode = w.ltem1.action.resultCode ∧
      w'.ltem1.action.resultCode ≠ k.RESULT_CODE_PENDING) ∧
    (∀ c e, parserReports w c e → c ≠ k.RESULT_CODE_PENDING →
      ∃ r w', action_getResult k p closeAction w = some (r, w') ∧
        w'.ltem1.action.resultCode = c ∧
        w'.ltem1.action.resultCode ≠ k.RESULT_CODE_PENDING) := by
  have key : ∀ (w1 : World) (e : Nat), w1.ltem1.action.resultCode ≠ k.RESULT_CODE_PENDING →
      (concludeResult k p closeAction w1 e).2.ltem1.action.resultCode
        = w1.ltem1.action.resultCode := by
    intro w1 e h1
    unfold concludeResult
    simp only [h1, if_false]
    by_cases hs : w1.ltem1.action.resultCode ≤ k.RESULT_CODE_SUCCESSMAX
    · cases closeAction <;> simp [hs]
    · simp [hs, s_copyToDiagnostics]
  constructor
  · intro hemp
    refine ⟨(concludeResult k p closeAction w 0).1, (concludeResult k p closeAction w 0).2,
      by rw [action_getResult, runParser_empty w hemp]; rfl, ?_, ?_⟩
    · exact key w 0 hterm
    · rw [key w 0 hterm]; exact hterm
  · intro c e hrep hc
    have hc' : ({ w with
        ltem1 := { w.ltem1 with action := { w.ltem1.action with resultCode := c } } }
        : World).ltem1.action.resultCode ≠ k.RESULT_CODE_PENDING := hc
    refine ⟨(concludeResult k p closeAction _ e).1, (concludeResult k p closeAction _ e).2,
      by rw [action_getResult, runParser_reports w c e hrep]; rfl, ?_, ?_⟩
    · exact key _ e hc'
    · rw [key _ e hc']; exact hc

/-- Witness of C10 amended: after "OK\r\n" was consumed with result code 200,
a further poll on the empty buffer keeps 200. -/
theorem getResult_keeps_terminal_witness :
    (polled false (iop_rxReceive [79, 75, 13, 10]
      invokedAT)).2.ltem1.action.resultCode
      ≠ smallHeader.RESULT_CODE_PENDING ∧
    bufferEmpty (polled false (iop_rxReceive [79, 75, 13, 10]
      invokedAT)).2 ∧
    ∃ r w', action_getResult smallHeader (testPlatform true true) false
        (polled false (iop_rxReceive [79, 75, 13, 10]
          invokedAT)).2 = some (r, w') ∧
      w'.ltem1.action.resultCode = 200 ∧
      w'.ltem1.action.resultCode ≠ smallHeader.RESULT_CODE_PENDING :=
  ⟨by decide, rfl,
    (getResult_keeps_terminal smallHeader (testPlatform true true) false
      (polled false (iop_rxReceive [79, 75, 13, 10]
        invokedAT)).2 (by decide)).1 rfl⟩

/-! ## Cancellation -/

theorem concludeResult_cancellation (k : ltem1c_h) (p : Platform) (closeAction : Bool)
    (w1 : World) (e : Nat) :
    (concludeResult k p closeAction w1 e).2.ltem1.cancellationRequest
      = w1.ltem1.cancellationRequest := by
  unfold concludeResult
  by_cases hp : w1.ltem1.action.resultCode = k.RESULT_CODE_PENDING
  · cases ht : p.lTimerExpired (lMillis w1) w1.ltem1.action.invokedAt
        w1.ltem1.action.timeoutMillis
    · simp [hp, ht]
    · simp [hp, ht, (timeoutBranch_action k p w1).2.2]
  · by_cases hs : w1.ltem1.action.resultCode ≤ k.RESULT_CODE_SUCCESSMAX
    · cases closeAction <;> simp [hp, hs]
    · simp [hp, hs, s_copyToDiagnostics]

theorem getResult_cancellation (k : ltem1c_h) (p : Platform) (closeAction : Bool)
    (w w1 : World) (r : actionResult_t)
    (hget : action_getResult k p closeAction w = some (r, w1)) :
    w1.ltem1.cancellationRequest = w.ltem1.cancellationRequest := by
  unfold action_getResult at hget
  cases hrun : runParser w with
  | none => simp [hrun] at hget
  | some x =>
    obtain ⟨w0, e⟩ := x
    simp only [hrun, Option.map_some', Option.some.injEq] at hget
    have h0 : w0.ltem1.cancellationRequest = w.ltem1.cancellationRequest := by
      rcases runParser_cases w w0 e hrun with ⟨_, h1, _⟩ | ⟨c, _, h1⟩ <;> rw [h1]
    have h1 := concludeResult_cancellation k p closeAction w0 e
    rw [hget] at h1
    rw [← h0]; exact h1

/-- C11: when the cancellation flag is set at the check that follows a poll,
`action_awaitResult` returns `RESULT_CODE_CANCELLED` with a null response right
after that poll, without yielding, whatever the poll returned; the flag is set
at that check exactly when it was set before the poll. -/
theorem awaitResult_cancelled (k : ltem1c_h) (p : Platform) (autoCloseAction : Bool)
    (w w1 : World) (r : actionResult_t)
    (hget : action_getResult k p autoCloseAction w = some (r, w1))
    (hflag : w1.ltem1.cancellationRequest = true) :
    (∀ fuel, action_awaitResult k p autoCloseAction (fuel + 1) w
      = some ({ statusCode := k.RESULT_CODE_CANCELLED, response := 0 }, w1)) ∧
    w.ltem1.cancellationRequest = true := by
  refine ⟨?_, ?_⟩
  · intro fuel
    simp [action_awaitResult, hget, hflag]
  · rw [← getResult_cancellation k p autoCloseAction w w1 r hget]; exact hflag

/-- Witness of C11: cancellation requested while "OK\r\n" is waiting in the
buffer: the poll returns 200 and `action_awaitResult` returns 499. -/
theorem awaitResult_cancelled_witness :
    action_getResult smallHeader (testPlatform true true) false
        (cancelRequested
          (iop_rxReceive [79, 75, 13, 10] invokedAT))
      = some ({ statusCode := 200, response := 1000 },
          (polled false (cancelRequested
            (iop_rxReceive [79, 75, 13, 10] invokedAT))).2) ∧
    (polled false (cancelRequested
      (iop_rxReceive [79, 75, 13, 10]
        invokedAT))).2.ltem1.cancellationRequest = true ∧
    action_awaitResult smallHeader (testPlatform true true) false 1
        (cancelRequested
          (iop_rxReceive [79, 75, 13, 10] invokedAT))
      = some ({ statusCode := 499, response := 0 },
          (polled false (cancelRequested
            (iop_rxReceive [79, 75, 13, 10] invokedAT))).2) :=
  ⟨rfl, rfl,
    (awaitResult_cancelled smallHeader (testPlatform true true) false
      (cancelRequested
        (iop_rxReceive [79, 75, 13, 10] invokedAT))
      (polled false (cancelRequested
        (iop_rxReceive [79, 75, 13, 10] invokedAT))).2
      { statusCode := 200, response := 1000 } rfl rfl).1 0⟩

/-- C12, as stated, fails: `action_awaitResult` is entered with the
cancellation flag set, the tail at 1000 and "OK\r\n" in the buffer; it
returns `RESULT_CODE_CANCELLED` with the tail moved to 1004. -/
theorem awaitResult_cancelled_moves_tail :
    (cancelRequested
      (iop_rxReceive [79, 75, 13, 10]
        invokedAT)).ltem1.iop.rxCmdBuf.tail = 1000 ∧
    (action_awaitResult smallHeader (testPlatform true true) false 1
        (cancelRequested
          (iop_rxReceive [79, 75, 13, 10] invokedAT))).map
      (fun r => (r.1.statusCode, r.2.ltem1.iop.rxCmdBuf.tail)) = some (499, 1004) ∧
    smallHeader.RESULT_CODE_CANCELLED = 499 := by
  refine ⟨rfl, ?_, rfl⟩
  decide

/-- C12, amended: when `action_awaitResult` is entered with the cancellation
flag set and the poll of that iteration finds nothing terminal (the buffer is
empty with a pending result code, or the parser reports pending), it returns
`RESULT_CODE_CANCELLED` with the tail of the command buffer where it was, the
timeout expired or not. -/
theorem awaitResult_cancelled_tail (k : ltem1c_h) (p : Platform) (autoCloseAction : Bool)
    (w : World)
    (hflag : w.ltem1.cancellationRequest = true)
    (hparse : (bufferEmpty w ∧ w.ltem1.action.resultCode = k.RESULT_CODE_PENDING) ∨
      ∃ e, parserReports w k.RESULT_CODE_PENDING e) :
    ∃ w', (∀ fuel, action_awaitResult k p autoCloseAction (fuel + 1) w
        = some ({ statusCode := k.RESULT_CODE_CANCELLED, response := 0 }, w')) ∧
      w'.ltem1.iop.rxCmdBuf.tail = w.ltem1.iop.rxCmdBuf.tail ∧
      w'.ltem1.iop.rxCmdBuf.head = w.ltem1.iop.rxCmdBuf.head := by
  obtain ⟨e, he⟩ := runParser_pending k w hparse
  have hget : ∃ r w', action_getResult k p autoCloseAction w = some (r, w') ∧
      w'.ltem1.iop = w.ltem1.iop := by
    cases ht : p.lTimerExpired w.millis w.ltem1.action.invokedAt w.ltem1.action.timeoutMillis
    · refine ⟨{ statusCode := k.RESULT_CODE_PENDING, response := w.ltem1.iop.rxCmdBuf.buffer },
        { w with
          ltem1 := { w.ltem1 with
            action := { w.ltem1.action with resultCode := k.RESULT_CODE_PENDING } } }, ?_, rfl⟩
      simp [action_getResult, he, concludeResult, lMillis, ht]
    · refine ⟨{ statusCode := k.RESULT_CODE_TIMEOUT, response := w.ltem1.iop.rxCmdBuf.buffer },
        timeoutBranch k p { w with
          ltem1 := { w.ltem1 with
            action := { w.ltem1.action with resultCode := k.RESULT_CODE_PENDING } } }, ?_, ?_⟩
      · simp [action_getResult, he, concludeResult, lMillis, ht]
      · unfold timeoutBranch
        cases p.ltem1_chkHwReady <;> cases p.sc16is741a_chkCommReady <;> rfl
  obtain ⟨r, w', hg, hiop⟩ := hget
  have hf : w'.ltem1.cancellationRequest = true := by
    rw [getResult_cancellation k p autoCloseAction w w' r hg]; exact hflag
  refine ⟨w', ?_, by rw [hiop], by rw [hiop]⟩
  intro fuel
  simp [action_awaitResult, hg, hf]

/-- Witness of C12 amended: cancellation requested while only the echo
"AT\r\n" is in the buffer. -/
theorem awaitResult_cancelled_tail_witness :
    (cancelRequested
      (iop_rxReceive [65, 84, 13, 10]
        invokedAT)).ltem1.cancellationRequest = true ∧
    (∃ e, parserReports
      (cancelRequested
        (iop_rxReceive [65, 84, 13, 10] invokedAT))
      smallHeader.RESULT_CODE_PENDING e) ∧
    ∃ w', (∀ fuel, action_awaitResult smallHeader (testPlatform true true) true (fuel + 1)
        (cancelRequested
          (iop_rxReceive [65, 84, 13, 10] invokedAT))
        = some ({ statusCode := 499, response := 0 }, w')) ∧
      w'.ltem1.iop.rxCmdBuf.tail = 1000 ∧ w'.ltem1.iop.rxCmdBuf.head = 1004 :=
  ⟨rfl, ⟨0, 65, emptyPreambleParser smallHeader, [65, 84, 13, 10], rfl, by decide, rfl, rfl,
      rfl⟩,
    awaitResult_cancelled_tail smallHeader (testPlatform true true) true
      (cancelRequested
        (iop_rxReceive [65, 84, 13, 10] invokedAT))
      rfl
      (Or.inr ⟨0, 65, emptyPreambleParser smallHeader, [65, 84, 13, 10], rfl, by decide, rfl,
        rfl, rfl⟩)⟩

/-! ## Searching the response -/

theorem startsWith_iff (hay needle : List Nat) :
    startsWith hay needle = true ↔ ∃ t, hay = needle ++ t := by
  induction needle generalizing hay with
  | nil => cases hay <;> simp [startsWith]
  | cons n ns ih =>
    cases hay with
    | nil => simp [startsWith]
    | cons h hs =>
      simp only [startsWith, Bool.and_eq_true, beq_iff_eq, ih, List.cons_append, List.cons.injEq]
      constructor
      · rintro ⟨rfl, t, rfl⟩; exact ⟨t, rfl, rfl⟩
      · rintro ⟨t, rfl, rfl⟩; exact ⟨rfl, t, rfl⟩

theorem occursAt_zero_iff (hay needle : List Nat) :
    occursAt hay needle 0 ↔ startsWith hay needle = true := by
  rw [startsWith_iff]
  constructor
  · rintro ⟨pre, post, h, hl⟩
    have : pre = [] := List.length_eq_zero.mp hl
    subst this
    exact ⟨post, by simpa using h⟩
  · rintro ⟨t, h⟩
    exact ⟨[], t, by simpa using h, rfl⟩

theorem occursAt_cons_succ (h : Nat) (hs needle : List Nat) (j : Nat) :
    occursAt (h :: hs) needle (j + 1) ↔ occursAt hs needle j := by
  constructor
  · rintro ⟨pre, post, he, hl⟩
    cases pre with
    | nil => simp at hl
    | cons a pre1 =>
      simp only [List.cons_append, List.cons.injEq] at he
      exact ⟨pre1, post, he.2, by simpa using hl⟩
  · rintro ⟨pre, post, he, hl⟩
    exact ⟨h :: pre, post, by simp [he], by simp [hl]⟩

theorem occursAt_nil (needle : List Nat) (j : Nat) (h : occursAt [] needle j) : j = 0 := by
  obtain ⟨pre, post, he, hl⟩ := h
  have h1 := congrArg List.length he
  simp at h1
  omega

theorem occursAt_bound (hay needle : List Nat) (i : Nat) (h : occursAt hay needle i) :
    i + needle.length ≤ hay.length := by
  obtain ⟨pre, post, he, hl⟩ := h
  have h1 := congrArg List.length he
  simp at h1
  omega

theorem findAt_some (hay needle : List Nat) :
    ∀ i, findAt hay needle = some i → firstAt hay needle i := by
  induction hay with
  | nil =>
    intro i h
    by_cases hs : startsWith [] needle = true
    · simp only [findAt, hs, if_true, Option.some.injEq] at h
      subst h
      exact ⟨(occursAt_zero_iff _ _).mpr hs, fun j _ => Nat.zero_le j⟩
    · simp [findAt, hs] at h
  | cons a hs ih =>
    intro i h
    by_cases hst : startsWith (a :: hs) needle = true
    · simp only [findAt, hst, if_true, Option.some.injEq] at h
      subst h
      exact ⟨(occursAt_zero_iff _ _).mpr hst, fun j _ => Nat.zero_le j⟩
    · simp only [findAt, hst, Bool.false_eq_true, if_false, Option.map_eq_some'] at h
      obtain ⟨j, hj, rfl⟩ := h
      obtain ⟨h1, h2⟩ := ih j hj
      refine ⟨(occursAt_cons_succ a hs needle j).mpr h1, ?_⟩
      intro m hm
      cases m with
      | zero => exact absurd ((occursAt_zero_iff _ _).mp hm) hst
      | succ m => exact Nat.succ_le_succ (h2 m ((occursAt_cons_succ a hs needle m).mp hm))

theorem findAt_none (hay needle : List Nat) :
    findAt hay needle = none → ∀ j, ¬ occursAt hay needle j := by
  induction hay with
  | nil =>
    intro h j hj
    have hj0 := occursAt_nil needle j hj
    subst hj0
    have := (occursAt_zero_iff _ _).mp hj
    simp [findAt, this] at h
  | cons a hs ih =>
    intro h j hj
    by_cases hst : startsWith (a :: hs) needle = true
    · simp [findAt, hst] at h
    · simp only [findAt, hst, Bool.false_eq_true, if_false, Option.map_eq_none'] at h
      cases j with
      | zero => exact hst ((occursAt_zero_iff _ _).mp hj)
      | succ j => exact ih h j ((occursAt_cons_succ a hs needle j).mp hj)

theorem firstAt_findAt (hay needle : List Nat) (i : Nat) (h : firstAt hay needle i) :
    findAt hay needle = some i := by
  cases hf : findAt hay needle with
  | none => exact absurd h.1 (findAt_none hay needle hf i)
  | some j =>
    have hj := findAt_some hay needle j hf
    have h1 := h.2 j hj.1
    have h2 := hj.2 i h.1
    congr 1
    omega

theorem absent_findAt (hay needle : List Nat) (h : ∀ j, ¬ occursAt hay needle j) :
    findAt hay needle = none := by
  cases hf : findAt hay needle with
  | none => rfl
  | some j => exact absurd (findAt_some hay needle j hf).1 (h j)

theorem cstrAt_offset (response : Nat) (s : List Nat) (o : Nat) (ho : o ≤ s.length) :
    cstrAt response s (response + o) = some (s.drop o) := by
  simp [cstrAt, ho]

theorem strstr_first (response : Nat) (s needle : List Nat) (o i : Nat) (ho : o ≤ s.length)
    (h : firstAt (s.drop o) needle i) :
    strstr response s (response + o) needle = some (response + o + i) := by
  simp [strstr, cstrAt_offset response s o ho, firstAt_findAt _ _ i h]

theorem strstr_absent (response : Nat) (s needle : List Nat) (o : Nat) (ho : o ≤ s.length)
    (h : ∀ j, ¬ occursAt (s.drop o) needle j) :
    strstr response s (response + o) needle = some 0 := by
  simp [strstr, cstrAt_offset response s o ho, absent_findAt _ _ h]

/-! ## The default matcher -/

theorem strstr_start_first (response : Nat) (s needle : List Nat) (i : Nat)
    (h : firstAt s needle i) : strstr response s response needle = some (response + i) := by
  have := strstr_first response s needle 0 i (Nat.zero_le _) (by simpa using h)
  simpa using this

theorem strstr_start_absent (response : Nat) (s needle : List Nat)
    (h : ∀ j, ¬ occursAt s needle j) : strstr response s response needle = some 0 := by
  have := strstr_absent response s needle 0 (Nat.zero_le _) (by simpa using h)
  simpa using this

theorem searchStartsAt_le (s : List Nat) (preamble : List Nat) (preambleReqd : Bool)
    (o : Nat) (h : searchStartsAt s preamble preambleReqd o) : o ≤ s.length := by
  rcases h with ⟨_, rfl⟩ | ⟨_, j, hj, rfl⟩ | ⟨_, _, _, rfl⟩
  · exact Nat.zero_le _
  · have h1 := occursAt_bound _ _ _ hj.1
    have h2 := Nat.mod_le preamble.length 256
    omega
  · exact Nat.zero_le _

theorem gapResult_null (k : ltem1c_h) (termSearchAt gapReqd : Nat) :
    gapResult k termSearchAt gapReqd 0 = k.RESULT_CODE_PENDING := by
  simp [gapResult]

theorem default_explicit (k : ltem1c_h) (response : Nat) (s : List Nat)
    (preamble : List Nat) (preambleReqd : Bool) (gapReqd : Nat) (term : List Nat)
    (endptr o : Nat) (hresp : 0 < response)
    (hstart : searchStartsAt s preamble preambleReqd o) :
    action_defaultResultParser k response s (some preamble) preambleReqd gapReqd (some term) endptr
      = (strstr response s (response + o) term).map fun t =>
          (gapResult k (response + o) gapReqd t, t + term.length) := by
  have hr : response ≠ 0 := by omega
  rcases hstart with ⟨h0, rfl⟩ | ⟨h0, j, hj, rfl⟩ | ⟨h0, hreq, habs, rfl⟩
  · simp [action_defaultResultParser, strlen8, h0, hr]
    cases strstr response s response term <;> rfl
  · have hj' : response + j ≠ 0 := by omega
    simp [action_defaultResultParser, strlen8, h0, strstr_start_first response s _ j hj, hj',
      Nat.add_assoc]
    cases strstr response s (response + (j + preamble.length % 256)) term <;> rfl
  · simp [action_defaultResultParser, strlen8, h0, strstr_start_absent response s _ habs, hreq]
    cases strstr response s response term <;> rfl

theorem default_standard (k : ltem1c_h) (response : Nat) (s : List Nat)
    (preamble : List Nat) (preambleReqd : Bool) (gapReqd : Nat)
    (endptr o : Nat) (hresp : 0 < response)
    (hstart : searchStartsAt s preamble preambleReqd o) :
    action_defaultResultParser k response s (some preamble) preambleReqd gapReqd none endptr
      = (strstr response s (response + o) OK_COMPLETED_STRING).bind fun t =>
          if t ≠ 0 then some (gapResult k (response + o) gapReqd t, t + 4)
          else (strstr response s (response + o) CME_PREABLE).bind fun c =>
            if c ≠ 0 then
              (strtol response s (c + CME_PREABLE_SZ)).map fun r => (toUInt16 r.1, r.2)
            else some (k.RESULT_CODE_PENDING, endptr) := by
  have hr : response ≠ 0 := by omega
  have key : ∀ a : Nat,
      (do
        let terminatorAt ← strstr response s a OK_COMPLETED_STRING
        if terminatorAt ≠ 0 then
          some (gapResult k a gapReqd terminatorAt, terminatorAt + 4)
        else if terminatorAt = 0 then
          let terminatorAt ← strstr response s a CME_PREABLE
          if terminatorAt ≠ 0 then
            let r ← strtol response s (terminatorAt + CME_PREABLE_SZ)
            some (toUInt16 r.1, r.2)
          else some (gapResult k a gapReqd terminatorAt, endptr)
        else if terminatorAt = 0 then
          let terminatorAt ← strstr response s a ERROR_COMPLETED_STRING
          if terminatorAt ≠ 0 then some (k.RESULT_CODE_ERROR, terminatorAt + 7)
          else some (gapResult k a gapReqd terminatorAt, endptr)
        else if terminatorAt = 0 then
          let terminatorAt ← strstr response s a FAIL_COMPLETED_STRING
          if terminatorAt ≠ 0 then some (k.RESULT_CODE_ERROR, terminatorAt + 6)
          else some (gapResult k a gapReqd terminatorAt, endptr)
        else some (gapResult k a gapReqd terminatorAt, endptr) : Option (Nat × Nat))
      = (strstr response s a OK_COMPLETED_STRING).bind fun t =>
          if t ≠ 0 then some (gapResult k a gapReqd t, t + 4)
          else (strstr response s a CME_PREABLE).bind fun c =>
            if c ≠ 0 then
              (strtol response s (c + CME_PREABLE_SZ)).map fun r => (toUInt16 r.1, r.2)
            else some (k.RESULT_CODE_PENDING, endptr) := by
    intro a
    cases strstr response s a OK_COMPLETED_STRING with
    | none => rfl
    | some t =>
      by_cases ht : t = 0
      · subst ht
        simp only [Option.bind_eq_bind, Option.some_bind, ne_eq, not_true_eq_false, if_false,
          if_true]
        cases strstr response s a CME_PREABLE with
        | none => rfl
        | some c =>
          by_cases hc : c = 0
          · subst hc; simp [gapResult_null]
          · simp only [Option.some_bind, ne_eq, hc, not_false_eq_true, if_true]
            cases strtol response s (c + CME_PREABLE_SZ) <;> rfl
      · simp [ht]
  rcases hstart with ⟨h0, rfl⟩ | ⟨h0, j, hj, rfl⟩ | ⟨h0, hreq, habs, rfl⟩
  · rw [← key]
    simp [action_defaultResultParser, strlen8, h0, hr]
  · have hj' : response + j ≠ 0 := by omega
    rw [← key]
    simp [action_defaultResultParser, strlen8, h0, strstr_start_first response s _ j hj, hj',
      Nat.add_assoc]
  · rw [← key]
    simp [action_defaultResultParser, strlen8, h0, strstr_start_absent response s _ habs, hreq]

theorem occursAt_first (hay needle : List Nat) (m : Nat) (h : occursAt hay needle m) :
    ∃ i, firstAt hay needle i := by
  cases hf : findAt hay needle with
  | none => exact absurd h (findAt_none hay needle hf m)
  | some i => exact ⟨i, findAt_some hay needle i hf⟩

theorem emptyPreambleParser_success (k : ltem1c_h) (response : Nat) (s : List Nat)
    (endptr m : Nat) (hresp : 0 < response) (hok : occursAt s OK_COMPLETED_STRING m) :
    ∃ i, firstAt s OK_COMPLETED_STRING i ∧
      emptyPreambleParser k response s endptr
        = some (k.RESULT_CODE_SUCCESS, response + i + OK_COMPLETED_STRING.length) := by
  obtain ⟨i, hi⟩ := occursAt_first s _ m hok
  refine ⟨i, hi, ?_⟩
  have hstart : searchStartsAt s [] false 0 := Or.inl ⟨rfl, rfl⟩
  have hne : response + i ≠ 0 := by omega
  unfold emptyPreambleParser
  rw [default_standard k response s [] false 0 endptr 0 hresp hstart,
    strstr_first response s _ 0 i (Nat.zero_le _) (by simpa using hi)]
  simp [hne, gapResult, OK_COMPLETED_STRING]

/-- C13 on the code: `action_okResultParser` passes `NULL` as the preamble and
`action_defaultResultParser` starts with `strlen(preamble)`, so the matcher has
no defined outcome for any response, "AT+TEST\r\nOK\r\n" stored at 1000
included.  The same matcher called with the preamble `""`, gap 0 and no
explicit terminator returns `RESULT_CODE_SUCCESS` (200) for that response and
reports 1013, the end of the string. -/
theorem okResultParser_null_preamble :
    (∀ (k : ltem1c_h) (response : Nat) (s : List Nat) (endptr : Nat),
      action_okResultParser k response s endptr = none) ∧
    action_okResultParser smallHeader 1000
        [65, 84, 43, 84, 69, 83, 84, 13, 10, 79, 75, 13, 10] 0 = none ∧
    occursAt [65, 84, 43, 84, 69, 83, 84, 13, 10, 79, 75, 13, 10] OK_COMPLETED_STRING 9 ∧
    action_defaultResultParser smallHeader 1000
        [65, 84, 43, 84, 69, 83, 84, 13, 10, 79, 75, 13, 10] (some []) false 0 none 0
      = some (smallHeader.RESULT_CODE_SUCCESS,
          1000 + [65, 84, 43, 84, 69, 83, 84, 13, 10, 79, 75, 13, 10].length) :=
  ⟨fun _ _ _ _ => rfl, rfl, ⟨[65, 84, 43, 84, 69, 83, 84, 13, 10], [], rfl, rfl⟩, by decide⟩

theorem takeWhile_blanks (b : Nat) (t : List Nat) :
    (List.replicate b 32 ++ t).takeWhile isspace = List.replicate b 32 ++ t.takeWhile isspace := by
  induction b with
  | zero => simp
  | succ b ih =>
    have h32 : isspace 32 = true := by decide
    simp [List.replicate_succ, List.takeWhile_cons, h32, ih]

theorem takeWhile_digits (ds rest : List Nat) (hdig : ∀ c ∈ ds, isdigit c = true)
    (hrest : ∀ c, rest.head? = some c → isdigit c = false) :
    (ds ++ rest).takeWhile isdigit = ds := by
  induction ds with
  | nil =>
    cases rest with
    | nil => rfl
    | cons c cs => simp [List.takeWhile_cons, hrest c rfl]
  | cons d ds ih =>
    have hd : isdigit d = true := hdig d (List.mem_cons_self _ _)
    simp [List.takeWhile_cons, hd, ih (fun c hc => hdig c (List.mem_cons_of_mem _ hc))]

theorem strtolText_number (b : Nat) (ds rest : List Nat) (hds : ds ≠ [])
    (hdig : ∀ c ∈ ds, isdigit c = true)
    (hrest : ∀ c, rest.head? = some c → isdigit c = false)
    (hv : digitsVal ds ≤ 2147483647) :
    strtolText (List.replicate b 32 ++ ds ++ rest) = ((digitsVal ds : Int), b + ds.length) := by
  cases ds with
  | nil => exact absurd rfl hds
  | cons d ds1 =>
    have hd : isdigit d = true := hdig d (List.mem_cons_self _ _)
    have hd' : 48 ≤ d ∧ d ≤ 57 := by simpa [isdigit] using hd
    have hsp : isspace d = false := by
      simp only [isspace, Bool.or_eq_false_iff, beq_eq_false_iff_ne, Bool.and_eq_false_iff,
        decide_eq_false_iff_not]
      omega
    have htw : (List.replicate b 32 ++ (d :: ds1) ++ rest).takeWhile isspace
        = List.replicate b 32 := by
      rw [List.append_assoc, takeWhile_blanks]
      simp [List.takeWhile_cons, hsp]
    have hdrop : (List.replicate b 32 ++ (d :: ds1) ++ rest).drop b = d :: (ds1 ++ rest) := by
      rw [List.append_assoc]
      simp [List.drop_append_eq_append_drop]
    have h45 : d ≠ 45 := by omega
    have h43 : d ≠ 43 := by omega
    have hsg : (match d :: (ds1 ++ rest) with
        | 45 :: _ => 1
        | 43 :: _ => 1
        | _ => 0) = 0 := by
      split <;> simp_all
    have hneg : (match d :: (ds1 ++ rest) with
        | 45 :: _ => true
        | _ => false) = false := by
      split <;> simp_all
    have hdg : (d :: (ds1 ++ rest)).takeWhile isdigit = d :: ds1 := by
      have := takeWhile_digits (d :: ds1) rest hdig hrest
      simpa using this
    unfold strtolText
    simp only [htw, List.length_replicate, hdrop, hsg, hneg, List.drop_zero, hdg]
    have hv' : ((digitsVal (d :: ds1) : Nat) : Int) ≤ 2147483647 := by exact_mod_cast hv
    have h0 : (0 : Int) ≤ ((digitsVal (d :: ds1) : Nat) : Int) := Int.natCast_nonneg _
    simp only [List.isEmpty_cons, Bool.false_eq_true, if_false, Prod.mk.injEq, and_true,
      add_zero]
    omega

theorem toUInt16_small (n : Nat) (h : n ≤ 65535) : toUInt16 (n : Int) = n := by
  unfold toUInt16
  omega

/-- C14: for a preamble that is a string (not `NULL`), when no "OK\r\n"
occurs after the search start and the first "+CME ERROR:" after it is followed
by blanks and a decimal number `n ≤ 65535`, `action_defaultResultParser` with
no explicit terminator returns `n` itself and reports the position right after
the digits of `n`. -/
theorem defaultParser_cme (k : ltem1c_h) (response : Nat) (s : List Nat)
    (preamble : List Nat) (preambleReqd : Bool) (gapReqd endptr o j b : Nat)
    (ds rest : List Nat)
    (hresp : 0 < response)
    (hstart : searchStartsAt s preamble preambleReqd o)
    (hok : ∀ i, ¬ occursAt (s.drop o) OK_COMPLETED_STRING i)
    (hcme : firstAt (s.drop o) CME_PREABLE j)
    (hnum : (s.drop o).drop (j + CME_PREABLE_SZ) = List.replicate b 32 ++ ds ++ rest)
    (hds : ds ≠ []) (hdig : ∀ c ∈ ds, isdigit c = true)
    (hrest : ∀ c, rest.head? = some c → isdigit c = false)
    (hn : digitsVal ds ≤ 65535) :
    action_defaultResultParser k response s (some preamble) preambleReqd gapReqd none endptr
      = some (digitsVal ds, response + o + j + CME_PREABLE_SZ + b + ds.length) := by
  have ho := searchStartsAt_le s preamble preambleReqd o hstart
  have hb := occursAt_bound _ _ _ hcme.1
  have hlen : (s.drop o).length = s.length - o := by simp
  have hcl : CME_PREABLE.length = 11 := rfl
  have hne : response + o + j ≠ 0 := by omega
  have hin : o + j + CME_PREABLE_SZ ≤ s.length := by
    simp only [CME_PREABLE_SZ]; omega
  have hdd : s.drop (o + j + CME_PREABLE_SZ) = List.replicate b 32 ++ ds ++ rest := by
    rw [← hnum, List.drop_drop, Nat.add_assoc]
  have hstr : strtol response s (response + o + j + CME_PREABLE_SZ)
      = some ((digitsVal ds : Int), response + o + j + CME_PREABLE_SZ + b + ds.length) := by
    have hc := cstrAt_offset response s (o + j + CME_PREABLE_SZ) hin
    have hp : response + (o + j + CME_PREABLE_SZ) = response + o + j + CME_PREABLE_SZ := by omega
    rw [hp] at hc
    simp only [strtol, hc, Option.map_some', hdd,
      strtolText_number b ds rest hds hdig hrest (by omega)]
    congr 2
    omega
  rw [default_standard k response s preamble preambleReqd gapReqd endptr o hresp hstart,
    strstr_absent response s _ o ho hok, strstr_first response s _ o j ho hcme]
  simp [hne, hstr, toUInt16_small _ hn]

/-- Witness of C14: "AT\r\n+CME ERROR: 501\r\n" stored at 1000 gives 501. -/
theorem defaultParser_cme_witness :
    (0 < 1000) ∧
    digitsVal [53, 48, 49] = 501 ∧
    action_defaultResultParser smallHeader 1000
        [65, 84, 13, 10, 43, 67, 77, 69, 32, 69, 82, 82, 79, 82, 58, 32, 53, 48, 49, 13, 10]
        (some []) false 0 none 0
      = some (501, 1019) :=
  ⟨by decide, by decide,
    defaultParser_cme smallHeader 1000
      [65, 84, 13, 10, 43, 67, 77, 69, 32, 69, 82, 82, 79, 82, 58, 32, 53, 48, 49, 13, 10]
      [] false 0 0 0 4 1 [53, 48, 49] [13, 10] (by decide) (Or.inl ⟨rfl, rfl⟩)
      (findAt_none _ _ (by decide)) (findAt_some _ _ 4 (by decide)) rfl (by decide)
      (by decide) (by decide) (by decide)⟩

/-- C15 on the code: the responses "AT\r\nERROR\r\n" and "AT\r\nFAIL\r\n"
hold neither "OK\r\n" nor "+CME ERROR:"; `action_defaultResultParser` with
the preamble `""` and no explicit terminator returns `RESULT_CODE_PENDING` for
both and leaves `*endptr` as it was (`NULL`). -/
theorem defaultParser_error_marker_pending :
    action_defaultResultParser smallHeader 1000 [65, 84, 13, 10, 69, 82, 82, 79, 82, 13, 10]
        (some []) false 0 none 0
      = some (smallHeader.RESULT_CODE_PENDING, 0) ∧
    action_defaultResultParser smallHeader 1000 [65, 84, 13, 10, 70, 65, 73, 76, 13, 10]
        (some []) false 0 none 0
      = some (smallHeader.RESULT_CODE_PENDING, 0) ∧
    occursAt [65, 84, 13, 10, 69, 82, 82, 79, 82, 13, 10] ERROR_COMPLETED_STRING 4 ∧
    occursAt [65, 84, 13, 10, 70, 65, 73, 76, 13, 10] FAIL_COMPLETED_STRING 4 ∧
    smallHeader.RESULT_CODE_PENDING ≠ smallHeader.RESULT_CODE_ERROR := by
  refine ⟨by decide, by decide, ⟨[65, 84, 13, 10], [], rfl, rfl⟩, ⟨[65, 84, 13, 10], [], rfl, rfl⟩,
    by decide⟩

theorem searchStartsAt_found (s : List Nat) (preamble : List Nat)
    (preambleReqd : Bool) (j : Nat) (hlen : preamble.length < 256)
    (hpre : firstAt s preamble j) :
    searchStartsAt s preamble preambleReqd (j + preamble.length) := by
  have hsz : preamble.length % 256 = preamble.length := Nat.mod_eq_of_lt hlen
  by_cases h0 : preamble.length % 256 = 0
  · left
    refine ⟨h0, ?_⟩
    have hl : preamble.length = 0 := by rw [← hsz]; exact h0
    have hnil : preamble = [] := List.length_eq_zero.mp hl
    have hocc : occursAt s preamble 0 := ⟨[], s, by simp [hnil], rfl⟩
    have := hpre.2 0 hocc
    omega
  · right; left
    exact ⟨h0, j, hpre, by rw [hsz]⟩

/-- C16: when the preamble is first found at offset `j` and the terminator
(the explicit one, or "OK\r\n" when none is given) is first found `d` bytes
after the end of the preamble, `action_defaultResultParser` returns
`RESULT_CODE_ERROR` if `d < gapReqd` and `RESULT_CODE_SUCCESS` otherwise, and
reports the position right after the terminator.  The preamble is shorter than
256 bytes (its size is kept in a `uint8_t`) and `gapReqd` is a `uint8_t`. -/
theorem defaultParser_gap (k : ltem1c_h) (response : Nat) (s : List Nat)
    (preamble : List Nat) (preambleReqd : Bool) (gapReqd : Nat)
    (terminator : Option (List Nat)) (endptr j d : Nat)
    (hresp : 0 < response)
    (hlen : preamble.length < 256) (hgap : gapReqd < 256)
    (hpre : firstAt s preamble j)
    (hterm : firstAt (s.drop (j + preamble.length))
      (terminator.getD OK_COMPLETED_STRING) d) :
    action_defaultResultParser k response s (some preamble) preambleReqd gapReqd terminator endptr
      = some (if d < gapReqd then k.RESULT_CODE_ERROR else k.RESULT_CODE_SUCCESS,
          response + j + preamble.length + d
            + (terminator.getD OK_COMPLETED_STRING).length) := by
  have hstart := searchStartsAt_found s preamble preambleReqd j hlen hpre
  have ho := searchStartsAt_le _ _ _ _ hstart
  have hg : gapReqd % 256 = gapReqd := Nat.mod_eq_of_lt hgap
  have hne : response + (j + preamble.length) + d ≠ 0 := by omega
  have hgapres : gapResult k (response + (j + preamble.length)) gapReqd
      (response + (j + preamble.length) + d)
      = if d < gapReqd then k.RESULT_CODE_ERROR else k.RESULT_CODE_SUCCESS := by
    unfold gapResult
    rw [hg]
    by_cases hd : d < gapReqd
    · have h1 : ¬ (response + (j + preamble.length) + gapReqd
          ≤ response + (j + preamble.length) + d) := by omega
      simp [hd, h1, hne]
    · have h1 : response + (j + preamble.length) + gapReqd
          ≤ response + (j + preamble.length) + d := by omega
      simp [hd, h1, hne]
  cases terminator with
  | some term =>
    have hterm' : firstAt (s.drop (j + preamble.length)) term d := hterm
    rw [default_explicit k response s preamble preambleReqd gapReqd term endptr _ hresp hstart,
      strstr_first response s _ _ d ho hterm']
    simp only [Option.map_some', hgapres, Option.getD_some]
    congr 2
    omega
  | none =>
    have hterm' : firstAt (s.drop (j + preamble.length)) OK_COMPLETED_STRING d :=
      hterm
    rw [default_standard k response s preamble preambleReqd gapReqd endptr _ hresp hstart,
      strstr_first response s _ _ d ho hterm']
    simp only [Option.some_bind, ne_eq, hne, not_false_eq_true, if_true, hgapres,
      Option.getD_none]
    congr 2
    simp only [OK_COMPLETED_STRING, List.length_cons, List.length_nil]
    omega

/-- Witness of C16: `contextStatusCompleteParser` (preamble "+QIACT: ", gap 2,
terminator "OK\r\n") on "+QIACT: OK\r\n": the terminator is adjacent to the
preamble and the result is the generic error 500. -/
theorem defaultParser_gap_witness :
    (0 < 1000) ∧
    firstAt [43, 81, 73, 65, 67, 84, 58, 32, 79, 75, 13, 10]
      [43, 81, 73, 65, 67, 84, 58, 32] 0 ∧
    firstAt ([43, 81, 73, 65, 67, 84, 58, 32, 79, 75, 13, 10].drop 8) ASCII_sOK 0 ∧
    contextStatusCompleteParser smallHeader 1000
        [43, 81, 73, 65, 67, 84, 58, 32, 79, 75, 13, 10] 0
      = some (500, 1012) :=
  ⟨by decide, findAt_some _ _ 0 (by decide), findAt_some _ _ 0 (by decide),
    defaultParser_gap smallHeader 1000 [43, 81, 73, 65, 67, 84, 58, 32, 79, 75, 13, 10]
      [43, 81, 73, 65, 67, 84, 58, 32] false 2 (some ASCII_sOK) 0 0 0 (by decide)
      (by decide) (by decide) (findAt_some _ _ 0 (by decide)) (findAt_some _ _ 0 (by decide))⟩

/-- C17: for a preamble that is a string (not `NULL`),
`action_defaultResultParser` returns `RESULT_CODE_PENDING` when the explicit
terminator does not occur after the search start; when, no terminator being
given, neither "OK\r\n" nor "+CME ERROR:" occurs after the search start; and
when `preambleReqd` is true and the non-empty preamble (its stored size is not
0) does not occur in the response, whatever the terminator. -/
theorem defaultParser_pending (k : ltem1c_h) (response : Nat) (s : List Nat)
    (preamble : List Nat) (preambleReqd : Bool) (gapReqd endptr : Nat)
    (hresp : 0 < response) :
    (∀ o term, searchStartsAt s preamble preambleReqd o →
      (∀ i, ¬ occursAt (s.drop o) term i) →
      ∃ e, action_defaultResultParser k response s (some preamble) preambleReqd gapReqd (some term)
        endptr = some (k.RESULT_CODE_PENDING, e)) ∧
    (∀ o, searchStartsAt s preamble preambleReqd o →
      (∀ i, ¬ occursAt (s.drop o) OK_COMPLETED_STRING i) →
      (∀ i, ¬ occursAt (s.drop o) CME_PREABLE i) →
      action_defaultResultParser k response s (some preamble) preambleReqd gapReqd none endptr
        = some (k.RESULT_CODE_PENDING, endptr)) ∧
    (∀ terminator, preambleReqd = true → preamble.length % 256 ≠ 0 →
      (∀ i, ¬ occursAt s preamble i) →
      action_defaultResultParser k response s (some preamble) preambleReqd gapReqd terminator endptr
        = some (k.RESULT_CODE_PENDING, endptr)) := by
  refine ⟨?_, ?_, ?_⟩
  · intro o term hstart habs
    have ho := searchStartsAt_le _ _ _ _ hstart
    refine ⟨0 + term.length, ?_⟩
    rw [default_explicit k response s preamble preambleReqd gapReqd term endptr o hresp hstart,
      strstr_absent response s _ o ho habs]
    simp [gapResult_null]
  · intro o hstart hok hcme
    have ho := searchStartsAt_le _ _ _ _ hstart
    rw [default_standard k response s preamble preambleReqd gapReqd endptr o hresp hstart,
      strstr_absent response s _ o ho hok, strstr_absent response s _ o ho hcme]
    simp
  · intro terminator hreq h0 habs
    simp [action_defaultResultParser, strlen8, h0, strstr_start_absent response s _ habs, hreq]

/-- Witness of C17: only the echo "AT\r\n" has arrived; a required preamble
"+QIACT: " is absent from it. -/
theorem defaultParser_pending_witness :
    (0 < 1000) ∧
    action_defaultResultParser smallHeader 1000 [65, 84, 13, 10] (some []) false 0 none 0
      = some (smallHeader.RESULT_CODE_PENDING, 0) ∧
    action_defaultResultParser smallHeader 1000 [65, 84, 13, 10]
        (some [43, 81, 73, 65, 67, 84, 58, 32]) true 2 (some ASCII_sOK) 0
      = some (smallHeader.RESULT_CODE_PENDING, 0) :=
  ⟨by decide,
    (defaultParser_pending smallHeader 1000 [65, 84, 13, 10] [] false 0 0 (by decide)).2.1 0
      (Or.inl ⟨rfl, rfl⟩) (findAt_none _ _ (by decide)) (findAt_none _ _ (by decide)),
    (defaultParser_pending smallHeader 1000 [65, 84, 13, 10]
      [43, 81, 73, 65, 67, 84, 58, 32] true 2 0 (by decide)).2.2 (some ASCII_sOK) rfl
      (by decide) (findAt_none _ _ (by decide))⟩

/-! ## The token-count matcher -/

/-- C18 on the code: with preamble "+X: ", delimiter comma, terminator
"OK\r\n" and two tokens required, the response "+X: 1,2\r\nOK\r\n" has one
comma between preamble and terminator (two tokens) and the result is
`RESULT_CODE_NOTFOUND`; the response "+X: 10\r\nOK\r\n+Y: 1,2" has none
(one token), its only comma lies after the terminator, and the result is
`RESULT_CODE_SUCCESS`. -/
theorem tokenParser_miscounts :
    firstAt [43, 88, 58, 32, 49, 44, 50, 13, 10, 79, 75, 13, 10] [43, 88, 58, 32] 0 ∧
    firstAt [43, 88, 58, 32, 49, 44, 50, 13, 10, 79, 75, 13, 10] [79, 75, 13, 10] 9 ∧
    (([43, 88, 58, 32, 49, 44, 50, 13, 10, 79, 75, 13, 10].drop 4).take 5).count 44 + 1 = 2 ∧
    action_tokenResultParser smallHeader 1000
        [43, 88, 58, 32, 49, 44, 50, 13, 10, 79, 75, 13, 10] [43, 88, 58, 32] 44 2
        [79, 75, 13, 10] 0
      = some (smallHeader.RESULT_CODE_NOTFOUND, 1014) ∧
    firstAt [43, 88, 58, 32, 49, 48, 13, 10, 79, 75, 13, 10, 43, 89, 58, 32, 49, 44, 50]
      [43, 88, 58, 32] 0 ∧
    firstAt [43, 88, 58, 32, 49, 48, 13, 10, 79, 75, 13, 10, 43, 89, 58, 32, 49, 44, 50]
      [79, 75, 13, 10] 8 ∧
    (([43, 88, 58, 32, 49, 48, 13, 10, 79, 75, 13, 10, 43, 89, 58, 32, 49, 44, 50].drop 4).take
      4).count 44 + 1 = 1 ∧
    action_tokenResultParser smallHeader 1000
        [43, 88, 58, 32, 49, 48, 13, 10, 79, 75, 13, 10, 43, 89, 58, 32, 49, 44, 50]
        [43, 88, 58, 32] 44 2 [79, 75, 13, 10] 0
      = some (smallHeader.RESULT_CODE_SUCCESS, 1013) := by
  refine ⟨findAt_some _ _ 0 (by decide), findAt_some _ _ 9 (by decide), by decide, by decide,
    findAt_some _ _ 0 (by decide), findAt_some _ _ 8 (by decide), by decide, by decide⟩

/-- C19 on the code: the response "+CME ERROR: 200\r\n" does not contain
the terminator "OK\r\n", and `action_tokenResultParser` returns the number
that follows "+CME ERROR:" as it is, here 200, which is `RESULT_CODE_SUCCESS`:
success without the terminator, where the code's own comment reads
"return error code, all CME >= 500". -/
theorem tokenParser_success_without_terminator :
    (∀ i, ¬ occursAt [43, 67, 77, 69, 32, 69, 82, 82, 79, 82, 58, 32, 50, 48, 48, 13, 10]
      [79, 75, 13, 10] i) ∧
    action_tokenResultParser smallHeader 1000
        [43, 67, 77, 69, 32, 69, 82, 82, 79, 82, 58, 32, 50, 48, 48, 13, 10]
        [43, 88, 58, 32] 44 2 [79, 75, 13, 10] 0
      = some (smallHeader.RESULT_CODE_SUCCESS, 1015) :=
  ⟨findAt_none _ _ (by decide), by decide⟩

/-- What `action_tokenResultParser` computes when the terminator is absent:
`RESULT_CODE_PENDING` if "+CME ERROR:" is absent too, and otherwise the decimal
number `n ≤ 65535` that follows the first "+CME ERROR:" (after blanks), with the
position right after the digits; no range check is applied to the number. -/
theorem tokenParser_no_terminator (k : ltem1c_h) (response : Nat) (s preamble : List Nat)
    (delim reqdTokens : Nat) (terminator : List Nat) (endptr : Nat)
    (hresp : 0 < response)
    (habs : ∀ i, ¬ occursAt s terminator i) :
    ((∀ i, ¬ occursAt s CME_PREABLE i) →
      action_tokenResultParser k response s preamble delim reqdTokens terminator endptr
        = some (k.RESULT_CODE_PENDING, 0 + terminator.length + 1)) ∧
    (∀ j b ds rest, firstAt s CME_PREABLE j →
      s.drop (j + CME_PREABLE_SZ) = List.replicate b 32 ++ ds ++ rest →
      ds ≠ [] → (∀ c ∈ ds, isdigit c = true) →
      (∀ c, rest.head? = some c → isdigit c = false) →
      digitsVal ds ≤ 65535 →
      action_tokenResultParser k response s preamble delim reqdTokens terminator endptr
        = some (digitsVal ds, response + j + CME_PREABLE_SZ + b + ds.length)) := by
  constructor
  · intro hcme
    simp [action_tokenResultParser, strstr_start_absent response s _ habs,
      strstr_start_absent response s _ hcme]
  · intro j b ds rest hj hnum hds hdig hrest hn
    have hb := occursAt_bound _ _ _ hj.1
    have hcl : CME_PREABLE.length = 11 := rfl
    have hne : response + j ≠ 0 := by omega
    have hin : j + CME_PREABLE_SZ ≤ s.length := by simp only [CME_PREABLE_SZ]; omega
    have hstr : strtol response s (response + j + CME_PREABLE_SZ)
        = some ((digitsVal ds : Int), response + j + CME_PREABLE_SZ + b + ds.length) := by
      have hc := cstrAt_offset response s (j + CME_PREABLE_SZ) hin
      have hp : response + (j + CME_PREABLE_SZ) = response + j + CME_PREABLE_SZ := by omega
      rw [hp] at hc
      simp only [strtol, hc, Option.map_some', hnum,
        strtolText_number b ds rest hds hdig hrest (by omega)]
      congr 2
      omega
    simp [action_tokenResultParser, strstr_start_absent response s _ habs,
      strstr_start_first response s _ j hj, hne, hstr, toUInt16_small _ hn]

/-- The response "+CME ERROR: 501\r\n" without the terminator "OK\r\n"
gives 501. -/
theorem tokenParser_no_terminator_witness :
    (0 < 1000) ∧
    (∀ i, ¬ occursAt [43, 67, 77, 69, 32, 69, 82, 82, 79, 82, 58, 32, 53, 48, 49, 13, 10]
      [79, 75, 13, 10] i) ∧
    action_tokenResultParser smallHeader 1000
        [43, 67, 77, 69, 32, 69, 82, 82, 79, 82, 58, 32, 53, 48, 49, 13, 10]
        [43, 88, 58, 32] 44 2 [79, 75, 13, 10] 0
      = some (501, 1015) :=
  ⟨by decide, findAt_none _ _ (by decide),
    (tokenParser_no_terminator smallHeader 1000
      [43, 67, 77, 69, 32, 69, 82, 82, 79, 82, 58, 32, 53, 48, 49, 13, 10]
      [43, 88, 58, 32] 44 2 [79, 75, 13, 10] 0 (by decide) (findAt_none _ _ (by decide))).2
      0 1 [53, 48, 49] [13, 10] (findAt_some _ _ 0 (by decide)) rfl (by decide) (by decide)
      (by decide) (by decide)⟩

/-- C20 on the code: whenever the terminator is found, first at offset `i`, the
position `action_tokenResultParser` reports is `i + strlen(terminator) + 1`,
one byte further than the end of the terminator; for
"+X: 1,2,3\r\nOK\r\n" stored at 1000 it returns 200 and reports 1016, while
the terminator ends at 1015, the end of the response. -/
theorem tokenParser_endptr_past_terminator :
    (∀ (k : ltem1c_h) (response : Nat) (s preamble : List Nat) (delim reqdTokens : Nat)
      (terminator : List Nat) (endptr i c e : Nat), 0 < response → firstAt s terminator i →
      action_tokenResultParser k response s preamble delim reqdTokens terminator endptr
        = some (c, e) →
      e = response + i + terminator.length + 1) ∧
    firstAt [43, 88, 58, 32, 49, 44, 50, 44, 51, 13, 10, 79, 75, 13, 10] [79, 75, 13, 10] 11 ∧
    1000 + 11 + [79, 75, 13, 10].length
      = 1000 + [43, 88, 58, 32, 49, 44, 50, 44, 51, 13, 10, 79, 75, 13, 10].length ∧
    action_tokenResultParser smallHeader 1000
        [43, 88, 58, 32, 49, 44, 50, 44, 51, 13, 10, 79, 75, 13, 10] [43, 88, 58, 32] 44 2
        [79, 75, 13, 10] 0
      = some (200, 1016) := by
  refine ⟨?_, findAt_some _ _ 11 (by decide), by decide, by decide⟩
  intro k response s preamble delim reqdTokens terminator endptr i c e hresp hterm h
  have hne : response + i ≠ 0 := by omega
  unfold action_tokenResultParser at h
  rw [strstr_start_first response s _ i hterm] at h
  simp only [Option.bind_eq_bind, Option.some_bind, ne_eq, hne, not_false_eq_true, if_true] at h
  cases hp : strstr response s response preamble with
  | none => simp [hp] at h
  | some pa =>
    simp only [hp, Option.some_bind] at h
    by_cases hpa : pa = 0
    · simp only [hpa, if_true, Option.some.injEq, Prod.mk.injEq] at h
      exact h.2.symm
    · simp only [hpa, if_false] at h
      cases hc : countDelimiters response s delim (response + i) (s.length + 2)
          (pa + preamble.length + 1) 0 with
      | none => simp [hc] at h
      | some n =>
        simp only [hc, Option.some_bind] at h
        split at h
        · simp only [Option.some.injEq, Prod.mk.injEq] at h; exact h.2.symm
        · simp only [Option.some.injEq, Prod.mk.injEq] at h; exact h.2.symm

/-! ## The service-response matcher -/

theorem findByte_lt (t : List Nat) (c : Nat) : ∀ i, findByte t c = some i → i < t.length := by
  induction t with
  | nil => intro i h; simp [findByte] at h
  | cons a t ih =>
    intro i h
    by_cases ha : a = c
    · simp [findByte, ha] at h
      subst h
      simp
    · simp only [findByte, ha, if_false, Option.map_eq_some'] at h
      obtain ⟨j, hj, rfl⟩ := h
      have := ih j hj
      simp
      omega

theorem skipFields_fields (response : Nat) (s : List Nat) (hresp : 0 < response) :
    ∀ (n o f : Nat), o ≤ s.length → afterNthComma n (s.drop o) = some f →
      skipFields response s n (response + o) = some (response + o + f) ∧ o + f ≤ s.length := by
  intro n
  induction n with
  | zero =>
    intro o f ho h
    simp only [afterNthComma, Option.some.injEq] at h
    subst h
    exact ⟨by simp [skipFields], by omega⟩
  | succ n ih =>
    intro o f ho h
    simp only [afterNthComma] at h
    cases hb : findByte (s.drop o) 44 with
    | none => simp [hb] at h
    | some i =>
      simp only [hb, Option.map_eq_some'] at h
      obtain ⟨f1, hf1, rfl⟩ := h
      have hi := findByte_lt _ _ i hb
      have hlen : (s.drop o).length = s.length - o := by simp
      have ho1 : o + (i + 1) ≤ s.length := by omega
      rw [List.drop_drop] at hf1
      obtain ⟨h1, h2⟩ := ih (o + (i + 1)) f1 ho1 hf1
      have hne : response + o ≠ 0 := by omega
      have hchr : strchr response s (response + o) ASCII_cCOMMA = some (response + o + i) := by
        simp [strchr, cstrAt_offset response s o ho, ASCII_cCOMMA, hb]
      have hp : response + o + i + 1 = response + (o + (i + 1)) := by omega
      refine ⟨?_, by omega⟩
      simp only [skipFields, hne, if_false, hchr, Option.some_bind, hp, h1]
      congr 1
      omega

theorem toInt16_small (v : Nat) (h : v ≤ 32767) : toInt16 ((toUInt16 (v : Int) : Nat) : Int) = v := by
  rw [toUInt16_small v (by omega)]
  unfold toInt16
  have h1 : ((v : Int)) % 65536 = v := by omega
  rw [h1]
  simp
  omega

theorem serviceParser_value (k : ltem1c_h) (response : Nat) (s preamble : List Nat)
    (resultIndx endptr j f b : Nat) (ds rest : List Nat)
    (hresp : 0 < response) (hidx : resultIndx < 256)
    (hpre : firstAt s preamble j)
    (hfield : afterNthComma resultIndx (s.drop (j + preamble.length)) = some f)
    (hnum : s.drop (j + preamble.length + f) = List.replicate b 32 ++ ds ++ rest)
    (hds : ds ≠ []) (hdig : ∀ c ∈ ds, isdigit c = true)
    (hrest : ∀ c, rest.head? = some c → isdigit c = false)
    (hv : digitsVal ds ≤ 32767) :
    action_serviceResponseParser k response s preamble resultIndx endptr
      = some (toUInt16 (if ((digitsVal ds : Nat) : Int) < (k.RESULT_CODE_SUCCESSRANGE : Int)
            then (k.RESULT_CODE_SUCCESS : Int) + (digitsVal ds : Nat) else (digitsVal ds : Nat)),
          response + j + preamble.length + f + b + ds.length) := by
  have hb := occursAt_bound _ _ _ hpre.1
  have hne : response + j ≠ 0 := by omega
  obtain ⟨hskip, hin⟩ := skipFields_fields response s hresp resultIndx (j + preamble.length) f
    hb hfield
  have hne2 : response + (j + preamble.length) + f ≠ 0 := by omega
  have hstr : strtol response s (response + (j + preamble.length) + f)
      = some ((digitsVal ds : Int), response + j + preamble.length + f + b + ds.length) := by
    have hc := cstrAt_offset response s (j + preamble.length + f) hin
    have hp : response + (j + preamble.length + f) = response + (j + preamble.length) + f := by
      omega
    rw [hp] at hc
    simp only [strtol, hc, Option.map_some', hnum,
      strtolText_number b ds rest hds hdig hrest (by omega)]
    congr 2
    omega
  have hidx' : resultIndx % 256 = resultIndx := Nat.mod_eq_of_lt hidx
  have hp2 : response + j + preamble.length = response + (j + preamble.length) := by omega
  simp only [action_serviceResponseParser, strstr_start_first response s _ j hpre,
    Option.bind_eq_bind, Option.some_bind, hne, if_false, hidx', hp2, hskip, ne_eq, hne2,
    not_false_eq_true, if_true, hstr, toInt16_small _ hv]

/-- C21: when the preamble is found, at least `resultIndx` commas follow it and
the field after the `resultIndx`-th comma holds (after blanks) a decimal value
`v < RESULT_CODE_SUCCESSRANGE`, `action_serviceResponseParser` returns
`RESULT_CODE_SUCCESS + v` and reports the position right after the digits of
`v`; when the preamble is absent it returns `RESULT_CODE_PENDING`.  The result
codes fit a `uint16_t`, the values below `RESULT_CODE_SUCCESSRANGE` fit an
`int16_t`, and `resultIndx` is a `uint8_t`. -/
theorem serviceParser_success (k : ltem1c_h) (response : Nat) (s preamble : List Nat)
    (resultIndx endptr j f b : Nat) (ds rest : List Nat)
    (hresp : 0 < response) (hidx : resultIndx < 256)
    (hcodes : k.RESULT_CODE_SUCCESS + k.RESULT_CODE_SUCCESSRANGE ≤ 65536)
    (hrange : k.RESULT_CODE_SUCCESSRANGE ≤ 32768)
    (hpre : firstAt s preamble j)
    (hfield : afterNthComma resultIndx (s.drop (j + preamble.length)) = some f)
    (hnum : s.drop (j + preamble.length + f) = List.replicate b 32 ++ ds ++ rest)
    (hds : ds ≠ []) (hdig : ∀ c ∈ ds, isdigit c = true)
    (hrest : ∀ c, rest.head? = some c → isdigit c = false)
    (hv : digitsVal ds < k.RESULT_CODE_SUCCESSRANGE) :
    action_serviceResponseParser k response s preamble resultIndx endptr
      = some (k.RESULT_CODE_SUCCESS + digitsVal ds,
          response + j + preamble.length + f + b + ds.length) ∧
    (digitsVal ds = 0 →
      action_serviceResponseParser k response s preamble resultIndx endptr
        = some (k.RESULT_CODE_SUCCESS, response + j + preamble.length + f + b + ds.length)) ∧
    (∀ s1, (∀ i, ¬ occursAt s1 preamble i) →
      action_serviceResponseParser k response s1 preamble resultIndx endptr
        = some (k.RESULT_CODE_PENDING, endptr)) := by
  have hval := serviceParser_value k response s preamble resultIndx endptr j f b ds rest hresp
    hidx hpre hfield hnum hds hdig hrest (by omega)
  have hlt : ((digitsVal ds : Nat) : Int) < (k.RESULT_CODE_SUCCESSRANGE : Int) := by
    exact_mod_cast hv
  have hcast : (k.RESULT_CODE_SUCCESS : Int) + ((digitsVal ds : Nat) : Int)
      = ((k.RESULT_CODE_SUCCESS + digitsVal ds : Nat) : Int) := by push_cast; rfl
  have hmain : action_serviceResponseParser k response s preamble resultIndx endptr
      = some (k.RESULT_CODE_SUCCESS + digitsVal ds,
          response + j + preamble.length + f + b + ds.length) := by
    rw [hval, if_pos hlt, hcast, toUInt16_small _ (by omega)]
  refine ⟨hmain, ?_, ?_⟩
  · intro h0
    rw [hmain, h0]
    rfl
  · intro s1 habs
    simp [action_serviceResponseParser, strstr_start_absent response s1 _ habs]

/-- Witness of C21: `S_tcpudpOpenCompleteParser` on "+QIOPEN: 1,0\r\n" stored
at 1000 gives 200 and the position 1012 after the "0". -/
theorem serviceParser_success_witness :
    (0 < 1000) ∧
    firstAt [43, 81, 73, 79, 80, 69, 78, 58, 32, 49, 44, 48, 13, 10]
      [43, 81, 73, 79, 80, 69, 78, 58, 32] 0 ∧
    afterNthComma 1 ([43, 81, 73, 79, 80, 69, 78, 58, 32, 49, 44, 48, 13, 10].drop 9) = some 2 ∧
    digitsVal [48] = 0 ∧
    S_tcpudpOpenCompleteParser smallHeader 1000
        [43, 81, 73, 79, 80, 69, 78, 58, 32, 49, 44, 48, 13, 10] 0
      = some (200, 1012) :=
  ⟨by decide, findAt_some _ _ 0 (by decide), by decide, by decide,
    (serviceParser_success smallHeader 1000
      [43, 81, 73, 79, 80, 69, 78, 58, 32, 49, 44, 48, 13, 10]
      [43, 81, 73, 79, 80, 69, 78, 58, 32] 1 0 0 2 0 [48] [13, 10] (by decide) (by decide)
      (by decide) (by decide) (findAt_some _ _ 0 (by decide)) (by decide) rfl (by decide)
      (by decide) (by decide) (by decide)).1⟩

/-- C22, as stated, fails: in "+QIOPEN: 1,1\r\n" the selected field holds the
non-zero value 1 and `action_serviceResponseParser` returns 201, which is not
above `RESULT_CODE_SUCCESSMAX`. -/
theorem serviceParser_nonzero_in_success_range :
    S_tcpudpOpenCompleteParser smallHeader 1000
        [43, 81, 73, 79, 80, 69, 78, 58, 32, 49, 44, 49, 13, 10] 0
      = some (201, 1012) ∧
    digitsVal [49] = 1 ∧
    201 ≤ smallHeader.RESULT_CODE_SUCCESSMAX :=
  ⟨by decide, by decide, by decide⟩

/-- C22, amended: when the selected field holds the value `v ≤ 32767`,
`action_serviceResponseParser` returns `RESULT_CODE_SUCCESS + v` if
`v < RESULT_CODE_SUCCESSRANGE` and `v` itself otherwise; the code is above
`RESULT_CODE_SUCCESSMAX` exactly when `v` is, so `v = 0` and the other values
up to `RESULT_CODE_SUCCESSMAX` yield codes that are not above it.  The success
range `SUCCESS .. SUCCESS + SUCCESSRANGE - 1` lies below `SUCCESSMAX + 1`. -/
theorem serviceParser_code (k : ltem1c_h) (response : Nat) (s preamble : List Nat)
    (resultIndx endptr j f b : Nat) (ds rest : List Nat)
    (hresp : 0 < response) (hidx : resultIndx < 256)
    (hrange : k.RESULT_CODE_SUCCESS + k.RESULT_CODE_SUCCESSRANGE ≤ k.RESULT_CODE_SUCCESSMAX + 1)
    (hmax : k.RESULT_CODE_SUCCESSMAX < 65536)
    (hpre : firstAt s preamble j)
    (hfield : afterNthComma resultIndx (s.drop (j + preamble.length)) = some f)
    (hnum : s.drop (j + preamble.length + f) = List.replicate b 32 ++ ds ++ rest)
    (hds : ds ≠ []) (hdig : ∀ c ∈ ds, isdigit c = true)
    (hrest : ∀ c, rest.head? = some c → isdigit c = false)
    (hv : digitsVal ds ≤ 32767) :
    action_serviceResponseParser k response s preamble resultIndx endptr
      = some (if digitsVal ds < k.RESULT_CODE_SUCCESSRANGE
            then k.RESULT_CODE_SUCCESS + digitsVal ds else digitsVal ds,
          response + j + preamble.length + f + b + ds.length) ∧
    ((if digitsVal ds < k.RESULT_CODE_SUCCESSRANGE
        then k.RESULT_CODE_SUCCESS + digitsVal ds else digitsVal ds) > k.RESULT_CODE_SUCCESSMAX
      ↔ digitsVal ds > k.RESULT_CODE_SUCCESSMAX) := by
  have hval := serviceParser_value k response s preamble resultIndx endptr j f b ds rest hresp
    hidx hpre hfield hnum hds hdig hrest hv
  by_cases hlt : digitsVal ds < k.RESULT_CODE_SUCCESSRANGE
  · have hlt' : ((digitsVal ds : Nat) : Int) < (k.RESULT_CODE_SUCCESSRANGE : Int) := by
      exact_mod_cast hlt
    have hcast : (k.RESULT_CODE_SUCCESS : Int) + ((digitsVal ds : Nat) : Int)
        = ((k.RESULT_CODE_SUCCESS + digitsVal ds : Nat) : Int) := by push_cast; rfl
    rw [hval, if_pos hlt', hcast, toUInt16_small _ (by omega)]
    simp only [hlt, if_true, true_and]
    omega
  · have hlt' : ¬ ((digitsVal ds : Nat) : Int) < (k.RESULT_CODE_SUCCESSRANGE : Int) := by
      exact_mod_cast hlt
    rw [hval, if_neg hlt', toUInt16_small _ (by omega)]
    simp [hlt]

/-- Witness of C22 amended: the value 563 in "+QIOPEN: 1,563\r\n" is returned
as it is, above `RESULT_CODE_SUCCESSMAX`. -/
theorem serviceParser_code_witness :
    (0 < 1000) ∧
    digitsVal [53, 54, 51] = 563 ∧
    S_tcpudpOpenCompleteParser smallHeader 1000
        [43, 81, 73, 79, 80, 69, 78, 58, 32, 49, 44, 53, 54, 51, 13, 10] 0
      = some (563, 1014) ∧
    563 > smallHeader.RESULT_CODE_SUCCESSMAX :=
  ⟨by decide, by decide,
    (serviceParser_code smallHeader 1000
      [43, 81, 73, 79, 80, 69, 78, 58, 32, 49, 44, 53, 54, 51, 13, 10]
      [43, 81, 73, 79, 80, 69, 78, 58, 32] 1 0 0 2 0 [53, 54, 51] [13, 10] (by decide)
      (by decide) (by decide) (by decide) (findAt_some _ _ 0 (by decide)) (by decide) rfl
      (by decide) (by decide) (by decide) (by decide)).1,
    by decide⟩

/-- C30 on the code: in "+QIOPEN: 1" the preamble is present and no comma
follows it; with field index 1 the skipping loop leaves `next` at `NULL + 1`
(address 1), `strtol` is then called on that address, outside the response
stored at 1000, and the parser has no defined outcome. -/
theorem serviceParser_missing_comma :
    firstAt [43, 81, 73, 79, 80, 69, 78, 58, 32, 49] [43, 81, 73, 79, 80, 69, 78, 58, 32] 0 ∧
    afterNthComma 1 ([43, 81, 73, 79, 80, 69, 78, 58, 32, 49].drop 9) = none ∧
    skipFields 1000 [43, 81, 73, 79, 80, 69, 78, 58, 32, 49] 1 1009 = some 1 ∧
    strtol 1000 [43, 81, 73, 79, 80, 69, 78, 58, 32, 49] 1 = none ∧
    action_serviceResponseParser smallHeader 1000 [43, 81, 73, 79, 80, 69, 78, 58, 32, 49]
        [43, 81, 73, 79, 80, 69, 78, 58, 32] 1 0 = none :=
  ⟨findAt_some _ _ 0 (by decide), by decide, by decide, by decide, by decide⟩

/-! ## Diagnostics -/

theorem runParser_frame (w w1 : World) (e : Nat) (h : runParser w = some (w1, e)) :
    w1.ltem1.action.cmdStr = w.ltem1.action.cmdStr ∧
    w1.ltem1.action.response = w.ltem1.action.response ∧
    w1.ltem1.action.invokedAt = w.ltem1.action.invokedAt ∧
    w1.millis = w.millis := by
  rcases runParser_cases w w1 e h with ⟨_, h1, _⟩ | ⟨c, _, h1⟩ <;> rw [h1] <;>
    exact ⟨rfl, rfl, rfl, rfl⟩

theorem timeoutBranch_record (k : ltem1c_h) (p : Platform) (w : World) :
    (timeoutBranch k p w).ltem1.action.lastActionError
      = { cmdStr := zeroThenCopy k.ACTION_HISTRESPBUF_SZ
            (w.ltem1.action.cmdStr.takeWhile (· ≠ 0)) (k.ACTION_HISTRESPBUF_SZ - 1)
          response := zeroThenCopy k.ACTION_HISTRESPBUF_SZ
            (w.ltem1.action.response.takeWhile (· ≠ 0)) (k.ACTION_HISTRESPBUF_SZ - 1)
          statusCode := k.RESULT_CODE_TIMEOUT
          duration := (w.millis + 4294967296 - w.ltem1.action.invokedAt % 4294967296)
            % 4294967296 } := by
  unfold timeoutBranch
  cases p.ltem1_chkHwReady <;> cases p.sc16is741a_chkCommReady <;> rfl

/-- C23: after every `action_getResult` that returns a failing status (above
`RESULT_CODE_SUCCESSMAX`: timeout or error code) the diagnostics record holds
the first `min(length, ACTION_HISTRESPBUF_SZ - 1)` bytes of the Action's
command text followed by zeros up to `ACTION_HISTRESPBUF_SZ` (at least one when
the size is not 0), the response copied the same way, the Action's result code
and the clock minus the invocation timestamp; every field is given by the
failing Action and the clock, none by the record's previous contents.  The
command array holds a NUL. -/
theorem getResult_diagnostics (k : ltem1c_h) (p : Platform) (closeAction : Bool)
    (w w' : World) (r : actionResult_t)
    (hget : action_getResult k p closeAction w = some (r, w'))
    (hfail : r.statusCode > k.RESULT_CODE_SUCCESSMAX)
    (hpend : k.RESULT_CODE_PENDING ≤ k.RESULT_CODE_SUCCESSMAX)
    (_hnul : 0 ∈ w.ltem1.action.cmdStr) :
    w'.ltem1.action.lastActionError
      = { cmdStr := (w.ltem1.action.cmdStr.takeWhile (· ≠ 0)).take (k.ACTION_HISTRESPBUF_SZ - 1)
            ++ List.replicate (k.ACTION_HISTRESPBUF_SZ
                - min (w.ltem1.action.cmdStr.takeWhile (· ≠ 0)).length
                    (k.ACTION_HISTRESPBUF_SZ - 1)) 0
          response := (w.ltem1.action.response.takeWhile (· ≠ 0)).take
              (k.ACTION_HISTRESPBUF_SZ - 1)
            ++ List.replicate (k.ACTION_HISTRESPBUF_SZ
                - min (w.ltem1.action.response.takeWhile (· ≠ 0)).length
                    (k.ACTION_HISTRESPBUF_SZ - 1)) 0
          statusCode := r.statusCode
          duration := (lMillis w + 4294967296 - w.ltem1.action.invokedAt % 4294967296)
            % 4294967296 } ∧
    w'.ltem1.action.resultCode = r.statusCode ∧
    ((w.ltem1.action.cmdStr.takeWhile (· ≠ 0)).take (k.ACTION_HISTRESPBUF_SZ - 1)).length
      = min (w.ltem1.action.cmdStr.takeWhile (· ≠ 0)).length (k.ACTION_HISTRESPBUF_SZ - 1) ∧
    (0 < k.ACTION_HISTRESPBUF_SZ →
      0 < k.ACTION_HISTRESPBUF_SZ
        - min (w.ltem1.action.cmdStr.takeWhile (· ≠ 0)).length (k.ACTION_HISTRESPBUF_SZ - 1)) := by
  have hcopy : ∀ (sz : Nat) (src : List Nat),
      zeroThenCopy sz src (sz - 1)
        = src.take (sz - 1) ++ List.replicate (sz - min src.length (sz - 1)) 0 := by
    intro sz src
    simp [zeroThenCopy, Nat.min_comm]
  refine ⟨?_, ?_, by simp [Nat.min_comm], by intro h; omega⟩
  · unfold action_getResult at hget
    cases hrun : runParser w with
    | none => simp [hrun] at hget
    | some x =>
      obtain ⟨w1, e⟩ := x
      simp only [hrun, Option.map_some', Option.some.injEq] at hget
      obtain ⟨hc, hrsp, hinv, hms⟩ := runParser_frame w w1 e hrun
      unfold concludeResult at hget
      by_cases hp : w1.ltem1.action.resultCode = k.RESULT_CODE_PENDING
      · cases ht : p.lTimerExpired (lMillis w1) w1.ltem1.action.invokedAt
            w1.ltem1.action.timeoutMillis
        · simp [hp, ht] at hget
          obtain ⟨h1, _⟩ := hget
          subst h1
          exact absurd hfail (by simpa using hpend)
        · simp [hp, ht] at hget
          obtain ⟨h1, h2⟩ := hget
          subst h1 h2
          rw [timeoutBranch_record, hc, hrsp, hinv, hms, hcopy, hcopy]
          rfl
      · simp only [hp, if_false] at hget
        by_cases hs : w1.ltem1.action.resultCode ≤ k.RESULT_CODE_SUCCESSMAX
        · cases closeAction <;> simp [hs] at hget <;> obtain ⟨h1, _⟩ := hget <;> subst h1 <;>
            exact absurd hfail (by simpa using hs)
        · simp only [hs, if_false, Prod.mk.injEq] at hget
          obtain ⟨h1, h2⟩ := hget
          subst h1 h2
          simp only [s_copyToDiagnostics, lMillis, hc, hrsp, hinv, hms, hcopy]
  · unfold action_getResult at hget
    cases hrun : runParser w with
    | none => simp [hrun] at hget
    | some x =>
      obtain ⟨w1, e⟩ := x
      simp only [hrun, Option.map_some', Option.some.injEq] at hget
      unfold concludeResult at hget
      by_cases hp : w1.ltem1.action.resultCode = k.RESULT_CODE_PENDING
      · cases ht : p.lTimerExpired (lMillis w1) w1.ltem1.action.invokedAt
            w1.ltem1.action.timeoutMillis
        · simp [hp, ht] at hget
          obtain ⟨h1, _⟩ := hget
          subst h1
          exact absurd hfail (by simpa using hpend)
        · simp [hp, ht] at hget
          obtain ⟨h1, h2⟩ := hget
          subst h1 h2
          exact (timeoutBranch_action k p w1).1
      · simp only [hp, if_false] at hget
        by_cases hs : w1.ltem1.action.resultCode ≤ k.RESULT_CODE_SUCCESSMAX
        · cases closeAction <;> simp [hs] at hget <;> obtain ⟨h1, _⟩ := hget <;> subst h1 <;>
            exact absurd hfail (by simpa using hs)
        · simp only [hs, if_false, Prod.mk.injEq] at hget
          obtain ⟨h1, h2⟩ := hget
          subst h1 h2
          rfl

/-- Witness of C23: "AT" invoked with a 500 ms budget and polled 600 ms
later; the record holds "AT", status 408 and duration 600. -/
theorem getResult_diagnostics_witness :
    action_getResult smallHeader (testPlatform true true) false
        (clockAdvance 600 (invokedWorld true true [65, 84] 500 none))
      = some ({ statusCode := 408, response := 1000 },
          (polled false (clockAdvance 600 (invokedWorld true true [65, 84] 500 none))).2) ∧
    408 > smallHeader.RESULT_CODE_SUCCESSMAX ∧
    (0 : Nat) ∈ (clockAdvance 600 (invokedWorld true true [65, 84] 500 none)).ltem1.action.cmdStr ∧
    (polled false
      (clockAdvance 600 (invokedWorld true true [65, 84] 500 none))).2.ltem1.action.lastActionError
      = { cmdStr := [65, 84, 0, 0, 0, 0, 0, 0], response := [0, 0, 0, 0, 0, 0, 0, 0],
          statusCode := 408, duration := 600 } :=
  ⟨rfl, by decide, by decide,
    (getResult_diagnostics smallHeader (testPlatform true true) false
      (clockAdvance 600 (invokedWorld true true [65, 84] 500 none))
      (polled false (clockAdvance 600 (invokedWorld true true [65, 84] 500 none))).2
      { statusCode := 408, response := 1000 } rfl (by decide) (by decide) (by decide)).1⟩

/-- C29 on the code: "AT\r\n+CME ERROR: 10\r\n" arrives after "AT" was
invoked with the default matcher (preamble `""`, no explicit terminator) as its
completion parser; polled with `closeAction = false`,
`action_getResult` returns 10, the Action stays open and the diagnostics record
is not written (it keeps the contents it had at rest). -/
theorem getResult_low_cme_is_success :
    (action_getResult smallHeader (testPlatform true true) false
        (iop_rxReceive
          [65, 84, 13, 10, 43, 67, 77, 69, 32, 69, 82, 82, 79, 82, 58, 32, 49, 48, 13, 10]
          invokedAT)).map
      (fun r => (r.1.statusCode, r.2.ltem1.action.isOpen, r.2.ltem1.action.lastActionError))
      = some (10, true, idleWorld.ltem1.action.lastActionError) ∧
    idleWorld.ltem1.action.lastActionError
      = { cmdStr := [], response := [], statusCode := 0, duration := 0 } ∧
    10 ≤ smallHeader.RESULT_CODE_SUCCESSMAX := by
  refine ⟨by decide, rfl, by decide⟩

/-! ## `network.c` and `ltemc-http.c` -/

/-- C26 on the code: `ntwk_getPdpCntxt` does not use `cntxtId`.  With the table
of context ids 1, 2, 0 it returns entry 0 (context id 1) for `cntxtId = 2`,
and the same entry, not `NULL`, for `cntxtId = 3`, which no entry has. -/
theorem getPdpCntxt_ignores_id :
    (∀ (pdpCntxts : List pdpCntxt_t) (a b : Nat),
      ntwk_getPdpCntxt pdpCntxts a = ntwk_getPdpCntxt pdpCntxts b) ∧
    ntwk_getPdpCntxt
      [{ contextId := 1, ipType := 0, ipAddress := [] },
       { contextId := 2, ipType := 0, ipAddress := [] },
       { contextId := 0, ipType := 0, ipAddress := [] }] 2 = some 0 ∧
    ntwk_getPdpCntxt
      [{ contextId := 1, ipType := 0, ipAddress := [] },
       { contextId := 2, ipType := 0, ipAddress := [] },
       { contextId := 0, ipType := 0, ipAddress := [] }] 3 = some 0 :=
  ⟨fun _ _ _ => rfl, by decide, by decide⟩

/-- C27 on the code: the test `ntwk.operName != 0` holds on the first pass, so
`ntwk_awaitOperator` returns what its first `getNetworkOperator()` call returns
and never reaches `lDelay`, for every `waitDuration`, every clock and either
value of the cancellation flag.  Asked to wait 66 seconds while no operator is
registered and no cancellation is requested, it returns at once with the empty
name: the world is the one it was called in, with no delay in its trace.  With
the cancellation flag set it returns after the first query just the same. -/
theorem awaitOperator_returns_after_first_query :
    (∀ (p : Platform) (getNetworkOperator : World → networkOperator_t × World)
        (waitDuration fuel : Nat) (w : World),
      ntwk_awaitOperator p getNetworkOperator waitDuration (fuel + 1) w
        = some (getNetworkOperator w)) ∧
    ntwk_awaitOperator (testPlatform true true) noOperator 66 1 idleWorld
      = some ({ operName := [0], ntwkMode := [0] }, idleWorld) ∧
    idleWorld.ltem1.cancellationRequest = false ∧
    idleWorld.trace = [] ∧
    ntwk_awaitOperator (testPlatform true true) noOperator 66 1 (cancelRequested idleWorld)
      = some ({ operName := [0], ntwkMode := [0] }, cancelRequested idleWorld) :=
  ⟨fun _ _ _ _ _ => rfl, rfl, rfl, rfl, rfl⟩

theorem hdrTest_even (all headerMap flag : Nat) (heven : headerMap % 2 = 0)
    (hall : headerMap ≠ all) : hdrTest all headerMap flag = false := by
  unfold hdrTest
  have h1 : headerMap &&& 1 = 0 := by rw [Nat.and_one_is_mod]; exact heven
  by_cases hf : flag > 0
  · simp [hf, h1, hall]
  · simp [hf, hall]

/-- C28 on the code: every test of `http_addCommonHdrs` reads
`headerMap & (flag > 0) || headerMap == httpHeaderMap_all`, so only bit 0 of
`headerMap` is looked at.  A `headerMap` with bit 0 clear, other than
`httpHeaderMap_all`, appends nothing, whatever the flag values are; with the
flags 1, 2, 4, 8, `headerMap = 2` (User-Agent) appends nothing to an empty
128-byte buffer and `headerMap = 1` (Accept) appends all four headers. -/
theorem addCommonHdrs_tests_bit0 :
    (∀ (m : httpHeaderMap_h) (cstmHdrs : List Nat) (cstmHdrsSz headerMap : Nat),
      headerMap % 2 = 0 → headerMap ≠ m.httpHeaderMap_all →
      http_addCommonHdrs m cstmHdrs cstmHdrsSz headerMap = (cstmHdrs, true)) ∧
    http_addCommonHdrs httpHeaderMap [] 128 httpHeaderMap.httpHeaderMap_userAgent = ([], true) ∧
    http_addCommonHdrs httpHeaderMap [] 128 httpHeaderMap.httpHeaderMap_accept
      = (hdrAccept ++ hdrUserAgent ++ hdrConnection ++ hdrContentType, true) := by
  refine ⟨?_, by decide, by decide⟩
  intro m cstmHdrs cstmHdrsSz headerMap heven hall
  simp [http_addCommonHdrs, addHdr, hdrTest_even _ _ _ heven hall]

/-! ## `ltemc-sckt.c` -/

theorem peer_setPeer (w : SocketWorld) (x y : Nat) (s : scktCtrl_t) :
    peer (setPeer w x s) y
      = if x = y ∧ x < w.iop.streamPeers.length then s else peer w y := by
  unfold peer setPeer
  simp only [List.getD_eq_getElem?_getD, List.getElem?_set]
  by_cases hxy : x = y
  · subst hxy
    by_cases hx : x < w.iop.streamPeers.length
    · simp [hx]
    · have : w.iop.streamPeers[x]? = none := List.getElem?_eq_none (by omega)
      simp [hx, this]
  · simp [hxy]

theorem sameFlags_refl (w : SocketWorld) : sameFlags w w :=
  ⟨rfl, rfl, rfl, rfl, rfl, rfl, fun _ => ⟨rfl, rfl⟩⟩

theorem sameFlags_touch (w0 w : SocketWorld) (x t : Nat) (h : sameFlags w0 w) :
    sameFlags w0 (setPeer w x { peer w x with doWorkLastTck := t }) := by
  obtain ⟨h1, h2, h3, h4, h5, h6, h7⟩ := h
  refine ⟨h1, h2, h3, h4, h5, h6, ?_⟩
  intro y
  rw [peer_setPeer]
  by_cases hc : x = y ∧ x < w.iop.streamPeers.length
  · rw [if_pos hc]
    obtain ⟨rfl, _⟩ := hc
    exact h7 x
  · rw [if_neg hc]
    exact h7 y

theorem pendingOpen_same (w0 w : SocketWorld) (h : sameFlags w0 w) (y : Nat) :
    pendingOpen w y = pendingOpen w0 y := by
  unfold pendingOpen isSocketOpen
  rw [h.1, (h.2.2.2.2.2.2 y).1]

theorem requestIrdData_free (c : ltemc_h) (w : SocketWorld) (cx : Nat)
    (hlock : w.lockActive = false) :
    (S_requestIrdData c cx 0 true w).1 = true ∧
    (S_requestIrdData c cx 0 true w).2.lockActive = true ∧
    (S_requestIrdData c cx 0 true w).2.iop.rxStreamCtrl = some cx ∧
    (S_requestIrdData c cx 0 true w).2.iop.scktMap = w.iop.scktMap ∧
    (S_requestIrdData c cx 0 true w).2.trace = w.trace ++ irdRequest c w cx := by
  simp [S_requestIrdData, atcmd_awaitLock, hlock, setPeer, IOP_sendTx, irdRequest]

theorem requestIrdData_held (c : ltemc_h) (w : SocketWorld) (cx reqstSz : Nat)
    (hlock : w.lockActive = true) :
    S_requestIrdData c cx reqstSz true w = (false, w) := by
  simp [S_requestIrdData, atcmd_awaitLock, hlock]

theorem scanContexts_step (c : ltemc_h) (i rem n0 : Nat) (w : SocketWorld) (x : Nat)
    (hx : (w.iop.scktLstWrk + i) % c.dataContext_cnt = x) :
    scanContexts c i (rem + 1) n0 w
      = if isSocketOpen w x then
          if (peer (setPeer w x { peer w x with doWorkLastTck := pMillis w }) x).dataPending then
            if (S_requestIrdData c x 0 true
                (setPeer w x { peer w x with doWorkLastTck := pMillis w })).1 then
              (match (S_requestIrdData c x 0 true
                    (setPeer w x { peer w x with doWorkLastTck := pMillis w })).2.iop.rxStreamCtrl
                  with
                | some y =>
                  setPeer (S_requestIrdData c x 0 true
                      (setPeer w x { peer w x with doWorkLastTck := pMillis w })).2 y
                    { peer (S_requestIrdData c x 0 true
                        (setPeer w x { peer w x with doWorkLastTck := pMillis w })).2 y with
                      statsRxCnt := (peer (S_requestIrdData c x 0 true
                        (setPeer w x { peer w x with doWorkLastTck := pMillis w })).2 y).statsRxCnt
                          + 1 }
                | none => (S_requestIrdData c x 0 true
                    (setPeer w x { peer w x with doWorkLastTck := pMillis w })).2,
               x)
            else scanContexts c (i + 1) rem x
              (S_requestIrdData c x 0 true
                (setPeer w x { peer w x with doWorkLastTck := pMillis w })).2
          else scanContexts c (i + 1) rem x
            (setPeer w x { peer w x with doWorkLastTck := pMillis w })
        else scanContexts c (i + 1) rem x w := by
  subst hx
  rfl

theorem scanContexts_spec (c : ltemc_h) (w0 : SocketWorld) (hlock : w0.lockActive = false) :
    ∀ (remaining i n0 : Nat) (w : SocketWorld), sameFlags w0 w →
      (∀ x, ((List.range' i remaining).map
            (fun t => (w0.iop.scktLstWrk + t) % c.dataContext_cnt)).find? (pendingOpen w0)
          = some x →
        (scanContexts c i remaining n0 w).2 = x ∧
        (scanContexts c i remaining n0 w).1.iop.rxStreamCtrl = some x ∧
        (scanContexts c i remaining n0 w).1.lockActive = true ∧
        (scanContexts c i remaining n0 w).1.iop.scktMap = w0.iop.scktMap ∧
        (scanContexts c i remaining n0 w).1.trace = w0.trace ++ irdRequest c w0 x) ∧
      (((List.range' i remaining).map
            (fun t => (w0.iop.scktLstWrk + t) % c.dataContext_cnt)).find? (pendingOpen w0)
          = none →
        sameFlags w0 (scanContexts c i remaining n0 w).1 ∧
        (scanContexts c i remaining n0 w).2
          = if remaining = 0 then n0
            else (w0.iop.scktLstWrk + (i + remaining - 1)) % c.dataContext_cnt) := by
  intro remaining
  induction remaining with
  | zero =>
    intro i n0 w hs
    refine ⟨?_, ?_⟩
    · intro x hx; simp at hx
    · intro _; exact ⟨by simpa [scanContexts] using hs, by simp [scanContexts]⟩
  | succ rem ih =>
    intro i n0 w hs
    obtain ⟨x, hx0⟩ : ∃ x, (w0.iop.scktLstWrk + i) % c.dataContext_cnt = x := ⟨_, rfl⟩
    have hxw : (w.iop.scktLstWrk + i) % c.dataContext_cnt = x := by rw [hs.2.1]; exact hx0
    have hstep :
        ((List.range' i (rem + 1)).map
          (fun t => (w0.iop.scktLstWrk + t) % c.dataContext_cnt)).find? (pendingOpen w0)
        = if pendingOpen w0 x = true then some x
          else ((List.range' (i + 1) rem).map
            (fun t => (w0.iop.scktLstWrk + t) % c.dataContext_cnt)).find? (pendingOpen w0) := by
      rw [List.range'_succ, List.map_cons, List.find?_cons, hx0]
      cases pendingOpen w0 x <;> rfl
    have hfin : ∀ n1 : Nat,
        (if rem = 0 then x
          else (w0.iop.scktLstWrk + (i + 1 + rem - 1)) % c.dataContext_cnt)
        = (if rem + 1 = 0 then n1
          else (w0.iop.scktLstWrk + (i + (rem + 1) - 1)) % c.dataContext_cnt) := by
      intro n1
      by_cases hr : rem = 0
      · subst hr; simp [hx0]
      · have h1 : i + 1 + rem - 1 = i + (rem + 1) - 1 := by omega
        simp [hr, h1]
    rw [hstep, scanContexts_step c i rem n0 w x hxw]
    have hs1 := sameFlags_touch w0 w x (pMillis w) hs
    cases hO : isSocketOpen w x
    · -- socket not open
      have hp : pendingOpen w0 x = false := by
        rw [← pendingOpen_same w0 w hs]
        simp [pendingOpen, hO]
      simp only [hp, Bool.false_eq_true, if_false]
      obtain ⟨ih1, ih2⟩ := ih (i + 1) x w hs
      refine ⟨ih1, ?_⟩
      intro hn
      obtain ⟨h1, h2⟩ := ih2 hn
      exact ⟨h1, by rw [h2]; exact hfin n0⟩
    · cases hD : (peer (setPeer w x { peer w x with doWorkLastTck := pMillis w }) x).dataPending
      · -- open, no data pending
        have hp : pendingOpen w0 x = false := by
          rw [← pendingOpen_same w0 _ hs1]
          simp [pendingOpen, hD]
        simp only [hp, Bool.false_eq_true, if_false, if_true]
        obtain ⟨ih1, ih2⟩ := ih (i + 1) x _ hs1
        refine ⟨ih1, ?_⟩
        intro hn
        obtain ⟨h1, h2⟩ := ih2 hn
        exact ⟨h1, by rw [h2]; exact hfin n0⟩
      · -- open, data pending: request the IRD
        have hl1 : (setPeer w x { peer w x with doWorkLastTck := pMillis w }).lockActive
            = false := by
          rw [hs1.2.2.1]; exact hlock
        obtain ⟨r1, r2, r3, r4, r5⟩ := requestIrdData_free c _ x hl1
        have hp : pendingOpen w0 x = true := by
          rw [← pendingOpen_same w0 _ hs1]
          have hO1 : isSocketOpen (setPeer w x { peer w x with doWorkLastTck := pMillis w }) x
              = true := hO
          simp [pendingOpen, hD, hO1]
        simp only [hp, if_true, r1, r3]
        refine ⟨?_, fun h => Option.noConfusion h⟩
        intro y hy
        have hxy : x = y := Option.some.inj hy
        subst hxy
        refine ⟨rfl, r3, r2, ?_, ?_⟩
        · show (S_requestIrdData c x 0 true _).2.iop.scktMap = w0.iop.scktMap
          rw [r4]
          exact hs.1
        · show (S_requestIrdData c x 0 true _).2.trace = w0.trace ++ irdRequest c w0 x
          rw [r5]
          have hpr : (peer (setPeer w x { peer w x with doWorkLastTck := pMillis w }) x).protocol
              = (peer w0 x).protocol := (hs1.2.2.2.2.2.2 x).2
          have htr : (setPeer w x { peer w x with doWorkLastTck := pMillis w }).trace = w0.trace :=
            hs.2.2.2.2.1
          rw [htr]
          simp only [irdRequest, hpr]

/-- C24: in the second block of `S_scktDoWork`, with no action lock active and
a socket open, the contexts are visited in cyclic order from the one after
`scktLstWrk`, ending with `scktLstWrk` itself; the IRD request is issued for
the first of them that is open and flagged `dataPending`, which takes the lock,
becomes the active stream peer and the new `scktLstWrk`; when there is none,
nothing is sent and `scktLstWrk` is unchanged.  With no stream active on
entry, `S_scktDoWork` is that block. -/
theorem serviceRotation_next (c : ltemc_h) (w : SocketWorld)
    (hlock : w.lockActive = false) (hopen : w.iop.scktMap ≠ 0) :
    (∀ x, (cyclicOrder c.dataContext_cnt w.iop.scktLstWrk).find? (pendingOpen w) = some x →
      (serviceRotation c w).iop.rxStreamCtrl = some x ∧
      (serviceRotation c w).iop.scktLstWrk = x ∧
      (serviceRotation c w).lockActive = true ∧
      (serviceRotation c w).trace = w.trace ++ irdRequest c w x) ∧
    ((cyclicOrder c.dataContext_cnt w.iop.scktLstWrk).find? (pendingOpen w) = none →
      0 < c.dataContext_cnt →
      (serviceRotation c w).trace = w.trace ∧
      (serviceRotation c w).lockActive = false ∧
      (serviceRotation c w).iop.rxStreamCtrl = w.iop.rxStreamCtrl ∧
      (serviceRotation c w).iop.scktLstWrk = w.iop.scktLstWrk % c.dataContext_cnt) ∧
    (w.iop.rxStreamCtrl = none → ∀ fuel, S_scktDoWork c fuel w = some (serviceRotation c w)) ∧
    (cyclicOrder c.dataContext_cnt w.iop.scktLstWrk).length = c.dataContext_cnt ∧
    (∀ i, i < c.dataContext_cnt →
      (cyclicOrder c.dataContext_cnt w.iop.scktLstWrk)[i]?
        = some ((w.iop.scktLstWrk + 1 + i) % c.dataContext_cnt)) := by
  have hrot : serviceRotation c w
      = { (scanContexts c 0 c.dataContext_cnt 0
            { w with iop := { w.iop with
              scktLstWrk := (w.iop.scktLstWrk + 1) % c.dataContext_cnt } }).1 with
          iop := { (scanContexts c 0 c.dataContext_cnt 0
              { w with iop := { w.iop with
                scktLstWrk := (w.iop.scktLstWrk + 1) % c.dataContext_cnt } }).1.iop with
            scktLstWrk := (scanContexts c 0 c.dataContext_cnt 0
              { w with iop := { w.iop with
                scktLstWrk := (w.iop.scktLstWrk + 1) % c.dataContext_cnt } }).2 } } := by
    simp [serviceRotation, atcmd_isLockActive, hlock, hopen]
  have hspec := scanContexts_spec c
    { w with iop := { w.iop with scktLstWrk := (w.iop.scktLstWrk + 1) % c.dataContext_cnt } }
    hlock c.dataContext_cnt 0 0 _ (sameFlags_refl _)
  have hord : cyclicOrder c.dataContext_cnt w.iop.scktLstWrk
      = (List.range' 0 c.dataContext_cnt).map
          (fun t => ((w.iop.scktLstWrk + 1) % c.dataContext_cnt + t) % c.dataContext_cnt) := by
    rw [cyclicOrder, List.range_eq_range']
  refine ⟨?_, ?_, ?_, by simp [cyclicOrder], ?_⟩
  · intro x hx
    rw [hord] at hx
    obtain ⟨h1, h2, h3, _, h5⟩ := hspec.1 x hx
    rw [hrot]
    exact ⟨h2, h1, h3, h5⟩
  · intro hn hcnt
    rw [hord] at hn
    obtain ⟨hsame, h2⟩ := hspec.2 hn
    rw [hrot]
    refine ⟨hsame.2.2.2.2.1, by rw [← hlock]; exact hsame.2.2.1, hsame.2.2.2.1, ?_⟩
    show (scanContexts c 0 c.dataContext_cnt 0 _).2 = _
    rw [h2]
    have hne : c.dataContext_cnt ≠ 0 := by omega
    simp only [hne, if_false]
    show ((w.iop.scktLstWrk + 1) % c.dataContext_cnt + (0 + c.dataContext_cnt - 1))
      % c.dataContext_cnt = _
    rw [Nat.mod_add_mod]
    have : w.iop.scktLstWrk + 1 + (0 + c.dataContext_cnt - 1)
        = w.iop.scktLstWrk + c.dataContext_cnt := by omega
    rw [this, Nat.add_mod_right]
  · intro hnone fuel
    simp [S_scktDoWork, processStream, hnone]
  · intro i hi
    simp only [cyclicOrder, List.getElem?_map, List.getElem?_range hi, Option.map_some',
      Nat.mod_add_mod]

/-- Witness of C24: six contexts, the sockets of contexts 0 and 2 open and both
flagged pending.  After context 0 was serviced the rotation serves 2, and after
2 it serves 0: the two are served alternately, each within two rotations. -/
theorem serviceRotation_next_witness :
    (twoSockets true true 0).lockActive = false ∧ (twoSockets true true 0).iop.scktMap ≠ 0 ∧
    cyclicOrder 6 0 = [1, 2, 3, 4, 5, 0] ∧ cyclicOrder 6 2 = [3, 4, 5, 0, 1, 2] ∧
    ((serviceRotation ltemc (twoSockets true true 0)).iop.rxStreamCtrl = some 2 ∧
      (serviceRotation ltemc (twoSockets true true 0)).iop.scktLstWrk = 2 ∧
      (serviceRotation ltemc (twoSockets true true 0)).lockActive = true ∧
      (serviceRotation ltemc (twoSockets true true 0)).trace
        = (twoSockets true true 0).trace ++ irdRequest ltemc (twoSockets true true 0) 2) ∧
    ((serviceRotation ltemc (twoSockets true true 2)).iop.rxStreamCtrl = some 0 ∧
      (serviceRotation ltemc (twoSockets true true 2)).iop.scktLstWrk = 0 ∧
      (serviceRotation ltemc (twoSockets true true 2)).lockActive = true ∧
      (serviceRotation ltemc (twoSockets true true 2)).trace
        = (twoSockets true true 2).trace ++ irdRequest ltemc (twoSockets true true 2) 0) ∧
    irdRequest ltemc (twoSockets true true 0) 2
      = [SocketEvent.IOP_sendTx [65, 84, 43, 81, 73, 82, 68, 61, 50, 44, 49, 53, 48, 48] false,
          SocketEvent.IOP_sendTx [13] true] :=
  ⟨rfl, by decide, by decide, by decide,
    (serviceRotation_next ltemc (twoSockets true true 0) rfl (by decide)).1 2 (by decide),
    (serviceRotation_next ltemc (twoSockets true true 2) rfl (by decide)).1 0 (by decide),
    by decide⟩

/-- C25 on the code: the socket of context 0 is open; `S_requestIrdData(0, 0,
true)` takes the lock and enters stream mode; no data arrives and 10001 ms
later `S_scktDoWork` leaves the drain through the IRD request timeout: the lock
is released and "IRD timeout" is notified, but `rxStreamCtrl` still points to
the socket, so stream mode holds without the lock.  (On completion of an IRD
the sibling branch does clear `rxStreamCtrl`; a failed acquisition does leave
the world untouched.) -/
theorem stream_mode_outlives_lock :
    (S_requestIrdData ltemc 0 0 true (twoSockets false false 0)).1 = true ∧
    (S_requestIrdData ltemc 0 0 true (twoSockets false false 0)).2.lockActive = true ∧
    (S_requestIrdData ltemc 0 0 true (twoSockets false false 0)).2.iop.rxStreamCtrl = some 0 ∧
    (processStream ltemc 4
        (socketClockAdvance 10001
          (S_requestIrdData ltemc 0 0 true (twoSockets false false 0)).2)).map
      (fun w => (w.iop.rxStreamCtrl, w.lockActive)) = some (some 0, false) ∧
    (S_scktDoWork ltemc 4
        (socketClockAdvance 10001
          (S_requestIrdData ltemc 0 0 true (twoSockets false false 0)).2)).map
      (fun w => (w.iop.rxStreamCtrl, w.lockActive, w.trace))
      = some (some 0, false,
          [SocketEvent.IOP_sendTx [65, 84, 43, 81, 73, 82, 68, 61, 48, 44, 49, 53, 48, 48] false,
            SocketEvent.IOP_sendTx [13] true, SocketEvent.ltem_notifyApp "IRD timeout"]) ∧
    (∀ (c : ltemc_h) (w : SocketWorld) (cx reqstSz : Nat), w.lockActive = true →
      S_requestIrdData c cx reqstSz true w = (false, w)) := by
  refine ⟨by decide, by decide, by decide, by decide, by decide, ?_⟩
  intro c w cx reqstSz h
  exact requestIrdData_held c w cx reqstSz h

end LTEm1
